import Mathlib

/-!
# Endstops: the homing controller of Smoothie

A shallow embedding of `src/modules/tools/endstops/Endstops.cpp`.

* C arrays indexed by axis (`0 = X`, `1 = Y`, `2 = Z`) are functions `Nat → α`,
  written to with `Function.update`; the six endstop pins are indexed `0..5`
  (`0..2` the min pins, `3..5` the max pins).
* `float` quantities (`feed_rate`, `fast_rates`, `steps_per_mm`, ...) are
  rationals.  The `float` products and quotients of the M666 handler and of
  `trim2mm` are rounded to IEEE-754 binary32 by `float32`; the definitions
  named `_exact` are the same routines without that rounding.  `uint32_t`
  values are naturals reduced modulo `2 ^ 32` where the source converts or
  adds.
* The blocking wait loops yield to `THEKERNEL->call_event(ON_IDLE)`.  The
  outside world is a list of `Sample`s, one consumed by each idle call: it
  fixes what the pins read and which steppers are still moving until the next
  idle call.  A loop that is still waiting when the samples run out ends in
  `Outcome.blocked`, carrying the state reached so far.
* Every request made to a stepper (and to the robot) is appended to the ghost
  field `log`, so that theorems can speak about the commands issued; every
  value assigned to `status` is appended to the ghost field `status_log`.
* `StepperMotor`, `Pin`, `Gcode` and the kernel objects are declared outside
  this source file.  A stepper is a record of its `moving` flag, its step rate
  and its last move request; `debounce_count`, `retract_steps`,
  `steps_per_second` and `minimum_steps_per_second` are unsigned integers and
  `trim` is a signed integer, as the source uses them.
-/

namespace Smoothie

/-! ## Constants -/

def X_AXIS : Nat := 0
def Y_AXIS : Nat := 1
def Z_AXIS : Nat := 2

def NOT_HOMING : Nat := 0
def MOVING_TO_ORIGIN_FAST : Nat := 1
def MOVING_BACK : Nat := 2
def MOVING_TO_ORIGIN_SLOW : Nat := 3

/-! ## Data model -/

/-- A request observed at the boundary of the module: stepper `move` and
`set_speed` calls, the robot's `reset_axis_position`, and the stepper
driver's `turn_enable_pins_on`. -/
inductive Cmd where
  | move (axis : Nat) (direction : Bool) (steps : Nat)
  | set_speed (axis : Nat) (rate : Nat)
  | reset_axis_position (position : ℚ) (axis : Nat)
  | turn_enable_pins_on
  deriving DecidableEq, Repr

/-- Modelled from the spec: the external `StepperMotor` (its class is not part
of the sources).  It exposes a `moving` flag, a settable step rate and a move
request taking a direction and a step count. -/
structure StepperMotor where
  moving : Bool
  steps_per_second : Nat
  direction_bit : Bool
  steps_to_move : Nat
  deriving DecidableEq, Repr

/-- Modelled from the spec: `StepperMotor::move(direction, steps)`, the
move request.  A request for zero steps is the stop request and leaves the
motor not moving; any other request leaves it moving. -/
def StepperMotor.move (m : StepperMotor) (direction : Bool) (steps : Nat) : StepperMotor :=
  { m with direction_bit := direction, steps_to_move := steps, moving := decide (0 < steps) }

/-- Modelled from the spec: `StepperMotor::set_speed(rate)` stores the
commanded step rate, which is what `steps_per_second` reads back. -/
def StepperMotor.set_speed (m : StepperMotor) (rate : Nat) : StepperMotor :=
  { m with steps_per_second := rate }

/-- The fields of the `Endstops` module object, together with the three
steppers it points to, the ghost `log` of requests issued so far and the
ghost `status_log` of the values written to `status` so far. -/
structure Endstops where
  status : Nat
  home_direction : Nat → Bool
  debounce_count : Nat
  pins_connected : Nat → Bool
  steps_per_mm : Nat → ℚ
  fast_rates : Nat → ℚ
  slow_rates : Nat → ℚ
  retract_steps : Nat → Nat
  trim : Nat → Int
  homing_position : Nat → ℚ
  home_offset : Nat → ℚ
  is_corexy : Bool
  is_delta : Bool
  feed_rate : Nat → ℚ
  steppers : Nat → StepperMotor
  log : List Cmd
  status_log : List Nat

/-- The values `acceleration_tick` reads from `THEKERNEL`:
`planner->acceleration`, `stepper->acceleration_ticks_per_second` and
`stepper->minimum_steps_per_second`. -/
structure Kernel where
  acceleration : ℚ
  acceleration_ticks_per_second : ℚ
  minimum_steps_per_second : Nat

/-- What one `call_event(ON_IDLE)` leaves behind for the homing loop: the
value `pins[i].get()` returns, and the `moving` flag of each stepper. -/
structure Sample where
  pins : Nat → Bool
  moving : Nat → Bool

/-- The result of a blocking routine run against a finite list of samples. -/
inductive Outcome where
  | done (e : Endstops) (rest : List Sample)
  | blocked (e : Endstops)

/-- The state carried by an outcome, finished or not. -/
def Outcome.state : Outcome → Endstops
  | Outcome.done e _ => e
  | Outcome.blocked e => e

/-- Whether the routine returned. -/
def Outcome.finished : Outcome → Bool
  | Outcome.done _ _ => true
  | Outcome.blocked _ => false

/-- The samples left unconsumed (none when blocked). -/
def Outcome.rest : Outcome → List Sample
  | Outcome.done _ rest => rest
  | Outcome.blocked _ => []

/-- Sequencing of blocking routines. -/
def Outcome.andThen (o : Outcome) (f : Endstops → List Sample → Outcome) : Outcome :=
  match o with
  | Outcome.done e rest => f e rest
  | Outcome.blocked e => Outcome.blocked e

/-! ## Stepper requests -/

/-- The call `this->steppers[c]->move(direction, steps)`. -/
def Endstops.stepper_move (e : Endstops) (c : Nat) (direction : Bool) (steps : Nat) : Endstops :=
  { e with
    steppers := Function.update e.steppers c ((e.steppers c).move direction steps),
    log := e.log ++ [Cmd.move c direction steps] }

/-- The call `this->steppers[c]->set_speed(rate)`. -/
def Endstops.stepper_set_speed (e : Endstops) (c : Nat) (rate : Nat) : Endstops :=
  { e with
    steppers := Function.update e.steppers c ((e.steppers c).set_speed rate),
    log := e.log ++ [Cmd.set_speed c rate] }

/-- The assignment `this->status = s`. -/
def Endstops.set_status (e : Endstops) (s : Nat) : Endstops :=
  { e with status := s, status_log := e.status_log ++ [s] }

/-- The call `THEKERNEL->call_event(ON_IDLE)`: the background work may have
changed which steppers are moving. -/
def on_idle (s : Sample) (e : Endstops) : Endstops :=
  { e with steppers := fun c => { e.steppers c with moving := s.moving c } }

/-- The test `( axes_to_move >> ( c - 'X' ) ) & 1`. -/
def axis_requested (axes_to_move c : Nat) : Bool :=
  (axes_to_move >>> c) &&& 1 != 0

/-- The index `c + (home_direction[c] ? 0 : 3)` of the pin an axis homes to. -/
def home_pin (e : Endstops) (c : Nat) : Nat :=
  c + (if e.home_direction c then 0 else 3)

/-! ## `wait_for_homed` -/

/-- The locals of `wait_for_homed` (and of `wait_for_homed_corexy`) together
with the module state. -/
structure Homed where
  debounce : Nat → Nat
  running : Bool
  e : Endstops

/-- The body of the `for` loop of `wait_for_homed` for one axis `c`. -/
def wait_for_homed_axis (axes_to_move : Nat) (s : Sample) (c : Nat) (h : Homed) : Homed :=
  if axis_requested axes_to_move c then
    if s.pins (home_pin h.e c) then
      if h.debounce c < h.e.debounce_count then
        { h with debounce := Function.update h.debounce c (h.debounce c + 1), running := true }
      else if (h.e.steppers c).moving then
        { h with e := h.e.stepper_move c false 0 }
      else h
    else
      { h with running := true, debounce := Function.update h.debounce c 0 }
  else h

/-- One iteration of the `while` loop of `wait_for_homed`: `running = false`,
the idle call, then the three axes in order. -/
def wait_for_homed_iter (axes_to_move : Nat) (s : Sample) (debounce : Nat → Nat)
    (e : Endstops) : Homed :=
  wait_for_homed_axis axes_to_move s 2
    (wait_for_homed_axis axes_to_move s 1
      (wait_for_homed_axis axes_to_move s 0
        { debounce := debounce, running := false, e := on_idle s e }))

/-- The `while (running)` loop of `wait_for_homed`, entered with `running`
true. -/
def wait_for_homed_loop (axes_to_move : Nat) : List Sample → (Nat → Nat) → Endstops → Outcome
  | [], _, e => Outcome.blocked e
  | s :: rest, debounce, e =>
    let h := wait_for_homed_iter axes_to_move s debounce e
    if h.running then wait_for_homed_loop axes_to_move rest h.debounce h.e
    else Outcome.done h.e rest

/-- The routine `Endstops::wait_for_homed(axes_to_move)`. -/
def wait_for_homed (axes_to_move : Nat) (e : Endstops) (env : List Sample) : Outcome :=
  wait_for_homed_loop axes_to_move env (fun _ => 0) e

/-! ## `do_homing` -/

/-- The three statements `feed_rate[c] = rate; steppers[c]->set_speed(0);
steppers[c]->move(direction, steps);` that start every homing move. -/
def start_move (c : Nat) (rate : ℚ) (direction : Bool) (steps : Nat) (e : Endstops) : Endstops :=
  (({ e with feed_rate := Function.update e.feed_rate c rate }).stepper_set_speed c 0).stepper_move
    c direction steps

/-- A loop `for ( char c = 'X'; c <= 'Z'; c++ )` over the three axes. -/
def for_each_axis (body : Nat → Endstops → Endstops) (e : Endstops) : Endstops :=
  body 2 (body 1 (body 0 e))

/-- The loop `while ( this->steppers[c]->moving ) call_event(ON_IDLE);`. -/
def wait_while_moving (c : Nat) : List Sample → Endstops → Outcome
  | [], e => if (e.steppers c).moving then Outcome.blocked e else Outcome.done e []
  | s :: rest, e =>
    if (e.steppers c).moving then wait_while_moving c rest (on_idle s e)
    else Outcome.done e (s :: rest)

/-- The loop "Wait for moves to be done" over the requested axes. -/
def wait_for_moves (axes_to_move : Nat) (e : Endstops) (env : List Sample) : Outcome :=
  let step := fun (c : Nat) (e : Endstops) (env : List Sample) =>
    if axis_requested axes_to_move c then wait_while_moving c env e else Outcome.done e env
  ((step 0 e env).andThen (step 1)).andThen (step 2)

/-- The block "Start moving the axes to the origin" of `do_homing`. -/
def seek_fast_moves (axes_to_move : Nat) (e : Endstops) : Endstops :=
  for_each_axis (fun c e =>
      if axis_requested axes_to_move c then
        start_move c (e.fast_rates c) (e.home_direction c) 10000000 e
      else e)
    (e.set_status MOVING_TO_ORIGIN_FAST)

/-- The block "Move back a small distance" of `do_homing`. -/
def retract_moves (axes_to_move : Nat) (e : Endstops) : Endstops :=
  for_each_axis (fun c e =>
      if axis_requested axes_to_move c then
        start_move c (e.slow_rates c) (!e.home_direction c) (e.retract_steps c) e
      else e)
    (e.set_status MOVING_BACK)

/-- The block "Start moving the axes to the origin slowly" of `do_homing`. -/
def seek_slow_moves (axes_to_move : Nat) (e : Endstops) : Endstops :=
  for_each_axis (fun c e =>
      if axis_requested axes_to_move c then
        start_move c (e.slow_rates c) (e.home_direction c) 10000000 e
      else e)
    (e.set_status MOVING_TO_ORIGIN_SLOW)

/-- The block "move for soft trim" of `do_homing`, run on a delta only. -/
def trim_moves (axes_to_move : Nat) (e : Endstops) : Endstops :=
  for_each_axis (fun c e =>
      if e.trim c != 0 && axis_requested axes_to_move c then
        let inverted_dir := !e.home_direction c
        let inverted_dir := if e.trim c < 0 then !inverted_dir else inverted_dir
        start_move c (e.slow_rates c) inverted_dir (e.trim c).natAbs e
      else e)
    (e.set_status MOVING_BACK)

/-- The delta-only tail of `do_homing`: the soft-trim moves and the wait for
them. -/
def do_homing_trim (axes_to_move : Nat) (e : Endstops) (env : List Sample) : Outcome :=
  wait_for_moves axes_to_move (trim_moves axes_to_move e) env

/-- The routine `Endstops::do_homing(axes_to_move)`. -/
def do_homing (axes_to_move : Nat) (e : Endstops) (env : List Sample) : Outcome :=
  (wait_for_homed axes_to_move (seek_fast_moves axes_to_move e) env).andThen fun e2 env2 =>
  (wait_for_moves axes_to_move (retract_moves axes_to_move e2) env2).andThen fun e4 env4 =>
  (wait_for_homed axes_to_move (seek_slow_moves axes_to_move e4) env4).andThen fun e6 env6 =>
  (if e6.is_delta then do_homing_trim axes_to_move e6 env6 else Outcome.done e6 env6).andThen
    fun e7 env7 => Outcome.done (e7.set_status NOT_HOMING) env7

/-! ## CoreXY homing -/

/-- One iteration of the `while` loop of `wait_for_homed_corexy`. -/
def wait_for_homed_corexy_iter (axis : Nat) (s : Sample) (debounce : Nat → Nat)
    (e : Endstops) : Homed :=
  let h : Homed := { debounce := debounce, running := false, e := on_idle s e }
  if s.pins (home_pin h.e axis) then
    if h.debounce axis < h.e.debounce_count then
      { h with debounce := Function.update h.debounce axis (h.debounce axis + 1), running := true }
    else
      let e1 := if (h.e.steppers X_AXIS).moving then h.e.stepper_move X_AXIS false 0 else h.e
      let e2 := if (e1.steppers Y_AXIS).moving then e1.stepper_move Y_AXIS false 0 else e1
      { h with e := e2 }
  else
    { h with running := true, debounce := Function.update h.debounce axis 0 }

/-- The `while (running)` loop of `wait_for_homed_corexy`. -/
def wait_for_homed_corexy_loop (axis : Nat) : List Sample → (Nat → Nat) → Endstops → Outcome
  | [], _, e => Outcome.blocked e
  | s :: rest, debounce, e =>
    let h := wait_for_homed_corexy_iter axis s debounce e
    if h.running then wait_for_homed_corexy_loop axis rest h.debounce h.e
    else Outcome.done h.e rest

/-- The routine `Endstops::wait_for_homed_corexy(axis)`. -/
def wait_for_homed_corexy (axis : Nat) (e : Endstops) (env : List Sample) : Outcome :=
  wait_for_homed_corexy_loop axis env (fun _ => 0) e

/-- The loop `while ( steppers[X_AXIS]->moving || steppers[Y_AXIS]->moving )
call_event(ON_IDLE);` of `corexy_home`. -/
def wait_while_xy_moving : List Sample → Endstops → Outcome
  | [], e =>
    if (e.steppers X_AXIS).moving || (e.steppers Y_AXIS).moving then Outcome.blocked e
    else Outcome.done e []
  | s :: rest, e =>
    if (e.steppers X_AXIS).moving || (e.steppers Y_AXIS).moving then
      wait_while_xy_moving rest (on_idle s e)
    else Outcome.done e (s :: rest)

/-- The block of `corexy_home` that starts the two motors: `status = st`, then
for X and for Y in turn `feed_rate = rate; set_speed(0); move(dir, steps)`. -/
def corexy_moves (dirx diry : Bool) (rate : ℚ) (steps st : Nat) (e : Endstops) : Endstops :=
  start_move Y_AXIS rate diry steps (start_move X_AXIS rate dirx steps (e.set_status st))

/-- The routine `Endstops::corexy_home`. -/
def corexy_home (home_axis : Nat) (dirx diry : Bool) (fast_rate slow_rate : ℚ)
    (retract_steps : Nat) (e : Endstops) (env : List Sample) : Outcome :=
  let e1 := corexy_moves dirx diry fast_rate 10000000 MOVING_TO_ORIGIN_FAST e
  (wait_for_homed_corexy home_axis e1 env).andThen fun e2 env2 =>
  let e3 := corexy_moves (!dirx) (!diry) slow_rate retract_steps MOVING_BACK e2
  (wait_while_xy_moving env2 e3).andThen fun e4 env4 =>
  let e5 := corexy_moves dirx diry slow_rate 10000000 MOVING_TO_ORIGIN_SLOW e4
  wait_for_homed_corexy home_axis e5 env4

/-- The motor and direction chosen by `do_homing_corexy` when both X and Y
are homed: the `if / else if` chain on `dirx` and `diry` (its fourth test,
`!dirx && !diry`, holds whenever the first three fail). -/
def corexy_motor_dir (dirx diry : Bool) : Nat × Bool :=
  if dirx && diry then (X_AXIS, true)
  else if dirx && !diry then (Y_AXIS, true)
  else if !dirx && diry then (Y_AXIS, false)
  else (X_AXIS, false)

/-- The loop of `do_homing_corexy` that waits "until either X or Y hits the
endstop": the pins of X then Y are read, the first asserted one stops the
driven motor and leaves the loop. -/
def corexy_search_loop (motor : Nat) : List Sample → Endstops → Outcome
  | [], e => Outcome.blocked e
  | s :: rest, e =>
    let e1 := on_idle s e
    let stop := fun (e : Endstops) =>
      if (e.steppers motor).moving then e.stepper_move motor false 0 else e
    if s.pins (home_pin e1 X_AXIS) then Outcome.done (stop e1) rest
    else if s.pins (home_pin e1 Y_AXIS) then Outcome.done (stop e1) rest
    else corexy_search_loop motor rest e1

/-- The first block of `do_homing_corexy`, run when
`(axes_to_move & 0x03) == 0x03`: one motor is driven diagonally until an
endstop of X or Y is hit. -/
def corexy_search (e : Endstops) (env : List Sample) : Outcome :=
  let dirx := e.home_direction X_AXIS
  let diry := e.home_direction Y_AXIS
  let motor := (corexy_motor_dir dirx diry).1
  let dir := (corexy_motor_dir dirx diry).2
  let e1 := start_move motor (e.fast_rates motor * (14142 / 10000)) dir 10000000
    (e.set_status MOVING_TO_ORIGIN_FAST)
  corexy_search_loop motor env e1

/-- The routine `Endstops::do_homing_corexy(axes_to_move)`. -/
def do_homing_corexy (axes_to_move : Nat) (e : Endstops) (env : List Sample) : Outcome :=
  (if axes_to_move &&& 3 = 3 then corexy_search e env else Outcome.done e env).andThen
    fun e1 env1 =>
  (if axes_to_move &&& 1 ≠ 0 then
      let dir := e1.home_direction X_AXIS
      corexy_home X_AXIS dir dir (e1.fast_rates X_AXIS) (e1.slow_rates X_AXIS)
        (e1.retract_steps X_AXIS) e1 env1
    else Outcome.done e1 env1).andThen fun e2 env2 =>
  (if axes_to_move &&& 2 ≠ 0 then
      let dir := e2.home_direction Y_AXIS
      corexy_home Y_AXIS dir (!dir) (e2.fast_rates Y_AXIS) (e2.slow_rates Y_AXIS)
        (e2.retract_steps Y_AXIS) e2 env2
    else Outcome.done e2 env2).andThen fun e3 env3 =>
  (if axes_to_move &&& 4 ≠ 0 then do_homing 4 e3 env3 else Outcome.done e3 env3).andThen
    fun e4 env4 => Outcome.done (e4.set_status NOT_HOMING) env4

/-! ## The home command (G28) -/

/-- The part of a received `Gcode` the module looks at: the G or M number and
the value carried by each letter, if present. -/
structure Gcode where
  has_g : Bool
  g : Nat
  has_m : Bool
  m : Nat
  letters : Char → Option ℚ

/-- The query `gcode->has_letter(c)`. -/
def Gcode.has_letter (gcode : Gcode) (c : Char) : Bool :=
  (gcode.letters c).isSome

/-- The letter `'X' + c` of axis `c`. -/
def axis_letter (c : Nat) : Char :=
  Char.ofNat ('X'.toNat + c)

/-- The flag `home_all` of the G28 handler. -/
def g28_home_all (e : Endstops) (gcode : Gcode) : Bool :=
  e.is_delta || !(gcode.has_letter 'X' || gcode.has_letter 'Y' || gcode.has_letter 'Z')

/-- The body of the loop that builds `axes_to_move` in the G28 handler. -/
def g28_add_axis (e : Endstops) (gcode : Gcode) (c : Nat) (axes_to_move : Nat) : Nat :=
  if (g28_home_all e gcode || gcode.has_letter (axis_letter c))
      && e.pins_connected (home_pin e c) then
    axes_to_move + (1 <<< c)
  else axes_to_move

/-- The value of `axes_to_move` computed by the G28 handler. -/
def g28_axes_to_move (e : Endstops) (gcode : Gcode) : Nat :=
  g28_add_axis e gcode 2 (g28_add_axis e gcode 1 (g28_add_axis e gcode 0 0))

/-- The loop of the G28 handler that resets the position of every homed
axis: "Zero the ax(i/e)s position, add in the home offset". -/
def g28_reset_positions (axes_to_move : Nat) (e : Endstops) : Endstops :=
  for_each_axis (fun c e =>
      if (axes_to_move >>> c) &&& 1 ≠ 0 then
        { e with log := e.log ++
            [Cmd.reset_axis_position (e.homing_position c + e.home_offset c) c] }
      else e) e

/-- The G28 branch of `Endstops::on_gcode_received`: (after the conveyor's
queue has drained) compute the axes, enable the motors, home, and reset the
position of every homed axis. -/
def on_gcode_received_G28 (e : Endstops) (gcode : Gcode) (env : List Sample) : Outcome :=
  let axes_to_move := g28_axes_to_move e gcode
  let e1 := { e with log := e.log ++ [Cmd.turn_enable_pins_on] }
  (if e1.is_corexy then do_homing_corexy axes_to_move e1 env
    else do_homing axes_to_move e1 env).andThen fun e2 env2 =>
  Outcome.done (g28_reset_positions axes_to_move e2) env2

/-! ## The M-code handlers -/

/-- Modelled from the spec: `Gcode::get_value(c)`, the number that follows
letter `c` in the command (the `Gcode` class is not part of the sources); 0
when the letter is absent. -/
def Gcode.get_value (gcode : Gcode) (c : Char) : ℚ :=
  (gcode.letters c).getD 0

/-- The M206 branch of `Endstops::on_gcode_received`: set the homing offset
of every axis whose letter is present. -/
def on_gcode_received_M206 (e : Endstops) (gcode : Gcode) : Endstops :=
  let e := if gcode.has_letter 'X' then
      { e with home_offset := Function.update e.home_offset 0 (gcode.get_value 'X') } else e
  let e := if gcode.has_letter 'Y' then
      { e with home_offset := Function.update e.home_offset 1 (gcode.get_value 'Y') } else e
  if gcode.has_letter 'Z' then
    { e with home_offset := Function.update e.home_offset 2 (gcode.get_value 'Z') } else e

/-- The C library function `lround`: the nearest integer, halfway cases
rounded away from zero.  The result is an unbounded integer; it is the value
of the `long` the source obtains when it is below `2 ^ 31` in magnitude. -/
def lround (q : ℚ) : Int :=
  if 0 ≤ q then ⌊q + 1 / 2⌋ else -⌊-q + 1 / 2⌋

/-- The sign `home_direction[c] ? 1 : -1` used by the trim conversions. -/
def trim_dir (e : Endstops) (c : Nat) : Int :=
  if e.home_direction c then 1 else -1

/-- Rounding to the nearest integer, halfway cases to the even one. -/
def round_half_even (q : ℚ) : Int :=
  if q - ⌊q⌋ < 1 / 2 then ⌊q⌋
  else if 1 / 2 < q - ⌊q⌋ then ⌊q⌋ + 1
  else if ⌊q⌋ % 2 = 0 then ⌊q⌋ else ⌊q⌋ + 1

/-- The binary exponent at which a value is rounded to `float`: the exponent
of its binade, and -126 for zero and in the subnormal range. -/
def float32_exponent (q : ℚ) : Int :=
  if q = 0 then -126 else max (Int.log 2 |q|) (-126)

/-- The rounding of an exact arithmetic result to `float`: IEEE-754 binary32,
24 significant bits, round to nearest, ties to even.  A result of magnitude
`2 ^ 128` or more, which is infinite in binary32, is rounded as if the
exponent range had no upper end. -/
def float32 (q : ℚ) : ℚ :=
  round_half_even (q / 2 ^ (float32_exponent q - 23)) * 2 ^ (float32_exponent q - 23)

/-- The routine `Endstops::trim2mm(mm)`: the array `mm` it fills in.  The
divisor `steps_per_mm[i]` is a `float` member (declared in the header), so
the `int` trim is converted to `float`, the quotient is rounded to `float`,
and the product with the sign, 1 or -1, is exact. -/
def trim2mm (e : Endstops) : Nat → ℚ :=
  Function.update
    (Function.update
      (Function.update (fun _ => 0) 0
        (float32 (float32 (e.trim 0 : ℚ) / e.steps_per_mm 0) * (trim_dir e 0 : ℚ)))
      1 (float32 (float32 (e.trim 1 : ℚ) / e.steps_per_mm 1) * (trim_dir e 1 : ℚ)))
    2 (float32 (float32 (e.trim 2 : ℚ) / e.steps_per_mm 2) * (trim_dir e 2 : ℚ))

/-- The array `mm` of the M666 handler after the letters have been read. -/
def m666_mm (e : Endstops) (gcode : Gcode) : Nat → ℚ :=
  let mm := trim2mm e
  let mm := if gcode.has_letter 'X' then Function.update mm 0 (gcode.get_value 'X') else mm
  let mm := if gcode.has_letter 'Y' then Function.update mm 1 (gcode.get_value 'Y') else mm
  if gcode.has_letter 'Z' then Function.update mm 2 (gcode.get_value 'Z') else mm

/-- The M666 branch of `Endstops::on_gcode_received`: set the trim of each
axis from a value in mm.  Both `mm[i]` (declared `float` in the routine) and
`steps_per_mm[i]` are `float`, so the product `mm[i] * steps_per_mm[i]` is
rounded to `float` before `lround` is applied to it. -/
def on_gcode_received_M666 (e : Endstops) (gcode : Gcode) : Endstops :=
  let mm := m666_mm e gcode
  let trim := Function.update e.trim 0
    (lround (float32 (mm 0 * e.steps_per_mm 0)) * trim_dir e 0)
  let trim := Function.update trim 1
    (lround (float32 (mm 1 * e.steps_per_mm 1)) * trim_dir e 1)
  let trim := Function.update trim 2
    (lround (float32 (mm 2 * e.steps_per_mm 2)) * trim_dir e 2)
  { e with trim := trim }

/-- The routine `Endstops::trim2mm(mm)` in exact arithmetic: the quotient is
taken as the exact rational, without rounding to `float`. -/
def trim2mm_exact (e : Endstops) : Nat → ℚ :=
  Function.update
    (Function.update
      (Function.update (fun _ => 0) 0 ((e.trim 0 : ℚ) / e.steps_per_mm 0 * (trim_dir e 0 : ℚ)))
      1 ((e.trim 1 : ℚ) / e.steps_per_mm 1 * (trim_dir e 1 : ℚ)))
    2 ((e.trim 2 : ℚ) / e.steps_per_mm 2 * (trim_dir e 2 : ℚ))

/-- The array `mm` of the M666 handler after the letters have been read, in
exact arithmetic. -/
def m666_mm_exact (e : Endstops) (gcode : Gcode) : Nat → ℚ :=
  let mm := trim2mm_exact e
  let mm := if gcode.has_letter 'X' then Function.update mm 0 (gcode.get_value 'X') else mm
  let mm := if gcode.has_letter 'Y' then Function.update mm 1 (gcode.get_value 'Y') else mm
  if gcode.has_letter 'Z' then Function.update mm 2 (gcode.get_value 'Z') else mm

/-- The M666 branch of `Endstops::on_gcode_received` in exact arithmetic: the
product `mm[i] * steps_per_mm[i]` is taken as the exact rational, without
rounding to `float`. -/
def on_gcode_received_M666_exact (e : Endstops) (gcode : Gcode) : Endstops :=
  let mm := m666_mm_exact e gcode
  let trim := Function.update e.trim 0 (lround (mm 0 * e.steps_per_mm 0) * trim_dir e 0)
  let trim := Function.update trim 1 (lround (mm 1 * e.steps_per_mm 1) * trim_dir e 1)
  let trim := Function.update trim 2 (lround (mm 2 * e.steps_per_mm 2) * trim_dir e 2)
  { e with trim := trim }

/-! ## Configuration -/

/-- The value `on_config_reload` stores in `retract_steps[c]` for a retract
distance given in mm: the product `mm * steps_per_mm[c]` converted to an
integer (the distance is not negative). -/
def config_retract_steps (mm steps_per_mm : ℚ) : Nat :=
  ⌊mm * steps_per_mm⌋.toNat

/-! ## `acceleration_tick` -/

/-- The conversion of an `int` to `uint32_t`. -/
def to_uint32 (z : Int) : Nat :=
  (z % 4294967296).toNat

/-- The macro `max(a,b) (((a) > (b)) ? (a) : (b))`. -/
def cmax (a b : Nat) : Nat :=
  if a > b then a else b

/-- The local `target_rate = int(floor(this->feed_rate[c]))`. -/
def target_rate (e : Endstops) (c : Nat) : Nat :=
  to_uint32 ⌊e.feed_rate c⌋

/-- The local `rate_increase =
int(floor((acceleration/acceleration_ticks_per_second)*steps_per_mm[c]))`. -/
def rate_increase (K : Kernel) (e : Endstops) (c : Nat) : Nat :=
  to_uint32 ⌊K.acceleration / K.acceleration_ticks_per_second * e.steps_per_mm c⌋

/-- The value of `current_rate` after the two `if` statements of
`acceleration_tick`, before the `max` with the minimum rate. -/
def ramped_rate (current_rate target_rate rate_increase : Nat) : Nat :=
  let current_rate :=
    if current_rate < target_rate then
      min target_rate ((current_rate + rate_increase) % 4294967296)
    else current_rate
  if current_rate > target_rate then target_rate else current_rate

/-- The body of the `for` loop of `acceleration_tick` for stepper `c`. -/
def acceleration_tick_axis (K : Kernel) (c : Nat) (e : Endstops) : Endstops :=
  if !(e.steppers c).moving then e
  else
    let current_rate := (e.steppers c).steps_per_second % 4294967296
    e.stepper_set_speed c
      (cmax (ramped_rate current_rate (target_rate e c) (rate_increase K e c))
        K.minimum_steps_per_second)

/-- The routine `Endstops::acceleration_tick` (its return value is always 0
and is dropped). -/
def acceleration_tick (K : Kernel) (e : Endstops) : Endstops :=
  if e.status = NOT_HOMING then e
  else acceleration_tick_axis K 2 (acceleration_tick_axis K 1 (acceleration_tick_axis K 0 e))

/-! ## Vocabulary for the statements -/

/-- The stepper a request is addressed to, if it is a stepper request. -/
def Cmd.stepper : Cmd → Option Nat
  | Cmd.move axis _ _ => some axis
  | Cmd.set_speed axis _ => some axis
  | Cmd.reset_axis_position _ _ => none
  | Cmd.turn_enable_pins_on => none

/-- The requests of a log that are addressed to stepper `c`, in order. -/
def cmds_for (c : Nat) (log : List Cmd) : List Cmd :=
  log.filter (fun cmd => cmd.stepper == some c)

/-- The length of the run of consecutive asserted readings of `pin` that
ends with the last of `samples`. -/
def asserted_run (pin : Nat) (samples : List Sample) : Nat :=
  samples.foldl (fun n s => if s.pins pin then n + 1 else 0) 0

/-- The debounce counters and the module state after the loop body of
`wait_for_homed` has run once for each of `samples`, whatever `running`
was. -/
def wait_for_homed_polled (axes_to_move : Nat) (debounce : Nat → Nat) (e : Endstops)
    (samples : List Sample) : (Nat → Nat) × Endstops :=
  samples.foldl
    (fun st s =>
      ((wait_for_homed_iter axes_to_move s st.1 st.2).debounce,
        (wait_for_homed_iter axes_to_move s st.1 st.2).e))
    (debounce, e)

/-- Whether axis `c` keeps the loop of `wait_for_homed` running at sample `s`:
it is requested and its pin is not asserted or its counter is below the
threshold. -/
def axis_waiting (a : Nat) (s : Sample) (d : Nat → Nat) (e : Endstops) (c : Nat) : Bool :=
  axis_requested a c && (!s.pins (home_pin e c) || decide (d c < e.debounce_count))

/-- The requests `wait_for_homed` sends to stepper `c` at sample `s`: the stop
request, when the axis is requested, its pin asserted, its counter at the
threshold and the stepper still moving. -/
def axis_stops (a : Nat) (s : Sample) (d : Nat → Nat) (e : Endstops) (c : Nat) : List Cmd :=
  if axis_requested a c && s.pins (home_pin e c) && !decide (d c < e.debounce_count)
      && s.moving c then
    [Cmd.move c false 0]
  else []

/-- The rate `acceleration_tick` passes to `set_speed` for a moving stepper
`c`: the ramped rate, floored by the minimum rate. -/
def tick_rate (K : Kernel) (e : Endstops) (c : Nat) : Nat :=
  cmax (ramped_rate ((e.steppers c).steps_per_second % 4294967296) (target_rate e c)
    (rate_increase K e c)) K.minimum_steps_per_second

/-- The requests `acceleration_tick` sends to stepper `c`. -/
def tick_cmds (K : Kernel) (e : Endstops) (c : Nat) : List Cmd :=
  if (e.steppers c).moving then [Cmd.set_speed c (tick_rate K e c)] else []

/-- The axis a request resets the position of, if it is a
`reset_axis_position` of the robot. -/
def Cmd.reset_axis : Cmd → Option Nat
  | Cmd.reset_axis_position _ axis => some axis
  | _ => none

/-- The position resets of axis `c` in a log, in order. -/
def resets_for (c : Nat) (log : List Cmd) : List Cmd :=
  log.filter (fun cmd => cmd.reset_axis == some c)

/-- The condition under which the G28 handler adds axis `c` to the mask. -/
def g28_selected (e : Endstops) (gcode : Gcode) (c : Nat) : Bool :=
  (g28_home_all e gcode || gcode.has_letter (axis_letter c))
    && e.pins_connected (home_pin e c)

/-- Two states of the module with the same configuration: every field but
`status`, `feed_rate`, the steppers and the ghost logs. -/
structure SameConfig (e e' : Endstops) : Prop where
  home_direction : e'.home_direction = e.home_direction
  debounce_count : e'.debounce_count = e.debounce_count
  pins_connected : e'.pins_connected = e.pins_connected
  steps_per_mm : e'.steps_per_mm = e.steps_per_mm
  fast_rates : e'.fast_rates = e.fast_rates
  slow_rates : e'.slow_rates = e.slow_rates
  retract_steps : e'.retract_steps = e.retract_steps
  trim : e'.trim = e.trim
  homing_position : e'.homing_position = e.homing_position
  home_offset : e'.home_offset = e.home_offset
  is_corexy : e'.is_corexy = e.is_corexy
  is_delta : e'.is_delta = e.is_delta

/-- A piece of a homing run from state `e` to state `e'`: the configuration
is kept, the values written to `status` are exactly `t`, and every request
added to the log is a stepper request to a stepper in `S`. -/
structure HomingStep (S : Nat → Prop) (t : List Nat) (e e' : Endstops) : Prop where
  config : SameConfig e e'
  status_log : e'.status_log = e.status_log ++ t
  status : e'.status = t.getLast?.getD e.status
  log : ∃ added, e'.log = e.log ++ added ∧ ∀ x ∈ added, ∃ c, x.stepper = some c ∧ S c

/-- A blocking routine started in state `e` that writes the values `full` to
`status` when it returns, and a prefix of them when it is still blocked. -/
def Runs (S : Nat → Prop) (full : List Nat) (e : Endstops) (o : Outcome) : Prop :=
  ∃ t, t <+: full ∧ (o.finished = true → t = full) ∧ HomingStep S t e o.state

/-- The state in which the Retract phase of `do_homing` starts: the one the
first `wait_for_homed` returns. -/
def do_homing_seek_fast (axes_to_move : Nat) (e : Endstops) (env : List Sample) : Outcome :=
  wait_for_homed axes_to_move (seek_fast_moves axes_to_move e) env

/-- The run of `do_homing` up to the end of the Retract phase. -/
def do_homing_retract (axes_to_move : Nat) (e : Endstops) (env : List Sample) : Outcome :=
  (do_homing_seek_fast axes_to_move e env).andThen fun e2 env2 =>
    wait_for_moves axes_to_move (retract_moves axes_to_move e2) env2

/-- The run of `do_homing` up to the return of the second `wait_for_homed`. -/
def do_homing_seek_slow (axes_to_move : Nat) (e : Endstops) (env : List Sample) : Outcome :=
  (do_homing_retract axes_to_move e env).andThen fun e4 env4 =>
    wait_for_homed axes_to_move (seek_slow_moves axes_to_move e4) env4

/-- The rest of `do_homing` after the second `wait_for_homed` has returned:
the trim phase (on a delta) and the return to `NOT_HOMING`. -/
def do_homing_finish (axes_to_move : Nat) (e : Endstops) (env : List Sample) : Outcome :=
  (if e.is_delta then do_homing_trim axes_to_move e env else Outcome.done e env).andThen
    fun e7 env7 => Outcome.done (e7.set_status NOT_HOMING) env7

/-- The values `do_homing` writes to `status`, in order. -/
def do_homing_statuses (e : Endstops) : List Nat :=
  [MOVING_TO_ORIGIN_FAST, MOVING_BACK, MOVING_TO_ORIGIN_SLOW] ++
    (if e.is_delta then [MOVING_BACK] else []) ++ [NOT_HOMING]

/-- The values `do_homing_corexy` writes to `status`, in order. -/
def do_homing_corexy_statuses (axes_to_move : Nat) (e : Endstops) : List Nat :=
  (if axes_to_move &&& 3 = 3 then [MOVING_TO_ORIGIN_FAST] else []) ++
    ((if axes_to_move &&& 1 ≠ 0 then
        [MOVING_TO_ORIGIN_FAST, MOVING_BACK, MOVING_TO_ORIGIN_SLOW] else []) ++
      ((if axes_to_move &&& 2 ≠ 0 then
          [MOVING_TO_ORIGIN_FAST, MOVING_BACK, MOVING_TO_ORIGIN_SLOW] else []) ++
        ((if axes_to_move &&& 4 ≠ 0 then do_homing_statuses e else []) ++ [NOT_HOMING])))

/-- The run of `corexy_home` up to the return of its first
`wait_for_homed_corexy`. -/
def corexy_home_seek_fast (home_axis : Nat) (dirx diry : Bool) (fast_rate : ℚ) (e : Endstops)
    (env : List Sample) : Outcome :=
  wait_for_homed_corexy home_axis
    (corexy_moves dirx diry fast_rate 10000000 MOVING_TO_ORIGIN_FAST e) env

/-- The run of `corexy_home` up to the end of the wait for the retract
moves. -/
def corexy_home_retract (home_axis : Nat) (dirx diry : Bool) (fast_rate slow_rate : ℚ)
    (retract_steps : Nat) (e : Endstops) (env : List Sample) : Outcome :=
  (corexy_home_seek_fast home_axis dirx diry fast_rate e env).andThen fun e2 env2 =>
    wait_while_xy_moving env2
      (corexy_moves (!dirx) (!diry) slow_rate retract_steps MOVING_BACK e2)

/-- The run of `do_homing_corexy` up to the end of the combined search, which
is made only when both X and Y are requested. -/
def do_homing_corexy_search (axes_to_move : Nat) (e : Endstops) (env : List Sample) : Outcome :=
  if axes_to_move &&& 3 = 3 then corexy_search e env else Outcome.done e env

/-- The run of `do_homing_corexy` up to the end of the block "Home X". -/
def do_homing_corexy_x (axes_to_move : Nat) (e : Endstops) (env : List Sample) : Outcome :=
  (do_homing_corexy_search axes_to_move e env).andThen fun e1 env1 =>
    if axes_to_move &&& 1 ≠ 0 then
      corexy_home X_AXIS (e1.home_direction X_AXIS) (e1.home_direction X_AXIS)
        (e1.fast_rates X_AXIS) (e1.slow_rates X_AXIS) (e1.retract_steps X_AXIS) e1 env1
    else Outcome.done e1 env1

/-- The module state after the idle calls of `samples`, when nothing else is
done between them. -/
def idle_polled (samples : List Sample) (e : Endstops) : Endstops :=
  samples.foldl (fun e s => on_idle s e) e

/-! ## Concrete inputs -/

/-- A Cartesian machine homing to min on every axis, 80 steps per mm, fast
rate 20 mm/s, slow rate 5 mm/s, retract 3 mm, with debounce threshold `n`;
all steppers are moving at rate 0 and the status is `MOVING_TO_ORIGIN_FAST`. -/
def cartesian (n : Nat) : Endstops :=
  { status := MOVING_TO_ORIGIN_FAST, home_direction := fun _ => true, debounce_count := n,
    pins_connected := fun _ => true, steps_per_mm := fun _ => 80,
    fast_rates := fun _ => 1600, slow_rates := fun _ => 400, retract_steps := fun _ => 240,
    trim := fun _ => 0, homing_position := fun _ => 0, home_offset := fun _ => 0,
    is_corexy := false, is_delta := false, feed_rate := fun _ => 1600,
    steppers := fun _ =>
      { moving := true, steps_per_second := 0, direction_bit := true, steps_to_move := 10000000 },
    log := [], status_log := [] }

/-- A sample in which every pin reads asserted and every stepper is moving. -/
def all_asserted : Sample :=
  { pins := fun _ => true, moving := fun _ => true }

/-- A sample in which no pin reads asserted and every stepper is moving. -/
def none_asserted : Sample :=
  { pins := fun _ => false, moving := fun _ => true }

/-- A planner and stepper configuration whose rate increase per tick on the
`cartesian` machine is 10 steps/s, below the minimum rate of 25 steps/s. -/
def slow_ramp : Kernel :=
  { acceleration := 1, acceleration_ticks_per_second := 8, minimum_steps_per_second := 25 }

/-- A planner and stepper configuration whose rate increase per tick on the
`cartesian` machine is 800 steps/s, above the minimum rate of 25 steps/s. -/
def fast_ramp : Kernel :=
  { acceleration := 1000, acceleration_ticks_per_second := 100, minimum_steps_per_second := 25 }

/-- A CoreXY machine: the `cartesian` machine with the CoreXY flag set and the
given home directions of X and Y (`true` is home to min). -/
def corexy_machine (dirx diry : Bool) : Endstops :=
  { cartesian 0 with
    is_corexy := true,
    home_direction := fun c => if c = 0 then dirx else if c = 1 then diry else true }

/-- A delta machine whose X min endstop pin is not connected. -/
def delta_without_x_pin : Endstops :=
  { cartesian 0 with is_delta := true, pins_connected := fun i => decide (i ≠ 0) }

/-- The command `G28` without any axis letter. -/
def g28_plain : Gcode :=
  { has_g := true, g := 28, has_m := false, m := 0, letters := fun _ => none }

/-- A sample in which every pin reads asserted and every stepper has
stopped. -/
def all_stopped : Sample :=
  { pins := fun _ => true, moving := fun _ => false }

/-- A CoreXY machine homing to min whose Y min endstop pin is not
connected. -/
def corexy_without_y_pin : Endstops :=
  { corexy_machine true true with pins_connected := fun i => decide (i ≠ 1) }

/-- A delta machine with a trim of 40 steps on X and -24 steps on Z. -/
def delta_with_trim : Endstops :=
  { cartesian 0 with
    is_delta := true, trim := fun c => if c = 0 then 40 else if c = 2 then -24 else 0 }

/-- The command `M206 X5 Z-2`. -/
def m206_x_z : Gcode :=
  { has_g := false, g := 0, has_m := true, m := 206,
    letters := fun c => if c = 'X' then some 5 else if c = 'Z' then some (-2) else none }

/-- The command `M666 X` with the given value. -/
def m666_x (v : ℚ) : Gcode :=
  { has_g := false, g := 0, has_m := true, m := 666,
    letters := fun c => if c = 'X' then some v else none }

/-- The command `G28 X0`. -/
def g28_x : Gcode :=
  { has_g := true, g := 28, has_m := false, m := 0,
    letters := fun c => if c = 'X' then some 0 else none }

/-- The `cartesian` machine with 2560 steps per mm on every axis. -/
def fine_pitch : Endstops :=
  { cartesian 0 with steps_per_mm := fun _ => 2560 }

/-! ## Lemmas on `wait_for_homed` -/

theorem cmds_for_append (c : Nat) (l₁ l₂ : List Cmd) :
    cmds_for c (l₁ ++ l₂) = cmds_for c l₁ ++ cmds_for c l₂ := by
  simp [cmds_for]

theorem cmds_for_axis_stops_self (a : Nat) (s : Sample) (d : Nat → Nat) (e : Endstops) (c : Nat) :
    cmds_for c (axis_stops a s d e c) = axis_stops a s d e c := by
  unfold axis_stops
  split_ifs <;> simp [cmds_for, Cmd.stepper]

theorem cmds_for_axis_stops_other (a : Nat) (s : Sample) (d : Nat → Nat) (e : Endstops)
    {c c' : Nat} (h : c' ≠ c) : cmds_for c (axis_stops a s d e c') = [] := by
  unfold axis_stops
  split_ifs <;> simp [cmds_for, Cmd.stepper, h]

theorem home_pin_congr {e e' : Endstops} (h : e'.home_direction = e.home_direction) (c : Nat) :
    home_pin e' c = home_pin e c := by
  simp [home_pin, h]

theorem home_pin_on_idle (s : Sample) (e : Endstops) (c : Nat) :
    home_pin (on_idle s e) c = home_pin e c := rfl

theorem on_idle_debounce_count (s : Sample) (e : Endstops) :
    (on_idle s e).debounce_count = e.debounce_count := rfl

theorem on_idle_log (s : Sample) (e : Endstops) : (on_idle s e).log = e.log := rfl

theorem on_idle_moving (s : Sample) (e : Endstops) (c : Nat) :
    ((on_idle s e).steppers c).moving = s.moving c := rfl

/-- The per-axis step of `wait_for_homed` on its own axis: the new counter and
the request sent, given what the stepper's `moving` flag reads. -/
theorem wait_for_homed_axis_self (a : Nat) (s : Sample) (c : Nat) (h : Homed)
    (hm : (h.e.steppers c).moving = s.moving c) :
    (wait_for_homed_axis a s c h).debounce c =
        (if axis_requested a c then
          (if s.pins (home_pin h.e c) then
            (if h.debounce c < h.e.debounce_count then h.debounce c + 1 else h.debounce c)
          else 0)
        else h.debounce c) ∧
      (wait_for_homed_axis a s c h).e.log = h.e.log ++ axis_stops a s h.debounce h.e c := by
  unfold wait_for_homed_axis axis_stops
  split_ifs <;> simp_all [Endstops.stepper_move]

/-- The per-axis step of `wait_for_homed` leaves the other axes alone. -/
theorem wait_for_homed_axis_other (a : Nat) (s : Sample) (c c' : Nat) (hc : c' ≠ c) (h : Homed) :
    (wait_for_homed_axis a s c' h).debounce c = h.debounce c ∧
      (wait_for_homed_axis a s c' h).e.steppers c = h.e.steppers c := by
  unfold wait_for_homed_axis
  split_ifs <;> simp_all [Endstops.stepper_move, Function.update, Ne.symm hc]

/-- The per-axis step of `wait_for_homed` changes no configuration field. -/
theorem wait_for_homed_axis_config (a : Nat) (s : Sample) (c : Nat) (h : Homed) :
    (wait_for_homed_axis a s c h).e.home_direction = h.e.home_direction ∧
      (wait_for_homed_axis a s c h).e.debounce_count = h.e.debounce_count := by
  unfold wait_for_homed_axis
  split_ifs <;> simp [Endstops.stepper_move]

/-- How the per-axis step of `wait_for_homed` sets `running`. -/
theorem wait_for_homed_axis_running (a : Nat) (s : Sample) (c : Nat) (h : Homed) :
    (wait_for_homed_axis a s c h).running =
      (h.running || axis_waiting a s h.debounce h.e c) := by
  unfold wait_for_homed_axis axis_waiting
  split_ifs <;> simp_all

/-- What one iteration of `wait_for_homed` does: the new counter of each of
the axes X, Y, Z and the requests sent, in order. -/
theorem wait_for_homed_iter_spec (a : Nat) (s : Sample) (d : Nat → Nat) (e : Endstops) :
    (∀ c, c < 3 → (wait_for_homed_iter a s d e).debounce c =
        (if axis_requested a c then
          (if s.pins (home_pin e c) then
            (if d c < e.debounce_count then d c + 1 else d c)
          else 0)
        else d c)) ∧
      (wait_for_homed_iter a s d e).e.log =
        e.log ++ axis_stops a s d e 0 ++ axis_stops a s d e 1 ++ axis_stops a s d e 2 ∧
      (wait_for_homed_iter a s d e).running =
        (axis_waiting a s d e 0 || axis_waiting a s d e 1 || axis_waiting a s d e 2) ∧
      (wait_for_homed_iter a s d e).e.home_direction = e.home_direction ∧
      (wait_for_homed_iter a s d e).e.debounce_count = e.debounce_count := by
  obtain ⟨k1, n1⟩ := wait_for_homed_axis_config a s 0
    { debounce := d, running := false, e := on_idle s e }
  obtain ⟨k2, n2⟩ := wait_for_homed_axis_config a s 1
    (wait_for_homed_axis a s 0 { debounce := d, running := false, e := on_idle s e })
  obtain ⟨k3, n3⟩ := wait_for_homed_axis_config a s 2
    (wait_for_homed_axis a s 1
      (wait_for_homed_axis a s 0 { debounce := d, running := false, e := on_idle s e }))
  have p1 := home_pin_congr k1
  have p2 := home_pin_congr k2
  obtain ⟨d01, m01⟩ := wait_for_homed_axis_other a s 1 0 (by decide)
    { debounce := d, running := false, e := on_idle s e }
  obtain ⟨d02, m02⟩ := wait_for_homed_axis_other a s 2 0 (by decide)
    { debounce := d, running := false, e := on_idle s e }
  obtain ⟨d10, _⟩ := wait_for_homed_axis_other a s 0 1 (by decide)
    (wait_for_homed_axis a s 0 { debounce := d, running := false, e := on_idle s e })
  obtain ⟨d12, m12⟩ := wait_for_homed_axis_other a s 2 1 (by decide)
    (wait_for_homed_axis a s 0 { debounce := d, running := false, e := on_idle s e })
  obtain ⟨d20, _⟩ := wait_for_homed_axis_other a s 0 2 (by decide)
    (wait_for_homed_axis a s 1
      (wait_for_homed_axis a s 0 { debounce := d, running := false, e := on_idle s e }))
  obtain ⟨d21, _⟩ := wait_for_homed_axis_other a s 1 2 (by decide)
    (wait_for_homed_axis a s 1
      (wait_for_homed_axis a s 0 { debounce := d, running := false, e := on_idle s e }))
  obtain ⟨s0, l0⟩ := wait_for_homed_axis_self a s 0
    { debounce := d, running := false, e := on_idle s e } rfl
  obtain ⟨s1, l1⟩ := wait_for_homed_axis_self a s 1
    (wait_for_homed_axis a s 0 { debounce := d, running := false, e := on_idle s e })
    (by rw [m01]; rfl)
  obtain ⟨s2, l2⟩ := wait_for_homed_axis_self a s 2
    (wait_for_homed_axis a s 1
      (wait_for_homed_axis a s 0 { debounce := d, running := false, e := on_idle s e }))
    (by rw [m12, m02]; rfl)
  have q : ∀ c, axis_stops a s d (on_idle s e) c = axis_stops a s d e c := fun c => rfl
  have w : ∀ c, axis_waiting a s d (on_idle s e) c = axis_waiting a s d e c := fun c => rfl
  have q1 : axis_stops a s
      (wait_for_homed_axis a s 0 { debounce := d, running := false, e := on_idle s e }).debounce
      (wait_for_homed_axis a s 0 { debounce := d, running := false, e := on_idle s e }).e 1 =
      axis_stops a s d e 1 := by
    simp only [axis_stops, p1, n1, d01]; rfl
  have q2 : axis_stops a s
      (wait_for_homed_axis a s 1 (wait_for_homed_axis a s 0
        { debounce := d, running := false, e := on_idle s e })).debounce
      (wait_for_homed_axis a s 1 (wait_for_homed_axis a s 0
        { debounce := d, running := false, e := on_idle s e })).e 2 =
      axis_stops a s d e 2 := by
    simp only [axis_stops, p2, p1, n2, n1, d12, d02]; rfl
  have w1 : axis_waiting a s
      (wait_for_homed_axis a s 0 { debounce := d, running := false, e := on_idle s e }).debounce
      (wait_for_homed_axis a s 0 { debounce := d, running := false, e := on_idle s e }).e 1 =
      axis_waiting a s d e 1 := by
    simp only [axis_waiting, p1, n1, d01]; rfl
  have w2 : axis_waiting a s
      (wait_for_homed_axis a s 1 (wait_for_homed_axis a s 0
        { debounce := d, running := false, e := on_idle s e })).debounce
      (wait_for_homed_axis a s 1 (wait_for_homed_axis a s 0
        { debounce := d, running := false, e := on_idle s e })).e 2 =
      axis_waiting a s d e 2 := by
    simp only [axis_waiting, p2, p1, n2, n1, d12, d02]; rfl
  refine ⟨?_, ?_, ?_, ?_, ?_⟩
  · intro c hc
    unfold wait_for_homed_iter
    interval_cases c
    · rw [d20, d10, s0]; rfl
    · rw [d21, s1, d01, p1, n1]; rfl
    · rw [s2, d12, d02, p2, p1, n2, n1]; rfl
  · unfold wait_for_homed_iter
    rw [l2, l1, l0, q1, q2, q]; rfl
  · unfold wait_for_homed_iter
    rw [wait_for_homed_axis_running, wait_for_homed_axis_running, wait_for_homed_axis_running,
      w1, w2, w]
    simp
  · unfold wait_for_homed_iter
    rw [k3, k2, k1]; rfl
  · unfold wait_for_homed_iter
    rw [n3, n2, n1]; rfl

theorem wait_for_homed_iter_cmds_for (a : Nat) (s : Sample) (d : Nat → Nat) (e : Endstops)
    {c : Nat} (hc : c < 3) :
    cmds_for c (wait_for_homed_iter a s d e).e.log =
      cmds_for c e.log ++ axis_stops a s d e c := by
  rw [(wait_for_homed_iter_spec a s d e).2.1]
  interval_cases c
  · simp [cmds_for_append, cmds_for_axis_stops_self, cmds_for_axis_stops_other]
  · simp [cmds_for_append, cmds_for_axis_stops_self, cmds_for_axis_stops_other]
  · simp [cmds_for_append, cmds_for_axis_stops_self, cmds_for_axis_stops_other]

theorem wait_for_homed_iter_running_of_waiting (a : Nat) (s : Sample) (d : Nat → Nat)
    (e : Endstops) {c : Nat} (hc : c < 3) (hw : axis_waiting a s d e c = true) :
    (wait_for_homed_iter a s d e).running = true := by
  rw [(wait_for_homed_iter_spec a s d e).2.2.1]
  interval_cases c <;> simp [hw]

theorem wait_for_homed_polled_cons (a : Nat) (d : Nat → Nat) (e : Endstops) (s : Sample)
    (rest : List Sample) :
    wait_for_homed_polled a d e (s :: rest) =
      wait_for_homed_polled a (wait_for_homed_iter a s d e).debounce
        (wait_for_homed_iter a s d e).e rest := rfl

theorem wait_for_homed_polled_snoc (a : Nat) (d : Nat → Nat) (e : Endstops)
    (pre : List Sample) (s : Sample) :
    wait_for_homed_polled a d e (pre ++ [s]) =
      ((wait_for_homed_iter a s (wait_for_homed_polled a d e pre).1
          (wait_for_homed_polled a d e pre).2).debounce,
        (wait_for_homed_iter a s (wait_for_homed_polled a d e pre).1
          (wait_for_homed_polled a d e pre).2).e) := by
  simp [wait_for_homed_polled, List.foldl_append]

/-- The iterations of `wait_for_homed` change no configuration field. -/
theorem wait_for_homed_polled_config (a : Nat) (pre : List Sample) :
    ∀ (d : Nat → Nat) (e : Endstops),
      (wait_for_homed_polled a d e pre).2.home_direction = e.home_direction ∧
        (wait_for_homed_polled a d e pre).2.debounce_count = e.debounce_count := by
  induction pre with
  | nil => intro d e; exact ⟨rfl, rfl⟩
  | cons s pre ih =>
    intro d e
    rw [wait_for_homed_polled_cons]
    obtain ⟨h1, h2⟩ := ih (wait_for_homed_iter a s d e).debounce (wait_for_homed_iter a s d e).e
    obtain ⟨_, _, _, k1, k2⟩ := wait_for_homed_iter_spec a s d e
    exact ⟨h1.trans k1, h2.trans k2⟩

/-- While the loop of `wait_for_homed` has not returned, it has run its body
once per sample: the remaining samples are polled from the state reached. -/
theorem wait_for_homed_loop_append (a : Nat) (pre : List Sample) :
    ∀ (d : Nat → Nat) (e : Endstops) (rest : List Sample),
      (wait_for_homed_loop a pre d e).finished = false →
        wait_for_homed_loop a (pre ++ rest) d e =
          wait_for_homed_loop a rest (wait_for_homed_polled a d e pre).1
            (wait_for_homed_polled a d e pre).2 := by
  induction pre with
  | nil => intro d e rest _; rfl
  | cons s pre ih =>
    intro d e rest h
    simp only [List.cons_append, wait_for_homed_loop] at h ⊢
    split_ifs at h ⊢ with hr
    · rw [wait_for_homed_polled_cons]
      exact ih _ _ _ h
    · simp [Outcome.finished] at h

theorem wait_for_homed_loop_blocked_state (a : Nat) (pre : List Sample) (d : Nat → Nat)
    (e : Endstops) (h : (wait_for_homed_loop a pre d e).finished = false) :
    (wait_for_homed_loop a pre d e).state = (wait_for_homed_polled a d e pre).2 := by
  have := wait_for_homed_loop_append a pre d e [] h
  rw [List.append_nil] at this
  rw [this]
  rfl

theorem wait_for_homed_loop_snoc (a : Nat) (pre : List Sample) (d : Nat → Nat)
    (e : Endstops) (s : Sample) (h : (wait_for_homed_loop a pre d e).finished = false) :
    (wait_for_homed_loop a (pre ++ [s]) d e).finished =
        !(wait_for_homed_iter a s (wait_for_homed_polled a d e pre).1
          (wait_for_homed_polled a d e pre).2).running ∧
      (wait_for_homed_loop a (pre ++ [s]) d e).state =
        (wait_for_homed_iter a s (wait_for_homed_polled a d e pre).1
          (wait_for_homed_polled a d e pre).2).e := by
  rw [wait_for_homed_loop_append a pre d e [s] h]
  simp only [wait_for_homed_loop]
  split_ifs with hr <;> simp [Outcome.finished, Outcome.state, hr]

/-- The counter of a requested axis never exceeds the run of consecutive
asserted readings of its pin. -/
theorem wait_for_homed_polled_le_run (a : Nat) {c : Nat} (hc : c < 3)
    (hr : axis_requested a c = true) (pre : List Sample) :
    ∀ (d : Nat → Nat) (e : Endstops) (n : Nat), d c ≤ n →
      (wait_for_homed_polled a d e pre).1 c ≤
        pre.foldl (fun n s => if s.pins (home_pin e c) then n + 1 else 0) n := by
  induction pre with
  | nil => intro d e n h; exact h
  | cons s pre ih =>
    intro d e n h
    rw [wait_for_homed_polled_cons, List.foldl_cons]
    obtain ⟨hd, _, _, k1, _⟩ := wait_for_homed_iter_spec a s d e
    have hp : home_pin (wait_for_homed_iter a s d e).e c = home_pin e c := home_pin_congr k1 c
    have := ih (wait_for_homed_iter a s d e).debounce (wait_for_homed_iter a s d e).e
      (if s.pins (home_pin e c) then n + 1 else 0)
      (by
        rw [hd c hc, hr]
        simp only [if_true]
        split_ifs <;> omega)
    rw [hp] at this
    exact this

/-! ## C1 -- C4: debouncing in `wait_for_homed` -/

theorem axis_requested_single {c : Nat} (hc : c < 3) :
    axis_requested (1 <<< c) c = true ∧
      ∀ c', c' < 3 → c' ≠ c → axis_requested (1 <<< c) c' = false := by
  interval_cases c <;> refine ⟨by decide, ?_⟩ <;> intro c' h' hne <;>
    interval_cases c' <;> first | decide | exact absurd rfl hne

theorem axis_stops_not_requested (a : Nat) (s : Sample) (d : Nat → Nat) (e : Endstops) {c : Nat}
    (h : axis_requested a c = false) : axis_stops a s d e c = [] := by
  simp [axis_stops, h]

theorem axis_waiting_not_requested (a : Nat) (s : Sample) (d : Nat → Nat) (e : Endstops)
    {c : Nat} (h : axis_requested a c = false) : axis_waiting a s d e c = false := by
  simp [axis_waiting, h]

/-- With a single axis requested, one iteration of `wait_for_homed` sends the
requests of that axis only, and keeps running exactly when that axis waits. -/
theorem wait_for_homed_iter_only (a : Nat) (s : Sample) (d : Nat → Nat) (e : Endstops) {c : Nat}
    (hc : c < 3) (ho : ∀ c', c' < 3 → c' ≠ c → axis_requested a c' = false) :
    (wait_for_homed_iter a s d e).e.log = e.log ++ axis_stops a s d e c ∧
      (wait_for_homed_iter a s d e).running = axis_waiting a s d e c := by
  obtain ⟨_, hl, hr, _, _⟩ := wait_for_homed_iter_spec a s d e
  rw [hl, hr]
  interval_cases c
  · simp [axis_stops_not_requested a s d e (ho 1 (by decide) (by decide)),
      axis_stops_not_requested a s d e (ho 2 (by decide) (by decide)),
      axis_waiting_not_requested a s d e (ho 1 (by decide) (by decide)),
      axis_waiting_not_requested a s d e (ho 2 (by decide) (by decide))]
  · simp [axis_stops_not_requested a s d e (ho 0 (by decide) (by decide)),
      axis_stops_not_requested a s d e (ho 2 (by decide) (by decide)),
      axis_waiting_not_requested a s d e (ho 0 (by decide) (by decide)),
      axis_waiting_not_requested a s d e (ho 2 (by decide) (by decide))]
  · simp [axis_stops_not_requested a s d e (ho 0 (by decide) (by decide)),
      axis_stops_not_requested a s d e (ho 1 (by decide) (by decide)),
      axis_waiting_not_requested a s d e (ho 0 (by decide) (by decide)),
      axis_waiting_not_requested a s d e (ho 1 (by decide) (by decide))]

theorem wait_for_homed_iter_single (s : Sample) (d : Nat → Nat) (e : Endstops) {c : Nat}
    (hc : c < 3) :
    (wait_for_homed_iter (1 <<< c) s d e).e.log = e.log ++ axis_stops (1 <<< c) s d e c ∧
      (wait_for_homed_iter (1 <<< c) s d e).running = axis_waiting (1 <<< c) s d e c :=
  wait_for_homed_iter_only (1 <<< c) s d e hc (axis_requested_single hc).2

/-- While the single requested axis reads asserted and its counter is below
the threshold, `wait_for_homed` counts, sends nothing and does not return. -/
theorem wait_for_homed_counting {c : Nat} (hc : c < 3) (p : List Sample) :
    ∀ (d : Nat → Nat) (e : Endstops),
      (∀ x ∈ p, x.pins (home_pin e c) = true) → d c + p.length ≤ e.debounce_count →
        (wait_for_homed_loop (1 <<< c) p d e).finished = false ∧
          (wait_for_homed_polled (1 <<< c) d e p).1 c = d c + p.length ∧
          (wait_for_homed_polled (1 <<< c) d e p).2.log = e.log := by
  induction p with
  | nil => intro d e _ _; exact ⟨rfl, rfl, rfl⟩
  | cons s p ih =>
    intro d e hp hle
    obtain ⟨hreq, _⟩ := axis_requested_single hc
    obtain ⟨hd, _, _, k1, k2⟩ := wait_for_homed_iter_spec (1 <<< c) s d e
    obtain ⟨hl, hr⟩ := wait_for_homed_iter_single s d e hc
    have hs : s.pins (home_pin e c) = true := hp s (List.mem_cons_self _ _)
    have hlt : d c < e.debounce_count := by
      simp only [List.length_cons] at hle; omega
    have hw : axis_waiting (1 <<< c) s d e c = true := by
      simp [axis_waiting, hreq, hlt]
    have hst : axis_stops (1 <<< c) s d e c = [] := by
      simp [axis_stops, hlt]
    have hd' : (wait_for_homed_iter (1 <<< c) s d e).debounce c = d c + 1 := by
      rw [hd c hc, hreq]; simp [hs, hlt]
    have hpin : home_pin (wait_for_homed_iter (1 <<< c) s d e).e c = home_pin e c :=
      home_pin_congr k1 c
    obtain ⟨i1, i2, i3⟩ := ih (wait_for_homed_iter (1 <<< c) s d e).debounce
      (wait_for_homed_iter (1 <<< c) s d e).e
      (by intro x hx; rw [hpin]; exact hp x (List.mem_cons_of_mem _ hx))
      (by rw [hd', k2]; simp only [List.length_cons] at hle; omega)
    refine ⟨?_, ?_, ?_⟩
    · simp only [wait_for_homed_loop, hr, hw, if_true]
      exact i1
    · rw [wait_for_homed_polled_cons, i2, hd', List.length_cons]; omega
    · rw [wait_for_homed_polled_cons, i3, hl, hst, List.append_nil]

/-- C1 (amended): with a single requested axis `c` whose pin reads asserted
from the first sample on and debounce threshold `N = debounce_count`,
`wait_for_homed` is still waiting and has sent nothing after each of the first
`N` samples, and on sample `N + 1` it sends the stop request to the stepper (if
it is moving) and returns, leaving the later samples unread. -/
theorem wait_for_homed_triggers_after_threshold (e : Endstops) {c : Nat} (hc : c < 3)
    (pre : List Sample) (s : Sample) (rest : List Sample)
    (hlen : pre.length = e.debounce_count)
    (hpre : ∀ x ∈ pre, x.pins (home_pin e c) = true) (hs : s.pins (home_pin e c) = true) :
    (∀ k, k ≤ pre.length →
        (wait_for_homed (1 <<< c) e (pre.take k)).finished = false ∧
          (wait_for_homed (1 <<< c) e (pre.take k)).state.log = e.log) ∧
      (wait_for_homed (1 <<< c) e (pre ++ s :: rest)).finished = true ∧
      (wait_for_homed (1 <<< c) e (pre ++ s :: rest)).rest = rest ∧
      (wait_for_homed (1 <<< c) e (pre ++ s :: rest)).state.log =
        e.log ++ (if s.moving c then [Cmd.move c false 0] else []) := by
  obtain ⟨hreq, _⟩ := axis_requested_single hc
  have hcount : ∀ p : List Sample, (∀ x ∈ p, x.pins (home_pin e c) = true) →
      p.length ≤ e.debounce_count →
      (wait_for_homed_loop (1 <<< c) p (fun _ => 0) e).finished = false ∧
        (wait_for_homed_polled (1 <<< c) (fun _ => 0) e p).1 c = p.length ∧
        (wait_for_homed_polled (1 <<< c) (fun _ => 0) e p).2.log = e.log := by
    intro p hp hl
    have := wait_for_homed_counting hc p (fun _ => 0) e hp (by simpa using hl)
    simpa using this
  constructor
  · intro k hk
    obtain ⟨h1, _, h3⟩ := hcount (pre.take k)
      (fun x hx => hpre x (List.mem_of_mem_take hx))
      (by rw [List.length_take]; omega)
    refine ⟨h1, ?_⟩
    unfold wait_for_homed
    rw [wait_for_homed_loop_blocked_state _ _ _ _ h1, h3]
  · obtain ⟨h1, h2, h3⟩ := hcount pre hpre (by omega)
    obtain ⟨k1, k2⟩ := wait_for_homed_polled_config (1 <<< c) pre (fun _ => 0) e
    have hpin : home_pin (wait_for_homed_polled (1 <<< c) (fun _ => 0) e pre).2 c =
        home_pin e c := home_pin_congr k1 c
    obtain ⟨hl, hr⟩ := wait_for_homed_iter_single s
      (wait_for_homed_polled (1 <<< c) (fun _ => 0) e pre).1
      (wait_for_homed_polled (1 <<< c) (fun _ => 0) e pre).2 hc
    have hw : axis_waiting (1 <<< c) s (wait_for_homed_polled (1 <<< c) (fun _ => 0) e pre).1
        (wait_for_homed_polled (1 <<< c) (fun _ => 0) e pre).2 c = false := by
      simp [axis_waiting, hreq, hpin, hs, h2, k2, hlen]
    have hst : axis_stops (1 <<< c) s (wait_for_homed_polled (1 <<< c) (fun _ => 0) e pre).1
        (wait_for_homed_polled (1 <<< c) (fun _ => 0) e pre).2 c =
        (if s.moving c then [Cmd.move c false 0] else []) := by
      simp [axis_stops, hreq, hpin, hs, h2, k2, hlen]
    have hloop : wait_for_homed (1 <<< c) e (pre ++ s :: rest) =
        Outcome.done (wait_for_homed_iter (1 <<< c) s
          (wait_for_homed_polled (1 <<< c) (fun _ => 0) e pre).1
          (wait_for_homed_polled (1 <<< c) (fun _ => 0) e pre).2).e rest := by
      unfold wait_for_homed
      rw [wait_for_homed_loop_append _ _ _ _ _ h1]
      simp only [wait_for_homed_loop, hr, hw]
      rfl
    rw [hloop]
    refine ⟨rfl, rfl, ?_⟩
    simp only [Outcome.state]
    rw [hl, hst, h3]

/-- C1 (witness): threshold 2, the X axis alone, three asserted samples and a
fourth left unread. -/
theorem wait_for_homed_triggers_after_threshold_witness :
    (∀ k, k ≤ [all_asserted, all_asserted].length →
        (wait_for_homed (1 <<< 0) (cartesian 2)
            ([all_asserted, all_asserted].take k)).finished = false ∧
          (wait_for_homed (1 <<< 0) (cartesian 2)
            ([all_asserted, all_asserted].take k)).state.log = (cartesian 2).log) ∧
      (wait_for_homed (1 <<< 0) (cartesian 2)
        ([all_asserted, all_asserted] ++ all_asserted :: [none_asserted])).finished = true ∧
      (wait_for_homed (1 <<< 0) (cartesian 2)
        ([all_asserted, all_asserted] ++ all_asserted :: [none_asserted])).rest =
          [none_asserted] ∧
      (wait_for_homed (1 <<< 0) (cartesian 2)
        ([all_asserted, all_asserted] ++ all_asserted :: [none_asserted])).state.log =
          (cartesian 2).log ++ (if all_asserted.moving 0 then [Cmd.move 0 false 0] else []) :=
  wait_for_homed_triggers_after_threshold (cartesian 2) (by decide)
    [all_asserted, all_asserted] all_asserted [none_asserted] rfl
    (by intro x hx; simp at hx; subst hx; rfl) rfl

/-- C1 (counterexample): with threshold 2 and the X pin asserted from the
first sample on, `wait_for_homed` has neither stopped the motor nor returned
after sample 2; it does both on sample 3. -/
theorem wait_for_homed_not_triggered_on_sample_two :
    (wait_for_homed 1 (cartesian 2) [all_asserted, all_asserted]).finished = false ∧
      (wait_for_homed 1 (cartesian 2) [all_asserted, all_asserted]).state.log = [] ∧
      (wait_for_homed 1 (cartesian 2) [all_asserted, all_asserted, all_asserted]).finished
        = true ∧
      (wait_for_homed 1 (cartesian 2) [all_asserted, all_asserted, all_asserted]).state.log
        = [Cmd.move 0 false 0] := by
  decide

theorem asserted_run_snoc (pin : Nat) (pre : List Sample) (s : Sample) :
    asserted_run pin (pre ++ [s]) = if s.pins pin then asserted_run pin pre + 1 else 0 := by
  simp [asserted_run, List.foldl_append]

/-- C2: for every threshold `N = debounce_count` (in particular `N ≥ 1`), every
requested axis `c` and every sample sequence, at a sample that the loop polls
(it has not returned on the samples before) and at which the current run of
consecutive asserted readings of the axis's pin is shorter than `N`,
`wait_for_homed` does not return and sends nothing to the axis's stepper. -/
theorem wait_for_homed_no_trigger_below_threshold (a : Nat) (e : Endstops) {c : Nat}
    (hc : c < 3) (hreq : axis_requested a c = true) (pre : List Sample) (s : Sample)
    (hpolled : (wait_for_homed a e pre).finished = false)
    (hrun : asserted_run (home_pin e c) (pre ++ [s]) < e.debounce_count) :
    (wait_for_homed a e (pre ++ [s])).finished = false ∧
      cmds_for c (wait_for_homed a e (pre ++ [s])).state.log =
        cmds_for c (wait_for_homed a e pre).state.log := by
  unfold wait_for_homed at hpolled ⊢
  obtain ⟨hf, hst⟩ := wait_for_homed_loop_snoc a pre (fun _ => 0) e s hpolled
  obtain ⟨k1, k2⟩ := wait_for_homed_polled_config a pre (fun _ => 0) e
  have hpin : home_pin (wait_for_homed_polled a (fun _ => 0) e pre).2 c = home_pin e c :=
    home_pin_congr k1 c
  have hle : (wait_for_homed_polled a (fun _ => 0) e pre).1 c ≤
      asserted_run (home_pin e c) pre :=
    wait_for_homed_polled_le_run a hc hreq pre (fun _ => 0) e 0 (le_refl _)
  rw [asserted_run_snoc] at hrun
  have hw : axis_waiting a s (wait_for_homed_polled a (fun _ => 0) e pre).1
      (wait_for_homed_polled a (fun _ => 0) e pre).2 c = true := by
    simp only [axis_waiting, hreq, hpin, k2, Bool.true_and, Bool.or_eq_true,
      Bool.not_eq_true', decide_eq_true_eq]
    by_cases hp : s.pins (home_pin e c) = true
    · right
      rw [if_pos hp] at hrun
      omega
    · left
      simpa using hp
  have hs : axis_stops a s (wait_for_homed_polled a (fun _ => 0) e pre).1
      (wait_for_homed_polled a (fun _ => 0) e pre).2 c = [] := by
    simp only [axis_waiting, hreq, hpin, k2, Bool.true_and, Bool.or_eq_true,
      Bool.not_eq_true', decide_eq_true_eq] at hw
    unfold axis_stops
    rcases hw with hw | hw
    · simp [hpin, hw]
    · simp [k2, hw]
  refine ⟨?_, ?_⟩
  · rw [hf, wait_for_homed_iter_running_of_waiting a s _ _ hc hw]
    rfl
  · rw [hst, wait_for_homed_iter_cmds_for a s _ _ hc, hs, List.append_nil,
      wait_for_homed_loop_blocked_state a pre _ e hpolled]

/-- C2 (witness): threshold 2, X and Y requested, first sample asserted: the run
is 1. -/
theorem wait_for_homed_no_trigger_below_threshold_witness :
    (wait_for_homed 3 (cartesian 2) ([] ++ [all_asserted])).finished = false ∧
      cmds_for 0 (wait_for_homed 3 (cartesian 2) ([] ++ [all_asserted])).state.log =
        cmds_for 0 (wait_for_homed 3 (cartesian 2) []).state.log :=
  wait_for_homed_no_trigger_below_threshold 3 (cartesian 2) (c := 0) (by decide) (by decide)
    [] all_asserted (by decide) (by decide)

/-- One iteration of `wait_for_homed` on a requested axis whose pin reads
de-asserted. -/
theorem wait_for_homed_iter_deasserted (a : Nat) (s : Sample) (d : Nat → Nat) (e : Endstops)
    {c : Nat} (hc : c < 3) (hreq : axis_requested a c = true)
    (hpin : s.pins (home_pin e c) = false) :
    (wait_for_homed_iter a s d e).debounce c = 0 ∧
      (wait_for_homed_iter a s d e).running = true ∧
      cmds_for c (wait_for_homed_iter a s d e).e.log = cmds_for c e.log ∧
      ∀ rest, wait_for_homed_loop a (s :: rest) d e =
        wait_for_homed_loop a rest (wait_for_homed_iter a s d e).debounce
          (wait_for_homed_iter a s d e).e := by
  have hw : axis_waiting a s d e c = true := by simp [axis_waiting, hreq, hpin]
  have hs : axis_stops a s d e c = [] := by simp [axis_stops, hpin]
  have hr := wait_for_homed_iter_running_of_waiting a s d e hc hw
  refine ⟨?_, hr, ?_, ?_⟩
  · rw [(wait_for_homed_iter_spec a s d e).1 c hc, hreq]
    simp [hpin]
  · rw [wait_for_homed_iter_cmds_for a s d e hc, hs, List.append_nil]
  · intro rest
    simp only [wait_for_homed_loop, hr, if_true]

/-- C3: in one iteration of `wait_for_homed`, whatever the counters and the
state, a requested axis whose pin reads de-asserted gets its counter set to
zero, keeps the loop running (the wait continues with the next sample), and its
stepper is sent nothing. -/
theorem wait_for_homed_deasserted_resets (a : Nat) (s : Sample) (d : Nat → Nat) (e : Endstops)
    {c : Nat} (hc : c < 3) (hreq : axis_requested a c = true)
    (hpin : s.pins (home_pin e c) = false) :
    (wait_for_homed_iter a s d e).debounce c = 0 ∧
      (wait_for_homed_iter a s d e).running = true ∧
      cmds_for c (wait_for_homed_iter a s d e).e.log = cmds_for c e.log ∧
      ∀ rest, wait_for_homed_loop a (s :: rest) d e =
        wait_for_homed_loop a rest (wait_for_homed_iter a s d e).debounce
          (wait_for_homed_iter a s d e).e :=
  wait_for_homed_iter_deasserted a s d e hc hreq hpin

/-- C3 (witness): threshold 2, the X counter already at 2, X pin de-asserted. -/
theorem wait_for_homed_deasserted_resets_witness :
    (wait_for_homed_iter 1 none_asserted (fun _ => 2) (cartesian 2)).debounce 0 = 0 ∧
      (wait_for_homed_iter 1 none_asserted (fun _ => 2) (cartesian 2)).running = true ∧
      cmds_for 0 (wait_for_homed_iter 1 none_asserted (fun _ => 2) (cartesian 2)).e.log =
        cmds_for 0 (cartesian 2).log ∧
      ∀ rest, wait_for_homed_loop 1 (none_asserted :: rest) (fun _ => 2) (cartesian 2) =
        wait_for_homed_loop 1 rest
          (wait_for_homed_iter 1 none_asserted (fun _ => 2) (cartesian 2)).debounce
          (wait_for_homed_iter 1 none_asserted (fun _ => 2) (cartesian 2)).e :=
  wait_for_homed_deasserted_resets 1 none_asserted (fun _ => 2) (cartesian 2) (c := 0)
    (by decide) (by decide) (by decide)

/-- While a requested axis reads de-asserted, `wait_for_homed` does not return
and sends nothing to its stepper. -/
theorem wait_for_homed_while_deasserted (a : Nat) {c : Nat} (hc : c < 3)
    (hreq : axis_requested a c = true) (pre : List Sample) :
    ∀ (d : Nat → Nat) (e : Endstops), (∀ x ∈ pre, x.pins (home_pin e c) = false) →
      (wait_for_homed_loop a pre d e).finished = false ∧
        cmds_for c (wait_for_homed_polled a d e pre).2.log = cmds_for c e.log := by
  induction pre with
  | nil => intro d e _; exact ⟨rfl, rfl⟩
  | cons s pre ih =>
    intro d e hp
    obtain ⟨_, hr, hcm, hl⟩ := wait_for_homed_iter_deasserted a s d e hc hreq
      (hp s (List.mem_cons_self _ _))
    have hpin : home_pin (wait_for_homed_iter a s d e).e c = home_pin e c :=
      home_pin_congr (wait_for_homed_iter_spec a s d e).2.2.2.1 c
    obtain ⟨i1, i2⟩ := ih (wait_for_homed_iter a s d e).debounce (wait_for_homed_iter a s d e).e
      (by intro x hx; rw [hpin]; exact hp x (List.mem_cons_of_mem _ hx))
    refine ⟨?_, ?_⟩
    · rw [hl]; exact i1
    · rw [wait_for_homed_polled_cons, i2, hcm]

/-- C4: with debounce threshold 0, a requested axis `c` whose pin first reads
asserted at sample `s` is sent nothing before `s`, is sent the stop request at
`s` (when its stepper is moving), and no longer keeps the wait going: the wait
ends at `s` exactly when every requested axis reads asserted at `s`. -/
theorem wait_for_homed_threshold_zero (a : Nat) (e : Endstops) {c : Nat} (hc : c < 3)
    (hreq : axis_requested a c = true) (hzero : e.debounce_count = 0)
    (pre : List Sample) (s : Sample)
    (hpre : ∀ x ∈ pre, x.pins (home_pin e c) = false) (hs : s.pins (home_pin e c) = true) :
    (wait_for_homed a e pre).finished = false ∧
      cmds_for c (wait_for_homed a e pre).state.log = cmds_for c e.log ∧
      cmds_for c (wait_for_homed a e (pre ++ [s])).state.log =
        cmds_for c e.log ++ (if s.moving c then [Cmd.move c false 0] else []) ∧
      ((wait_for_homed a e (pre ++ [s])).finished = true ↔
        ∀ c', c' < 3 → axis_requested a c' = true → s.pins (home_pin e c') = true) := by
  unfold wait_for_homed
  obtain ⟨h1, h2⟩ := wait_for_homed_while_deasserted a hc hreq pre (fun _ => 0) e hpre
  obtain ⟨hf, hst⟩ := wait_for_homed_loop_snoc a pre (fun _ => 0) e s h1
  obtain ⟨k1, k2⟩ := wait_for_homed_polled_config a pre (fun _ => 0) e
  have hpin : ∀ c', home_pin (wait_for_homed_polled a (fun _ => 0) e pre).2 c' =
      home_pin e c' := home_pin_congr k1
  have hw : ∀ c', axis_waiting a s (wait_for_homed_polled a (fun _ => 0) e pre).1
      (wait_for_homed_polled a (fun _ => 0) e pre).2 c' =
      (axis_requested a c' && !s.pins (home_pin e c')) := by
    intro c'
    simp [axis_waiting, hpin, k2, hzero]
  refine ⟨h1, ?_, ?_, ?_⟩
  · rw [wait_for_homed_loop_blocked_state a pre _ e h1, h2]
  · rw [hst, wait_for_homed_iter_cmds_for a s _ _ hc, h2]
    simp [axis_stops, hreq, hpin, hs, k2, hzero]
  · rw [hf, (wait_for_homed_iter_spec a s _ _).2.2.1, hw, hw, hw]
    constructor
    · intro h c' hc' hr
      interval_cases c' <;> simp_all
    · intro h
      have h0 := h 0 (by decide)
      have h1 := h 1 (by decide)
      have h2 := h 2 (by decide)
      revert h0 h1 h2
      cases axis_requested a 0 <;> cases axis_requested a 1 <;> cases axis_requested a 2 <;>
        simp_all

/-- C4 (witness): threshold 0, X requested, two de-asserted samples and then an
asserted one. -/
theorem wait_for_homed_threshold_zero_witness :
    (wait_for_homed 1 (cartesian 0) [none_asserted, none_asserted]).finished = false ∧
      cmds_for 0 (wait_for_homed 1 (cartesian 0) [none_asserted, none_asserted]).state.log =
        cmds_for 0 (cartesian 0).log ∧
      cmds_for 0 (wait_for_homed 1 (cartesian 0)
          ([none_asserted, none_asserted] ++ [all_asserted])).state.log =
        cmds_for 0 (cartesian 0).log ++
          (if all_asserted.moving 0 then [Cmd.move 0 false 0] else []) ∧
      ((wait_for_homed 1 (cartesian 0)
          ([none_asserted, none_asserted] ++ [all_asserted])).finished = true ↔
        ∀ c', c' < 3 → axis_requested 1 c' = true →
          all_asserted.pins (home_pin (cartesian 0) c') = true) :=
  wait_for_homed_threshold_zero 1 (cartesian 0) (c := 0) (by decide) (by decide) rfl
    [none_asserted, none_asserted] all_asserted
    (by intro x hx; simp at hx; subst hx; rfl) rfl

/-! ## C5 -- C8: `acceleration_tick` -/

theorem to_uint32_lt (z : Int) : to_uint32 z < 4294967296 := by
  unfold to_uint32
  have h := Int.emod_lt_of_pos z (show (0 : Int) < 4294967296 by norm_num)
  have h0 := Int.emod_nonneg z (show (4294967296 : Int) ≠ 0 by norm_num)
  omega

theorem cmax_eq_max (a b : Nat) : cmax a b = max a b := by
  unfold cmax
  split_ifs <;> omega

theorem rate_increase_slow_ramp (n c : Nat) : rate_increase slow_ramp (cartesian n) c = 10 := by
  have h : slow_ramp.acceleration / slow_ramp.acceleration_ticks_per_second *
      (cartesian n).steps_per_mm c = ((10 : ℤ) : ℚ) := by
    simp [slow_ramp, cartesian]; norm_num
  rw [rate_increase, h, Int.floor_intCast]; rfl

theorem rate_increase_fast_ramp (n c : Nat) : rate_increase fast_ramp (cartesian n) c = 800 := by
  have h : fast_ramp.acceleration / fast_ramp.acceleration_ticks_per_second *
      (cartesian n).steps_per_mm c = ((800 : ℤ) : ℚ) := by
    simp [fast_ramp, cartesian]; norm_num
  rw [rate_increase, h, Int.floor_intCast]; rfl

theorem target_rate_cartesian (n c : Nat) : target_rate (cartesian n) c = 1600 := by
  have h : (cartesian n).feed_rate c = ((1600 : ℤ) : ℚ) := by
    simp [cartesian]
  rw [target_rate, h, Int.floor_intCast]; rfl

/-- The three cases of the rate before the minimum-rate clamp. -/
theorem ramped_rate_cases (c t inc : Nat) :
    (c < t → ramped_rate c t inc = min t ((c + inc) % 4294967296)) ∧
      (c > t → ramped_rate c t inc = t) ∧ (c = t → ramped_rate c t inc = c) := by
  unfold ramped_rate
  refine ⟨?_, ?_, ?_⟩ <;> intro h <;> simp only [] <;> split_ifs <;> omega

theorem acceleration_tick_axis_eq (K : Kernel) (c : Nat) (e : Endstops) :
    acceleration_tick_axis K c e =
      if (e.steppers c).moving then e.stepper_set_speed c (tick_rate K e c) else e := by
  unfold acceleration_tick_axis tick_rate
  cases (e.steppers c).moving <;> simp

/-- The body of `acceleration_tick` for stepper `c'`: what it leaves alone and
what it does to the log. -/
theorem acceleration_tick_axis_frame (K : Kernel) (c' : Nat) (e : Endstops) :
    (acceleration_tick_axis K c' e).status = e.status ∧
      (acceleration_tick_axis K c' e).feed_rate = e.feed_rate ∧
      (acceleration_tick_axis K c' e).steps_per_mm = e.steps_per_mm ∧
      (∀ c, ((acceleration_tick_axis K c' e).steppers c).moving = (e.steppers c).moving) ∧
      (∀ c, c ≠ c' → (acceleration_tick_axis K c' e).steppers c = e.steppers c) ∧
      (acceleration_tick_axis K c' e).steppers c' =
        (if (e.steppers c').moving then (e.steppers c').set_speed (tick_rate K e c')
          else e.steppers c') ∧
      (acceleration_tick_axis K c' e).log = e.log ++ tick_cmds K e c' := by
  rw [acceleration_tick_axis_eq]
  unfold tick_cmds
  cases h : (e.steppers c').moving
  · simp
  · refine ⟨rfl, rfl, rfl, ?_, ?_, ?_, ?_⟩
    · intro c
      by_cases hc : c = c'
      · subst hc; simp [Endstops.stepper_set_speed, StepperMotor.set_speed, h]
      · simp [Endstops.stepper_set_speed, Function.update, hc]
    · intro c hc
      simp [Endstops.stepper_set_speed, Function.update, hc]
    · simp [Endstops.stepper_set_speed]
    · simp [Endstops.stepper_set_speed]

theorem tick_rate_congr (K : Kernel) {e e' : Endstops} (c : Nat)
    (h1 : e'.feed_rate = e.feed_rate) (h2 : e'.steps_per_mm = e.steps_per_mm)
    (h3 : e'.steppers c = e.steppers c) : tick_rate K e' c = tick_rate K e c := by
  simp [tick_rate, target_rate, rate_increase, h1, h2, h3]

theorem tick_cmds_congr (K : Kernel) {e e' : Endstops} (c : Nat)
    (h1 : e'.feed_rate = e.feed_rate) (h2 : e'.steps_per_mm = e.steps_per_mm)
    (h3 : e'.steppers c = e.steppers c) : tick_cmds K e' c = tick_cmds K e c := by
  simp [tick_cmds, tick_rate_congr K c h1 h2 h3, h3]

/-- What `acceleration_tick` does while the status is not `NOT_HOMING`. -/
theorem acceleration_tick_homing (K : Kernel) (e : Endstops) (hs : e.status ≠ NOT_HOMING) :
    (acceleration_tick K e).log =
        e.log ++ tick_cmds K e 0 ++ tick_cmds K e 1 ++ tick_cmds K e 2 ∧
      (∀ c, c < 3 → (acceleration_tick K e).steppers c =
        (if (e.steppers c).moving then (e.steppers c).set_speed (tick_rate K e c)
          else e.steppers c)) ∧
      (∀ c, 3 ≤ c → (acceleration_tick K e).steppers c = e.steppers c) := by
  unfold acceleration_tick
  rw [if_neg hs]
  obtain ⟨_, f0, m0, _, o0, s0, l0⟩ := acceleration_tick_axis_frame K 0 e
  obtain ⟨_, f1, m1, _, o1, s1, l1⟩ := acceleration_tick_axis_frame K 1
    (acceleration_tick_axis K 0 e)
  obtain ⟨_, _, _, _, o2, s2, l2⟩ := acceleration_tick_axis_frame K 2
    (acceleration_tick_axis K 1 (acceleration_tick_axis K 0 e))
  have r1 := tick_rate_congr K 1 f0 m0 (o0 1 (by decide))
  have c1 := tick_cmds_congr K 1 f0 m0 (o0 1 (by decide))
  have r2 := tick_rate_congr K 2 (f1.trans f0) (m1.trans m0)
    ((o1 2 (by decide)).trans (o0 2 (by decide)))
  have c2 := tick_cmds_congr K 2 (f1.trans f0) (m1.trans m0)
    ((o1 2 (by decide)).trans (o0 2 (by decide)))
  refine ⟨?_, ?_, ?_⟩
  · rw [l2, l1, l0, c1, c2]
  · intro c hc
    interval_cases c
    · rw [o2 0 (by decide), o1 0 (by decide), s0]
    · rw [o2 1 (by decide), s1, r1, o0 1 (by decide)]
    · rw [s2, r2, o1 2 (by decide), o0 2 (by decide)]
  · intro c hc
    rw [o2 c (by omega), o1 c (by omega), o0 c (by omega)]

/-- The fields `acceleration_tick` never writes. -/
theorem acceleration_tick_frame (K : Kernel) (e : Endstops) :
    (acceleration_tick K e).status = e.status ∧
      (acceleration_tick K e).feed_rate = e.feed_rate ∧
      (acceleration_tick K e).steps_per_mm = e.steps_per_mm ∧
      (∀ c, ((acceleration_tick K e).steppers c).moving = (e.steppers c).moving) := by
  unfold acceleration_tick
  split_ifs
  · exact ⟨rfl, rfl, rfl, fun _ => rfl⟩
  · obtain ⟨a0, f0, m0, g0, _⟩ := acceleration_tick_axis_frame K 0 e
    obtain ⟨a1, f1, m1, g1, _⟩ := acceleration_tick_axis_frame K 1
      (acceleration_tick_axis K 0 e)
    obtain ⟨a2, f2, m2, g2, _⟩ := acceleration_tick_axis_frame K 2
      (acceleration_tick_axis K 1 (acceleration_tick_axis K 0 e))
    exact ⟨a2.trans (a1.trans a0), f2.trans (f1.trans f0), m2.trans (m1.trans m0),
      fun c => (g2 c).trans ((g1 c).trans (g0 c))⟩

theorem cmds_for_tick_cmds_self (K : Kernel) (e : Endstops) (c : Nat) :
    cmds_for c (tick_cmds K e c) = tick_cmds K e c := by
  unfold tick_cmds
  split_ifs <;> simp [cmds_for, Cmd.stepper]

theorem cmds_for_tick_cmds_other (K : Kernel) (e : Endstops) (c c' : Nat) (h : c' ≠ c) :
    cmds_for c (tick_cmds K e c') = [] := by
  unfold tick_cmds
  split_ifs <;> simp [cmds_for, Cmd.stepper, h]

theorem minimum_le_tick_rate (K : Kernel) (e : Endstops) (c : Nat) :
    K.minimum_steps_per_second ≤ tick_rate K e c := by
  unfold tick_rate
  rw [cmax_eq_max]
  exact le_max_right _ _

theorem mem_tick_cmds {K : Kernel} {e : Endstops} {c' : Nat} {x : Cmd}
    (h : x ∈ tick_cmds K e c') : x = Cmd.set_speed c' (tick_rate K e c') := by
  unfold tick_cmds at h
  split_ifs at h
  · simpa using h
  · simp at h

/-- The requests for stepper `c` that one `acceleration_tick` adds. -/
theorem acceleration_tick_cmds_for (K : Kernel) (e : Endstops) (hs : e.status ≠ NOT_HOMING)
    {c : Nat} (hc : c < 3) :
    cmds_for c (acceleration_tick K e).log = cmds_for c e.log ++ tick_cmds K e c := by
  rw [(acceleration_tick_homing K e hs).1]
  interval_cases c <;>
    simp [cmds_for_append, cmds_for_tick_cmds_self, cmds_for_tick_cmds_other K e]

/-- C6: every rate `acceleration_tick` commands is at least the configured
minimum steps per second, whatever the current rate and the target; and while
the status is not `NOT_HOMING` it does command such a rate, which the stepper
then holds, for each moving stepper X, Y, Z. -/
theorem acceleration_tick_rate_ge_minimum (K : Kernel) (e : Endstops) :
    (∀ c r, Cmd.set_speed c r ∈ (acceleration_tick K e).log.drop e.log.length →
        K.minimum_steps_per_second ≤ r) ∧
      (∀ c, c < 3 → e.status ≠ NOT_HOMING → (e.steppers c).moving = true →
        Cmd.set_speed c (tick_rate K e c) ∈ (acceleration_tick K e).log.drop e.log.length ∧
          ((acceleration_tick K e).steppers c).steps_per_second = tick_rate K e c ∧
          K.minimum_steps_per_second ≤ tick_rate K e c) := by
  constructor
  · intro c r h
    by_cases hs : e.status = NOT_HOMING
    · simp [acceleration_tick, hs] at h
    · rw [(acceleration_tick_homing K e hs).1] at h
      simp only [List.append_assoc, List.drop_left, List.mem_append] at h
      rcases h with h | h | h <;> have h' := mem_tick_cmds h <;>
        simp only [Cmd.set_speed.injEq] at h' <;> rw [h'.2] <;>
        exact minimum_le_tick_rate K e _
  · intro c hc hs hm
    obtain ⟨hl, hst, _⟩ := acceleration_tick_homing K e hs
    refine ⟨?_, ?_, minimum_le_tick_rate K e c⟩
    · rw [hl]
      simp only [List.append_assoc, List.drop_left, List.mem_append]
      interval_cases c <;> simp [tick_cmds, hm]
    · rw [hst c hc, if_pos hm]
      rfl

/-- C6 (witness): the X stepper of the `cartesian` machine, moving at rate 0. -/
theorem acceleration_tick_rate_ge_minimum_witness :
    Cmd.set_speed 0 (tick_rate slow_ramp (cartesian 2) 0) ∈
        (acceleration_tick slow_ramp (cartesian 2)).log.drop (cartesian 2).log.length ∧
      ((acceleration_tick slow_ramp (cartesian 2)).steppers 0).steps_per_second =
        tick_rate slow_ramp (cartesian 2) 0 ∧
      slow_ramp.minimum_steps_per_second ≤ tick_rate slow_ramp (cartesian 2) 0 :=
  (acceleration_tick_rate_ge_minimum slow_ramp (cartesian 2)).2 0 (by decide) (by decide) rfl

/-- C7: in one `acceleration_tick` on a moving stepper `c` (status not
`NOT_HOMING`), with `cur` the current rate read as `uint32_t`,
`t = target_rate` and `inc = rate_increase`, the one request sent to the
stepper is `set_speed (max(pre, minimum))` where the rate `pre` before the
minimum clamp is `min(t, (cur + inc) mod 2^32)` if `cur < t`, is `t` if
`cur > t`, and is `cur` if `cur = t`. -/
theorem acceleration_tick_ramp (K : Kernel) (e : Endstops) {c : Nat} (hc : c < 3)
    (hs : e.status ≠ NOT_HOMING) (hm : (e.steppers c).moving = true) :
    cmds_for c (acceleration_tick K e).log =
        cmds_for c e.log ++
          [Cmd.set_speed c
            (cmax (ramped_rate ((e.steppers c).steps_per_second % 4294967296) (target_rate e c)
              (rate_increase K e c)) K.minimum_steps_per_second)] ∧
      ((e.steppers c).steps_per_second % 4294967296 < target_rate e c →
        ramped_rate ((e.steppers c).steps_per_second % 4294967296) (target_rate e c)
            (rate_increase K e c) =
          min (target_rate e c)
            (((e.steppers c).steps_per_second % 4294967296 + rate_increase K e c)
              % 4294967296)) ∧
      ((e.steppers c).steps_per_second % 4294967296 > target_rate e c →
        ramped_rate ((e.steppers c).steps_per_second % 4294967296) (target_rate e c)
            (rate_increase K e c) = target_rate e c) ∧
      ((e.steppers c).steps_per_second % 4294967296 = target_rate e c →
        ramped_rate ((e.steppers c).steps_per_second % 4294967296) (target_rate e c)
            (rate_increase K e c) = (e.steppers c).steps_per_second % 4294967296) := by
  refine ⟨?_, ramped_rate_cases _ _ _⟩
  rw [acceleration_tick_cmds_for K e hs hc]
  simp [tick_cmds, tick_rate, hm]

/-- C7 (witness): the X stepper of the `cartesian` machine, moving at rate 0
below its target of 1600 steps/s. -/
theorem acceleration_tick_ramp_witness :
    cmds_for 0 (acceleration_tick slow_ramp (cartesian 2)).log =
        cmds_for 0 (cartesian 2).log ++
          [Cmd.set_speed 0
            (cmax (ramped_rate (((cartesian 2).steppers 0).steps_per_second % 4294967296)
              (target_rate (cartesian 2) 0) (rate_increase slow_ramp (cartesian 2) 0))
              slow_ramp.minimum_steps_per_second)] ∧
      ramped_rate (((cartesian 2).steppers 0).steps_per_second % 4294967296)
          (target_rate (cartesian 2) 0) (rate_increase slow_ramp (cartesian 2) 0) =
        min (target_rate (cartesian 2) 0)
          ((((cartesian 2).steppers 0).steps_per_second % 4294967296 +
            rate_increase slow_ramp (cartesian 2) 0) % 4294967296) :=
  ⟨(acceleration_tick_ramp slow_ramp (cartesian 2) (by decide) (by decide) rfl).1,
    (acceleration_tick_ramp slow_ramp (cartesian 2) (by decide) (by decide) rfl).2.1
      (by rw [target_rate_cartesian]; decide)⟩

/-- C8: `acceleration_tick` changes nothing when the status is `NOT_HOMING`;
in any status it leaves every stepper that is not moving as it was and sends
it nothing; and it never writes `status`, `feed_rate` or a configuration
field. -/
theorem acceleration_tick_frame_effect (K : Kernel) (e : Endstops) :
    (e.status = NOT_HOMING → acceleration_tick K e = e) ∧
      (∀ c, (e.steppers c).moving = false →
        (acceleration_tick K e).steppers c = e.steppers c ∧
          cmds_for c (acceleration_tick K e).log = cmds_for c e.log) ∧
      (acceleration_tick K e).status = e.status ∧
      (acceleration_tick K e).feed_rate = e.feed_rate ∧
      (acceleration_tick K e).home_direction = e.home_direction ∧
      (acceleration_tick K e).debounce_count = e.debounce_count ∧
      (acceleration_tick K e).pins_connected = e.pins_connected ∧
      (acceleration_tick K e).steps_per_mm = e.steps_per_mm ∧
      (acceleration_tick K e).fast_rates = e.fast_rates ∧
      (acceleration_tick K e).slow_rates = e.slow_rates ∧
      (acceleration_tick K e).retract_steps = e.retract_steps ∧
      (acceleration_tick K e).trim = e.trim ∧
      (acceleration_tick K e).homing_position = e.homing_position ∧
      (acceleration_tick K e).home_offset = e.home_offset ∧
      (acceleration_tick K e).is_corexy = e.is_corexy ∧
      (acceleration_tick K e).is_delta = e.is_delta := by
  have hax : ∀ (c : Nat) (x : Endstops),
      (acceleration_tick_axis K c x).home_direction = x.home_direction ∧
      (acceleration_tick_axis K c x).debounce_count = x.debounce_count ∧
      (acceleration_tick_axis K c x).pins_connected = x.pins_connected ∧
      (acceleration_tick_axis K c x).fast_rates = x.fast_rates ∧
      (acceleration_tick_axis K c x).slow_rates = x.slow_rates ∧
      (acceleration_tick_axis K c x).retract_steps = x.retract_steps ∧
      (acceleration_tick_axis K c x).trim = x.trim ∧
      (acceleration_tick_axis K c x).homing_position = x.homing_position ∧
      (acceleration_tick_axis K c x).home_offset = x.home_offset ∧
      (acceleration_tick_axis K c x).is_corexy = x.is_corexy ∧
      (acceleration_tick_axis K c x).is_delta = x.is_delta := by
    intro c x
    rw [acceleration_tick_axis_eq]
    split_ifs <;> simp [Endstops.stepper_set_speed]
  obtain ⟨f1, f2, f3, _⟩ := acceleration_tick_frame K e
  refine ⟨?_, ?_, f1, f2, ?_⟩
  · intro h
    simp [acceleration_tick, h]
  · intro c hm
    by_cases hs : e.status = NOT_HOMING
    · simp [acceleration_tick, hs]
    · obtain ⟨hl, hst, hother⟩ := acceleration_tick_homing K e hs
      by_cases hc : c < 3
      · refine ⟨?_, ?_⟩
        · rw [hst c hc, hm]; rfl
        · rw [acceleration_tick_cmds_for K e hs hc]
          simp [tick_cmds, hm]
      · refine ⟨hother c (by omega), ?_⟩
        rw [hl]
        simp [cmds_for_append, cmds_for_tick_cmds_other K e c 0 (by omega),
          cmds_for_tick_cmds_other K e c 1 (by omega),
          cmds_for_tick_cmds_other K e c 2 (by omega)]
  · by_cases hs : e.status = NOT_HOMING
    · simp [acceleration_tick, hs]
    · unfold acceleration_tick
      rw [if_neg hs]
      obtain ⟨a1, a2, a3, a4, a5, a6, a7, a8, a9, a10, a11⟩ := hax 0 e
      obtain ⟨b1, b2, b3, b4, b5, b6, b7, b8, b9, b10, b11⟩ := hax 1 (acceleration_tick_axis K 0 e)
      obtain ⟨c1, c2, c3, c4, c5, c6, c7, c8, c9, c10, c11⟩ := hax 2
        (acceleration_tick_axis K 1 (acceleration_tick_axis K 0 e))
      have g3 : (acceleration_tick_axis K 2
          (acceleration_tick_axis K 1 (acceleration_tick_axis K 0 e))).steps_per_mm =
          e.steps_per_mm := by
        have := f3
        unfold acceleration_tick at this
        rw [if_neg hs] at this
        exact this
      exact ⟨c1.trans (b1.trans a1), c2.trans (b2.trans a2), c3.trans (b3.trans a3), g3,
        c4.trans (b4.trans a4), c5.trans (b5.trans a5), c6.trans (b6.trans a6),
        c7.trans (b7.trans a7), c8.trans (b8.trans a8), c9.trans (b9.trans a9),
        c10.trans (b10.trans a10), c11.trans (b11.trans a11)⟩

/-- C8 (witness): an idle `cartesian` machine, and its X stepper stopped. -/
theorem acceleration_tick_frame_effect_witness :
    acceleration_tick slow_ramp { cartesian 2 with status := NOT_HOMING } =
        { cartesian 2 with status := NOT_HOMING } ∧
      ((acceleration_tick slow_ramp
            ((cartesian 2).stepper_move 0 false 0)).steppers 0 =
          ((cartesian 2).stepper_move 0 false 0).steppers 0 ∧
        cmds_for 0 (acceleration_tick slow_ramp ((cartesian 2).stepper_move 0 false 0)).log =
          cmds_for 0 ((cartesian 2).stepper_move 0 false 0).log) :=
  ⟨(acceleration_tick_frame_effect slow_ramp { cartesian 2 with status := NOT_HOMING }).1 rfl,
    (acceleration_tick_frame_effect slow_ramp ((cartesian 2).stepper_move 0 false 0)).2.1 0
      (by decide)⟩

/-- The first tick of the ramp from rate 0. -/
theorem tick_rate_first (m t inc : Nat) (hinc : inc < 4294967296) :
    cmax (ramped_rate (0 % 4294967296) t inc) m = max m (min t (1 * inc)) := by
  rw [cmax_eq_max]
  obtain ⟨h1, _, h3⟩ := ramped_rate_cases (0 % 4294967296) t inc
  rcases Nat.eq_zero_or_pos t with h | h
  · have := h3 (by omega)
    omega
  · have := h1 (by omega)
    omega

/-- A later tick of the ramp, when the increase is at least the minimum rate
and the sum of target and increase does not wrap. -/
theorem tick_rate_next (m t inc k : Nat) (hk : 1 ≤ k) (hm : m ≤ inc)
    (hw : t + inc ≤ 4294967296) (ht : t < 4294967296) (hinc : inc < 4294967296) :
    cmax (ramped_rate (max m (min t (k * inc)) % 4294967296) t inc) m =
      max m (min t ((k + 1) * inc)) := by
  rw [cmax_eq_max, Nat.succ_mul]
  have hki : inc ≤ k * inc := Nat.le_mul_of_pos_left inc hk
  generalize k * inc = p at hki ⊢
  obtain ⟨h1, h2, h3⟩ := ramped_rate_cases (max m (min t p) % 4294967296) t inc
  have hlt : max m (min t p) < 4294967296 := by omega
  rw [Nat.mod_eq_of_lt hlt] at h1 h2 h3 ⊢
  rcases Nat.lt_trichotomy (max m (min t p)) t with h | h | h
  · have := h1 h
    have hp : max m (min t p) = p := by omega
    rw [hp] at this
    rw [Nat.mod_eq_of_lt (by omega)] at this
    omega
  · have := h3 h
    omega
  · have := h2 h
    omega

/-- The state of stepper `c` across `k` calls of `acceleration_tick`: the
fields the ramp reads stay put. -/
theorem acceleration_tick_iterate_frame (K : Kernel) (e : Endstops) (k : Nat) :
    ((acceleration_tick K)^[k] e).status = e.status ∧
      ((acceleration_tick K)^[k] e).feed_rate = e.feed_rate ∧
      ((acceleration_tick K)^[k] e).steps_per_mm = e.steps_per_mm ∧
      (∀ c, (((acceleration_tick K)^[k] e).steppers c).moving = (e.steppers c).moving) := by
  induction k with
  | zero => exact ⟨rfl, rfl, rfl, fun _ => rfl⟩
  | succ k ih =>
    rw [Function.iterate_succ_apply']
    obtain ⟨a1, a2, a3, a4⟩ := acceleration_tick_frame K ((acceleration_tick K)^[k] e)
    obtain ⟨b1, b2, b3, b4⟩ := ih
    exact ⟨a1.trans b1, a2.trans b2, a3.trans b3, fun c => (a4 c).trans (b4 c)⟩

/-- One more call of `acceleration_tick` on a moving stepper, in terms of the
rate it held. -/
theorem acceleration_tick_iterate_step (K : Kernel) (e : Endstops) (k : Nat) {c : Nat}
    (hc : c < 3) (hs : e.status ≠ NOT_HOMING) (hm : (e.steppers c).moving = true) :
    (((acceleration_tick K)^[k + 1] e).steppers c).steps_per_second =
        cmax (ramped_rate
          ((((acceleration_tick K)^[k] e).steppers c).steps_per_second % 4294967296)
          (target_rate e c) (rate_increase K e c)) K.minimum_steps_per_second ∧
      (cmds_for c ((acceleration_tick K)^[k + 1] e).log).getLast? =
        some (Cmd.set_speed c (((acceleration_tick K)^[k + 1] e).steppers c).steps_per_second) := by
  obtain ⟨b1, b2, b3, b4⟩ := acceleration_tick_iterate_frame K e k
  have hs' : ((acceleration_tick K)^[k] e).status ≠ NOT_HOMING := by rw [b1]; exact hs
  have hm' : (((acceleration_tick K)^[k] e).steppers c).moving = true := by rw [b4]; exact hm
  have hst : (((acceleration_tick K)^[k + 1] e).steppers c).steps_per_second =
      tick_rate K ((acceleration_tick K)^[k] e) c := by
    rw [Function.iterate_succ_apply',
      (acceleration_tick_homing K ((acceleration_tick K)^[k] e) hs').2.1 c hc, if_pos hm']
    rfl
  constructor
  · rw [hst]
    simp [tick_rate, target_rate, rate_increase, b2, b3]
  · rw [hst, Function.iterate_succ_apply',
      acceleration_tick_cmds_for K ((acceleration_tick K)^[k] e) hs' hc]
    simp [tick_cmds, hm']

/-- C5 (amended): for a stepper `c` that stays moving while homing with constant
target `T = target_rate` and increase `inc = rate_increase`, starting from
rate 0, provided the minimum rate `m` is at most `inc` and `T + inc` does not
exceed `2^32`, the rate commanded by the `k`-th `acceleration_tick` (and held by
the stepper after it) is `max(m, min(T, k * inc))` for every `k ≥ 1`; it is
`min(T, k * inc)` when moreover `m ≤ T`. -/
theorem acceleration_tick_ramp_from_zero (K : Kernel) (e : Endstops) {c : Nat} (hc : c < 3)
    (hs : e.status ≠ NOT_HOMING) (hm : (e.steppers c).moving = true)
    (h0 : (e.steppers c).steps_per_second = 0)
    (hmin : K.minimum_steps_per_second ≤ rate_increase K e c)
    (hwrap : target_rate e c + rate_increase K e c ≤ 4294967296) (k : Nat) (hk : 1 ≤ k) :
    (((acceleration_tick K)^[k] e).steppers c).steps_per_second =
        max K.minimum_steps_per_second (min (target_rate e c) (k * rate_increase K e c)) ∧
      (cmds_for c ((acceleration_tick K)^[k] e).log).getLast? =
        some (Cmd.set_speed c
          (max K.minimum_steps_per_second (min (target_rate e c) (k * rate_increase K e c)))) ∧
      (K.minimum_steps_per_second ≤ target_rate e c →
        (((acceleration_tick K)^[k] e).steppers c).steps_per_second =
          min (target_rate e c) (k * rate_increase K e c)) := by
  have hrate : ∀ j, (((acceleration_tick K)^[j + 1] e).steppers c).steps_per_second =
      max K.minimum_steps_per_second
        (min (target_rate e c) ((j + 1) * rate_increase K e c)) := by
    intro j
    induction j with
    | zero =>
      rw [(acceleration_tick_iterate_step K e 0 hc hs hm).1]
      simp only [Function.iterate_zero, id_eq, h0, zero_add]
      exact tick_rate_first _ _ _ (to_uint32_lt _)
    | succ j ih =>
      rw [(acceleration_tick_iterate_step K e (j + 1) hc hs hm).1, ih]
      exact tick_rate_next _ _ _ (j + 1) (by omega) hmin hwrap (to_uint32_lt _)
        (to_uint32_lt _)
  obtain ⟨j, rfl⟩ : ∃ j, k = j + 1 := ⟨k - 1, by omega⟩
  refine ⟨hrate j, ?_, ?_⟩
  · rw [(acceleration_tick_iterate_step K e j hc hs hm).2, hrate j]
  · intro hle
    rw [hrate j]
    have : rate_increase K e c ≤ (j + 1) * rate_increase K e c :=
      Nat.le_mul_of_pos_left _ (by omega)
    omega

/-- C5 (witness): the X stepper of the `cartesian` machine with target 1600
steps/s, increase 800 steps/s per tick and minimum 25 steps/s, after 2 ticks. -/
theorem acceleration_tick_ramp_from_zero_witness :
    (((acceleration_tick fast_ramp)^[2] (cartesian 2)).steppers 0).steps_per_second =
        max fast_ramp.minimum_steps_per_second
          (min (target_rate (cartesian 2) 0) (2 * rate_increase fast_ramp (cartesian 2) 0)) ∧
      (cmds_for 0 ((acceleration_tick fast_ramp)^[2] (cartesian 2)).log).getLast? =
        some (Cmd.set_speed 0
          (max fast_ramp.minimum_steps_per_second
            (min (target_rate (cartesian 2) 0)
              (2 * rate_increase fast_ramp (cartesian 2) 0)))) ∧
      (fast_ramp.minimum_steps_per_second ≤ target_rate (cartesian 2) 0 →
        (((acceleration_tick fast_ramp)^[2] (cartesian 2)).steppers 0).steps_per_second =
          min (target_rate (cartesian 2) 0) (2 * rate_increase fast_ramp (cartesian 2) 0)) :=
  acceleration_tick_ramp_from_zero fast_ramp (cartesian 2) (by decide) (by decide) rfl rfl
    (by rw [rate_increase_fast_ramp]; decide)
    (by rw [rate_increase_fast_ramp, target_rate_cartesian]; decide) 2 (by decide)

/-- C5 (counterexample): on the `cartesian` machine with target 1600 steps/s,
increase 10 steps/s per tick and minimum 25 steps/s, the X stepper starting at
rate 0 is commanded 25 after one tick and 35 after two, not `min(1600, 10) = 10`
and `min(1600, 20) = 20`. -/
theorem acceleration_tick_ramp_not_linear :
    (((acceleration_tick slow_ramp)^[1] (cartesian 2)).steppers 0).steps_per_second = 25 ∧
      min (target_rate (cartesian 2) 0) (1 * rate_increase slow_ramp (cartesian 2) 0) = 10 ∧
      (((acceleration_tick slow_ramp)^[2] (cartesian 2)).steppers 0).steps_per_second = 35 ∧
      min (target_rate (cartesian 2) 0) (2 * rate_increase slow_ramp (cartesian 2) 0) = 20 := by
  have h1 := (acceleration_tick_iterate_step slow_ramp (cartesian 2) 0 (c := 0) (by decide)
    (by decide) rfl).1
  have h2 := (acceleration_tick_iterate_step slow_ramp (cartesian 2) 1 (c := 0) (by decide)
    (by decide) rfl).1
  rw [rate_increase_slow_ramp, target_rate_cartesian] at h1 h2
  have e1 : (((acceleration_tick slow_ramp)^[1] (cartesian 2)).steppers 0).steps_per_second
      = 25 := by
    rw [h1]; rfl
  rw [e1] at h2
  refine ⟨e1, ?_, ?_, ?_⟩
  · rw [rate_increase_slow_ramp, target_rate_cartesian]; rfl
  · rw [h2]; rfl
  · rw [rate_increase_slow_ramp, target_rate_cartesian]; rfl

/-! ## The log only grows -/

theorem Outcome.andThen_log_grows {P : List Cmd} (o : Outcome)
    (F : Endstops → List Sample → Outcome) (ho : P <+: o.state.log)
    (hF : ∀ e env, e.log <+: (F e env).state.log) : P <+: (o.andThen F).state.log := by
  cases o with
  | done e rest => exact ho.trans (hF e rest)
  | blocked e => exact ho

theorem start_move_log (c : Nat) (rate : ℚ) (direction : Bool) (steps : Nat) (e : Endstops) :
    (start_move c rate direction steps e).log =
      e.log ++ [Cmd.set_speed c 0, Cmd.move c direction steps] := by
  simp [start_move, Endstops.stepper_move, Endstops.stepper_set_speed]

theorem start_move_log_grows (c : Nat) (rate : ℚ) (direction : Bool) (steps : Nat)
    (e : Endstops) : e.log <+: (start_move c rate direction steps e).log := by
  rw [start_move_log]
  exact List.prefix_append _ _

theorem for_each_axis_log_grows (body : Nat → Endstops → Endstops)
    (h : ∀ c e, e.log <+: (body c e).log) (e : Endstops) :
    e.log <+: (for_each_axis body e).log :=
  ((h 0 e).trans (h 1 _)).trans (h 2 _)

theorem wait_for_homed_loop_log_grows (a : Nat) (samples : List Sample) :
    ∀ (d : Nat → Nat) (e : Endstops), e.log <+: (wait_for_homed_loop a samples d e).state.log := by
  induction samples with
  | nil => intro d e; exact List.prefix_refl _
  | cons s rest ih =>
    intro d e
    have hl : e.log <+: (wait_for_homed_iter a s d e).e.log := by
      rw [(wait_for_homed_iter_spec a s d e).2.1, List.append_assoc, List.append_assoc]
      exact List.prefix_append _ _
    simp only [wait_for_homed_loop]
    split_ifs
    · exact hl.trans (ih _ _)
    · exact hl

theorem wait_for_homed_log_grows (a : Nat) (e : Endstops) (env : List Sample) :
    e.log <+: (wait_for_homed a e env).state.log :=
  wait_for_homed_loop_log_grows a env _ e

theorem wait_while_moving_log_grows (c : Nat) (env : List Sample) :
    ∀ e : Endstops, e.log <+: (wait_while_moving c env e).state.log := by
  induction env with
  | nil => intro e; simp only [wait_while_moving]; split_ifs <;> exact List.prefix_refl _
  | cons s rest ih =>
    intro e
    simp only [wait_while_moving]
    split_ifs
    · exact ih (on_idle s e)
    · exact List.prefix_refl _

theorem wait_for_moves_log_grows (a : Nat) (e : Endstops) (env : List Sample) :
    e.log <+: (wait_for_moves a e env).state.log := by
  have hstep : ∀ (c : Nat) (e : Endstops) (env : List Sample),
      e.log <+: (if axis_requested a c then wait_while_moving c env e
        else Outcome.done e env).state.log := by
    intro c e env
    split_ifs
    · exact wait_while_moving_log_grows c env e
    · exact List.prefix_refl _
  unfold wait_for_moves
  exact Outcome.andThen_log_grows _ _
    (Outcome.andThen_log_grows _ _ (hstep 0 e env) (hstep 1)) (hstep 2)

theorem do_homing_trim_log_grows (a : Nat) (e : Endstops) (env : List Sample) :
    e.log <+: (do_homing_trim a e env).state.log := by
  unfold do_homing_trim
  refine List.IsPrefix.trans ?_ (wait_for_moves_log_grows a _ env)
  unfold trim_moves
  refine for_each_axis_log_grows _ ?_ (e.set_status MOVING_BACK)
  intro c x
  split_ifs
  · exact start_move_log_grows _ _ _ _ _
  · exact start_move_log_grows _ _ _ _ _
  · exact List.prefix_refl _

theorem do_homing_log_grows (a : Nat) (e : Endstops) (env : List Sample) :
    e.log <+: (do_homing a e env).state.log := by
  have hbody : ∀ (rate : Endstops → Nat → ℚ) (dir : Endstops → Nat → Bool)
      (steps : Endstops → Nat → Nat) (x : Endstops),
      x.log <+: (for_each_axis (fun c e =>
        if axis_requested a c then start_move c (rate e c) (dir e c) (steps e c) e else e) x).log := by
    intro rate dir steps x
    refine for_each_axis_log_grows _ ?_ x
    intro c y
    split_ifs
    · exact start_move_log_grows _ _ _ _ _
    · exact List.prefix_refl _
  unfold do_homing
  refine Outcome.andThen_log_grows _ _ ?_ ?_
  · exact List.IsPrefix.trans
      (hbody (fun e c => e.fast_rates c) (fun e c => e.home_direction c) (fun _ _ => 10000000)
        (e.set_status MOVING_TO_ORIGIN_FAST))
      (wait_for_homed_log_grows a _ env)
  · intro e2 env2
    refine Outcome.andThen_log_grows _ _ ?_ ?_
    · exact List.IsPrefix.trans
        (hbody (fun e c => e.slow_rates c) (fun e c => !e.home_direction c)
          (fun e c => e.retract_steps c) (e2.set_status MOVING_BACK))
        (wait_for_moves_log_grows a _ env2)
    · intro e4 env4
      refine Outcome.andThen_log_grows _ _ ?_ ?_
      · exact List.IsPrefix.trans
          (hbody (fun e c => e.slow_rates c) (fun e c => e.home_direction c)
            (fun _ _ => 10000000) (e4.set_status MOVING_TO_ORIGIN_SLOW))
          (wait_for_homed_log_grows a _ env4)
      · intro e6 env6
        refine Outcome.andThen_log_grows _ _ ?_ ?_
        · split_ifs
          · exact do_homing_trim_log_grows a e6 env6
          · exact List.prefix_refl _
        · intro e7 env7
          exact List.prefix_refl _

theorem wait_for_homed_corexy_iter_log_grows (axis : Nat) (s : Sample) (d : Nat → Nat)
    (e : Endstops) : e.log <+: (wait_for_homed_corexy_iter axis s d e).e.log := by
  unfold wait_for_homed_corexy_iter
  simp only []
  split_ifs <;>
    simp [Endstops.stepper_move, on_idle_log, List.prefix_refl, List.prefix_append]

theorem wait_for_homed_corexy_loop_log_grows (axis : Nat) (samples : List Sample) :
    ∀ (d : Nat → Nat) (e : Endstops),
      e.log <+: (wait_for_homed_corexy_loop axis samples d e).state.log := by
  induction samples with
  | nil => intro d e; exact List.prefix_refl _
  | cons s rest ih =>
    intro d e
    have hl := wait_for_homed_corexy_iter_log_grows axis s d e
    simp only [wait_for_homed_corexy_loop]
    split_ifs
    · exact hl.trans (ih _ _)
    · exact hl

theorem wait_while_xy_moving_log_grows (env : List Sample) :
    ∀ e : Endstops, e.log <+: (wait_while_xy_moving env e).state.log := by
  induction env with
  | nil => intro e; simp only [wait_while_xy_moving]; split_ifs <;> exact List.prefix_refl _
  | cons s rest ih =>
    intro e
    simp only [wait_while_xy_moving]
    split_ifs
    · exact ih (on_idle s e)
    · exact List.prefix_refl _

theorem corexy_home_log_grows (home_axis : Nat) (dirx diry : Bool) (fast_rate slow_rate : ℚ)
    (retract_steps : Nat) (e : Endstops) (env : List Sample) :
    e.log <+: (corexy_home home_axis dirx diry fast_rate slow_rate retract_steps e env).state.log := by
  have h2 : ∀ (r : ℚ) (dx dy : Bool) (n : Nat) (st : Nat) (x : Endstops),
      x.log <+: (start_move Y_AXIS r dy n
        (start_move X_AXIS r dx n (x.set_status st))).log := by
    intro r dx dy n st x
    exact List.IsPrefix.trans (start_move_log_grows X_AXIS r dx n (x.set_status st))
      (start_move_log_grows Y_AXIS r dy n _)
  unfold corexy_home
  refine Outcome.andThen_log_grows _ _ ?_ ?_
  · exact (h2 _ _ _ _ _ e).trans (wait_for_homed_corexy_loop_log_grows _ _ _ _)
  · intro e2 env2
    refine Outcome.andThen_log_grows _ _ ?_ ?_
    · exact (h2 _ _ _ _ _ e2).trans (wait_while_xy_moving_log_grows _ _)
    · intro e4 env4
      exact (h2 _ _ _ _ _ e4).trans (wait_for_homed_corexy_loop_log_grows _ _ _ _)

/-! ## C9: the motor driven in the combined CoreXY search -/

/-- The loop of the combined search sends at most one request, the stop of
the driven motor. -/
theorem corexy_search_loop_log (motor : Nat) (env : List Sample) :
    ∀ e : Endstops, ∃ stop, (corexy_search_loop motor env e).state.log = e.log ++ stop ∧
      (stop = [] ∨ stop = [Cmd.move motor false 0]) := by
  induction env with
  | nil => intro e; exact ⟨[], by simp [corexy_search_loop, Outcome.state], Or.inl rfl⟩
  | cons s rest ih =>
    intro e
    have hstop : ∃ stop,
        (if ((on_idle s e).steppers motor).moving then (on_idle s e).stepper_move motor false 0
          else on_idle s e).log = e.log ++ stop ∧
        (stop = [] ∨ stop = [Cmd.move motor false 0]) := by
      split_ifs
      · exact ⟨[Cmd.move motor false 0], by simp [Endstops.stepper_move, on_idle_log],
          Or.inr rfl⟩
      · exact ⟨[], by simp [on_idle_log], Or.inl rfl⟩
    simp only [corexy_search_loop]
    by_cases hx : s.pins (home_pin (on_idle s e) X_AXIS) = true
    · rw [if_pos hx]; exact hstop
    · rw [if_neg hx]
      by_cases hy : s.pins (home_pin (on_idle s e) Y_AXIS) = true
      · rw [if_pos hy]; exact hstop
      · rw [if_neg hy]; exact ih (on_idle s e)

/-- The requests of the combined search: the start of the one driven motor,
then at most its stop. -/
theorem corexy_search_log (e : Endstops) (env : List Sample) :
    ∃ stop, (corexy_search e env).state.log =
        e.log ++
          [Cmd.set_speed (corexy_motor_dir (e.home_direction X_AXIS) (e.home_direction Y_AXIS)).1 0,
            Cmd.move (corexy_motor_dir (e.home_direction X_AXIS) (e.home_direction Y_AXIS)).1
              (corexy_motor_dir (e.home_direction X_AXIS) (e.home_direction Y_AXIS)).2 10000000]
          ++ stop ∧
      (stop = [] ∨ stop =
        [Cmd.move (corexy_motor_dir (e.home_direction X_AXIS) (e.home_direction Y_AXIS)).1
          false 0]) := by
  unfold corexy_search
  obtain ⟨stop, h1, h2⟩ := corexy_search_loop_log
    (corexy_motor_dir (e.home_direction X_AXIS) (e.home_direction Y_AXIS)).1 env
    (start_move (corexy_motor_dir (e.home_direction X_AXIS) (e.home_direction Y_AXIS)).1
      (e.fast_rates (corexy_motor_dir (e.home_direction X_AXIS) (e.home_direction Y_AXIS)).1
        * (14142 / 10000))
      (corexy_motor_dir (e.home_direction X_AXIS) (e.home_direction Y_AXIS)).2 10000000
      (e.set_status MOVING_TO_ORIGIN_FAST))
  refine ⟨stop, ?_, h2⟩
  simp only []
  rw [h1, start_move_log]
  rfl

/-- With both X and Y requested, `do_homing_corexy` begins with the combined
search, so its log begins with the start of the driven motor; and the combined
search addresses that motor only. -/
theorem do_homing_corexy_starts_search (a : Nat) (e : Endstops) (env : List Sample)
    (hxy : a &&& 3 = 3) :
    (e.log ++
        [Cmd.set_speed (corexy_motor_dir (e.home_direction X_AXIS) (e.home_direction Y_AXIS)).1 0,
          Cmd.move (corexy_motor_dir (e.home_direction X_AXIS) (e.home_direction Y_AXIS)).1
            (corexy_motor_dir (e.home_direction X_AXIS) (e.home_direction Y_AXIS)).2 10000000])
        <+: (do_homing_corexy a e env).state.log ∧
      ∀ x ∈ (corexy_search e env).state.log.drop e.log.length,
        x.stepper =
          some (corexy_motor_dir (e.home_direction X_AXIS) (e.home_direction Y_AXIS)).1 := by
  obtain ⟨stop, hl, hs⟩ := corexy_search_log e env
  constructor
  · unfold do_homing_corexy
    rw [if_pos hxy]
    refine Outcome.andThen_log_grows _ _ ?_ ?_
    · rw [hl]
      exact List.prefix_append _ _
    · intro e1 env1
      refine Outcome.andThen_log_grows _ _ ?_ ?_
      · split_ifs
        · exact corexy_home_log_grows _ _ _ _ _ _ _ _
        · exact List.prefix_refl _
      · intro e2 env2
        refine Outcome.andThen_log_grows _ _ ?_ ?_
        · split_ifs
          · exact corexy_home_log_grows _ _ _ _ _ _ _ _
          · exact List.prefix_refl _
        · intro e3 env3
          refine Outcome.andThen_log_grows _ _ ?_ ?_
          · split_ifs
            · exact do_homing_log_grows _ _ _
            · exact List.prefix_refl _
          · intro e4 env4
            exact List.prefix_refl _
  · intro x hx
    rw [hl, List.append_assoc, List.drop_left] at hx
    rcases hs with hs | hs <;> rw [hs] at hx <;> simp at hx
    · rcases hx with rfl | rfl <;> rfl
    · rcases hx with rfl | rfl | rfl <;> rfl

/-- C9: in `do_homing_corexy` with both X and Y requested, the motor started
for the combined search and its direction flag follow the table on the home
directions of X and Y (`true` is home to min): (min,min) starts the X motor
forward (`true`), (min,max) the Y motor forward, (max,min) the Y motor backward
(`false`), (max,max) the X motor backward; and every request of the combined
search goes to that one motor. -/
theorem do_homing_corexy_dominant_motor (a : Nat) (e : Endstops) (env : List Sample)
    (hxy : a &&& 3 = 3) :
    (e.home_direction X_AXIS = true → e.home_direction Y_AXIS = true →
        (e.log ++ [Cmd.set_speed X_AXIS 0, Cmd.move X_AXIS true 10000000])
            <+: (do_homing_corexy a e env).state.log ∧
          ∀ x ∈ (corexy_search e env).state.log.drop e.log.length,
            x.stepper = some X_AXIS) ∧
      (e.home_direction X_AXIS = true → e.home_direction Y_AXIS = false →
        (e.log ++ [Cmd.set_speed Y_AXIS 0, Cmd.move Y_AXIS true 10000000])
            <+: (do_homing_corexy a e env).state.log ∧
          ∀ x ∈ (corexy_search e env).state.log.drop e.log.length,
            x.stepper = some Y_AXIS) ∧
      (e.home_direction X_AXIS = false → e.home_direction Y_AXIS = true →
        (e.log ++ [Cmd.set_speed Y_AXIS 0, Cmd.move Y_AXIS false 10000000])
            <+: (do_homing_corexy a e env).state.log ∧
          ∀ x ∈ (corexy_search e env).state.log.drop e.log.length,
            x.stepper = some Y_AXIS) ∧
      (e.home_direction X_AXIS = false → e.home_direction Y_AXIS = false →
        (e.log ++ [Cmd.set_speed X_AXIS 0, Cmd.move X_AXIS false 10000000])
            <+: (do_homing_corexy a e env).state.log ∧
          ∀ x ∈ (corexy_search e env).state.log.drop e.log.length,
            x.stepper = some X_AXIS) := by
  have h := do_homing_corexy_starts_search a e env hxy
  refine ⟨?_, ?_, ?_, ?_⟩ <;> intro hx hy <;> rw [hx, hy] at h <;> exact h

/-- C9 (witness): the four home-direction pairs on a CoreXY machine homing X
and Y, with one sample in which every pin is asserted. -/
theorem do_homing_corexy_dominant_motor_witness :
    ((corexy_machine true true).log ++ [Cmd.set_speed X_AXIS 0, Cmd.move X_AXIS true 10000000])
        <+: (do_homing_corexy 3 (corexy_machine true true) [all_asserted]).state.log ∧
      ((corexy_machine true false).log ++
          [Cmd.set_speed Y_AXIS 0, Cmd.move Y_AXIS true 10000000])
        <+: (do_homing_corexy 3 (corexy_machine true false) [all_asserted]).state.log ∧
      ((corexy_machine false true).log ++
          [Cmd.set_speed Y_AXIS 0, Cmd.move Y_AXIS false 10000000])
        <+: (do_homing_corexy 3 (corexy_machine false true) [all_asserted]).state.log ∧
      ((corexy_machine false false).log ++
          [Cmd.set_speed X_AXIS 0, Cmd.move X_AXIS false 10000000])
        <+: (do_homing_corexy 3 (corexy_machine false false) [all_asserted]).state.log :=
  ⟨((do_homing_corexy_dominant_motor 3 (corexy_machine true true) [all_asserted]
      (by decide)).1 rfl rfl).1,
    ((do_homing_corexy_dominant_motor 3 (corexy_machine true false) [all_asserted]
      (by decide)).2.1 rfl rfl).1,
    ((do_homing_corexy_dominant_motor 3 (corexy_machine false true) [all_asserted]
      (by decide)).2.2.1 rfl rfl).1,
    ((do_homing_corexy_dominant_motor 3 (corexy_machine false false) [all_asserted]
      (by decide)).2.2.2 rfl rfl).1⟩

/-! ## C10: the axes of the home command on a delta -/

/-- The bit added for axis `c` by the G28 handler on a delta. -/
theorem g28_add_axis_delta (e : Endstops) (gcode : Gcode) (hd : e.is_delta = true) (c n : Nat) :
    g28_add_axis e gcode c n = n + (if e.pins_connected (home_pin e c) then 1 <<< c else 0) := by
  unfold g28_add_axis g28_home_all
  rw [hd]
  cases e.pins_connected (home_pin e c) <;> simp

/-- C10 (amended): when the delta flag is set, whatever letters the home command
carries, its axis bitmask contains exactly the axes whose relevant endstop pin
is connected: bit `c` is set iff the pin axis `c` homes to is connected, no
other bit is set, and the mask is 7 (X, Y and Z) when all three are. -/
theorem g28_axes_to_move_delta (e : Endstops) (gcode : Gcode) (hd : e.is_delta = true) :
    g28_axes_to_move e gcode =
        (if e.pins_connected (home_pin e 0) then 1 else 0) +
          (if e.pins_connected (home_pin e 1) then 2 else 0) +
          (if e.pins_connected (home_pin e 2) then 4 else 0) ∧
      (∀ c, c < 3 →
        axis_requested (g28_axes_to_move e gcode) c = e.pins_connected (home_pin e c)) ∧
      ((∀ c, c < 3 → e.pins_connected (home_pin e c) = true) →
        g28_axes_to_move e gcode = 7) := by
  have h : g28_axes_to_move e gcode =
      (if e.pins_connected (home_pin e 0) then 1 else 0) +
        (if e.pins_connected (home_pin e 1) then 2 else 0) +
        (if e.pins_connected (home_pin e 2) then 4 else 0) := by
    unfold g28_axes_to_move
    rw [g28_add_axis_delta e gcode hd, g28_add_axis_delta e gcode hd,
      g28_add_axis_delta e gcode hd]
    simp
  refine ⟨h, ?_, ?_⟩
  · intro c hc
    rw [h]
    interval_cases c <;> cases e.pins_connected (home_pin e 0) <;>
      cases e.pins_connected (home_pin e 1) <;> cases e.pins_connected (home_pin e 2) <;>
      decide
  · intro hall
    rw [h, hall 0 (by decide), hall 1 (by decide), hall 2 (by decide)]
    rfl

/-- C10 (witness): a delta with every pin connected homes X, Y and Z. -/
theorem g28_axes_to_move_delta_witness :
    g28_axes_to_move { cartesian 0 with is_delta := true } g28_plain = 7 :=
  (g28_axes_to_move_delta { cartesian 0 with is_delta := true } g28_plain rfl).2.2
    (fun _ _ => rfl)

/-- C10 (counterexample): on a delta whose X min endstop pin is not connected,
the home command's bitmask is 6: it holds Y and Z but not X. -/
theorem g28_axes_to_move_delta_not_all :
    delta_without_x_pin.is_delta = true ∧
      g28_axes_to_move delta_without_x_pin g28_plain = 6 ∧
      axis_requested (g28_axes_to_move delta_without_x_pin g28_plain) 0 = false := by
  decide

/-! ## The frame of a homing run -/

theorem SameConfig.config_refl (e : Endstops) : SameConfig e e :=
  ⟨rfl, rfl, rfl, rfl, rfl, rfl, rfl, rfl, rfl, rfl, rfl, rfl⟩

theorem SameConfig.config_trans {e e' e'' : Endstops} (h : SameConfig e e') (h' : SameConfig e' e'') :
    SameConfig e e'' :=
  ⟨h'.home_direction.trans h.home_direction, h'.debounce_count.trans h.debounce_count,
    h'.pins_connected.trans h.pins_connected, h'.steps_per_mm.trans h.steps_per_mm,
    h'.fast_rates.trans h.fast_rates, h'.slow_rates.trans h.slow_rates,
    h'.retract_steps.trans h.retract_steps, h'.trim.trans h.trim,
    h'.homing_position.trans h.homing_position, h'.home_offset.trans h.home_offset,
    h'.is_corexy.trans h.is_corexy, h'.is_delta.trans h.is_delta⟩

theorem HomingStep.quiet_refl (S : Nat → Prop) (e : Endstops) : HomingStep S [] e e :=
  ⟨SameConfig.config_refl e, by simp, rfl, [], by simp, by simp⟩

theorem HomingStep.step_trans {S : Nat → Prop} {t₁ t₂ : List Nat} {e e' e'' : Endstops}
    (h : HomingStep S t₁ e e') (h' : HomingStep S t₂ e' e'') :
    HomingStep S (t₁ ++ t₂) e e'' := by
  obtain ⟨l₁, hl₁, hs₁⟩ := h.log
  obtain ⟨l₂, hl₂, hs₂⟩ := h'.log
  refine ⟨h.config.config_trans h'.config, ?_, ?_, l₁ ++ l₂, ?_, ?_⟩
  · rw [h'.status_log, h.status_log, List.append_assoc]
  · rw [h'.status, h.status, List.getLast?_append]
    cases t₂.getLast? <;> simp
  · rw [hl₂, hl₁, List.append_assoc]
  · intro x hx
    rcases List.mem_append.1 hx with hx | hx
    · exact hs₁ x hx
    · exact hs₂ x hx

theorem HomingStep.then_quiet {S : Nat → Prop} {t : List Nat} {e e' e'' : Endstops}
    (h : HomingStep S t e e') (h' : HomingStep S [] e' e'') : HomingStep S t e e'' := by
  have := h.step_trans h'
  rwa [List.append_nil] at this

theorem HomingStep.step_mono {S S' : Nat → Prop} {t : List Nat} {e e' : Endstops}
    (hS : ∀ c, S c → S' c) (h : HomingStep S t e e') : HomingStep S' t e e' := by
  obtain ⟨l, hl, hs⟩ := h.log
  refine ⟨h.config, h.status_log, h.status, l, hl, ?_⟩
  intro x hx
  obtain ⟨c, hc, hSc⟩ := hs x hx
  exact ⟨c, hc, hS c hSc⟩

/-- A homing step sends nothing to a stepper outside `S`. -/
theorem HomingStep.cmds_for_eq {S : Nat → Prop} {t : List Nat} {e e' : Endstops}
    (h : HomingStep S t e e') {c : Nat} (hc : ¬ S c) : cmds_for c e'.log = cmds_for c e.log := by
  obtain ⟨l, hl, hs⟩ := h.log
  rw [hl, cmds_for_append]
  have : cmds_for c l = [] := by
    unfold cmds_for
    rw [List.filter_eq_nil_iff]
    intro x hx
    obtain ⟨c', hc', hS⟩ := hs x hx
    rw [hc']
    intro heq
    have : c' = c := by simpa using heq
    exact hc (this ▸ hS)
  rw [this, List.append_nil]

/-- A homing step resets no position. -/
theorem HomingStep.resets_for_eq {S : Nat → Prop} {t : List Nat} {e e' : Endstops}
    (h : HomingStep S t e e') (c : Nat) : resets_for c e'.log = resets_for c e.log := by
  obtain ⟨l, hl, hs⟩ := h.log
  unfold resets_for
  rw [hl, List.filter_append]
  have : l.filter (fun cmd => cmd.reset_axis == some c) = [] := by
    rw [List.filter_eq_nil_iff]
    intro x hx
    obtain ⟨c', hc', _⟩ := hs x hx
    cases x <;> simp [Cmd.stepper, Cmd.reset_axis] at hc' ⊢
  rw [this, List.append_nil]

theorem HomingStep.of_on_idle (S : Nat → Prop) (s : Sample) (e : Endstops) :
    HomingStep S [] e (on_idle s e) :=
  ⟨⟨rfl, rfl, rfl, rfl, rfl, rfl, rfl, rfl, rfl, rfl, rfl, rfl⟩, by simp [Smoothie.on_idle], rfl,
    [], by simp [Smoothie.on_idle], by simp⟩

theorem HomingStep.of_stepper_move {S : Nat → Prop} {c : Nat} (hc : S c) (d : Bool) (n : Nat)
    (e : Endstops) : HomingStep S [] e (e.stepper_move c d n) :=
  ⟨⟨rfl, rfl, rfl, rfl, rfl, rfl, rfl, rfl, rfl, rfl, rfl, rfl⟩,
    by simp [Endstops.stepper_move], rfl, [Cmd.move c d n], rfl,
    by intro x hx; rw [List.mem_singleton] at hx; subst hx; exact ⟨c, rfl, hc⟩⟩

theorem HomingStep.of_set_status (S : Nat → Prop) (s : Nat) (e : Endstops) :
    HomingStep S [s] e (e.set_status s) :=
  ⟨⟨rfl, rfl, rfl, rfl, rfl, rfl, rfl, rfl, rfl, rfl, rfl, rfl⟩, rfl, rfl, [],
    by simp [Endstops.set_status], by simp⟩

theorem HomingStep.of_start_move {S : Nat → Prop} {c : Nat} (hc : S c) (r : ℚ) (d : Bool) (n : Nat)
    (e : Endstops) : HomingStep S [] e (start_move c r d n e) :=
  ⟨⟨rfl, rfl, rfl, rfl, rfl, rfl, rfl, rfl, rfl, rfl, rfl, rfl⟩,
    by simp [Smoothie.start_move, Endstops.stepper_move, Endstops.stepper_set_speed], rfl,
    [Cmd.set_speed c 0, Cmd.move c d n], start_move_log c r d n e,
    by
      intro x hx
      simp only [List.mem_cons, List.mem_singleton, List.not_mem_nil, or_false] at hx
      rcases hx with rfl | rfl <;> exact ⟨c, rfl, hc⟩⟩

theorem HomingStep.of_for_each_axis {S : Nat → Prop} (body : Nat → Endstops → Endstops)
    (h : ∀ c e, c < 3 → HomingStep S [] e (body c e)) (e : Endstops) :
    HomingStep S [] e (for_each_axis body e) :=
  ((h 0 e (by decide)).then_quiet (h 1 _ (by decide))).then_quiet (h 2 _ (by decide))

theorem Outcome.eq_done_of_finished (o : Outcome) (h : o.finished = true) :
    o = Outcome.done o.state o.rest := by
  cases o with
  | done e rest => rfl
  | blocked e => simp [Outcome.finished] at h

theorem Outcome.andThen_assoc (o : Outcome) (f g : Endstops → List Sample → Outcome) :
    (o.andThen f).andThen g = o.andThen fun e r => (f e r).andThen g := by
  cases o <;> rfl

theorem Runs.of_step {S : Nat → Prop} {t : List Nat} {e e' : Endstops} (h : HomingStep S t e e')
    (r : List Sample) : Runs S t e (Outcome.done e' r) :=
  ⟨t, List.prefix_refl _, fun _ => rfl, h⟩

theorem Runs.of_blocked {S : Nat → Prop} (e : Endstops) : Runs S [] e (Outcome.blocked e) :=
  ⟨[], List.prefix_refl _, fun _ => rfl, HomingStep.quiet_refl S e⟩

theorem Runs.runs_mono {S S' : Nat → Prop} {full : List Nat} {e : Endstops} {o : Outcome}
    (hS : ∀ c, S c → S' c) (h : Runs S full e o) : Runs S' full e o := by
  obtain ⟨t, h1, h2, h3⟩ := h
  exact ⟨t, h1, h2, h3.step_mono hS⟩

/-- A run that writes no status is a quiet step, finished or not. -/
theorem Runs.quiet {S : Nat → Prop} {e : Endstops} {o : Outcome} (h : Runs S [] e o) :
    HomingStep S [] e o.state := by
  obtain ⟨t, h1, _, h3⟩ := h
  rw [List.prefix_nil.1 h1] at h3
  exact h3

/-- A finished run has written all of its statuses. -/
theorem Runs.step_of_finished {S : Nat → Prop} {full : List Nat} {e : Endstops} {o : Outcome}
    (h : Runs S full e o) (hf : o.finished = true) : HomingStep S full e o.state := by
  obtain ⟨t, _, h2, h3⟩ := h
  rw [h2 hf] at h3
  exact h3

theorem Runs.prepend {S : Nat → Prop} {t full : List Nat} {e e' : Endstops} {o : Outcome}
    (h : HomingStep S t e e') (ho : Runs S full e' o) : Runs S (t ++ full) e o := by
  obtain ⟨u, h1, h2, h3⟩ := ho
  refine ⟨t ++ u, ?_, ?_, h.step_trans h3⟩
  · exact (List.prefix_append_right_inj t).2 h1
  · intro hf
    rw [h2 hf]

theorem Runs.and_then {S : Nat → Prop} {f₁ f₂ : List Nat} {e : Endstops} {o : Outcome}
    {F : Endstops → List Sample → Outcome} (ho : Runs S f₁ e o)
    (hF : ∀ e' r, HomingStep S f₁ e e' → Runs S f₂ e' (F e' r)) :
    Runs S (f₁ ++ f₂) e (o.andThen F) := by
  cases o with
  | done e' r =>
    have hstep : HomingStep S f₁ e e' := ho.step_of_finished rfl
    exact Runs.prepend hstep (hF e' r hstep)
  | blocked e' =>
    obtain ⟨t, h1, _, h3⟩ := ho
    exact ⟨t, h1.trans (List.prefix_append _ _), fun hf => by simp [Outcome.andThen, Outcome.finished] at hf, h3⟩

theorem Runs.and_then_quiet {S : Nat → Prop} {f : List Nat} {e : Endstops} {o : Outcome}
    {F : Endstops → List Sample → Outcome} (ho : Runs S f e o)
    (hF : ∀ e' r, HomingStep S f e e' → Runs S [] e' (F e' r)) :
    Runs S f e (o.andThen F) := by
  have := Runs.and_then ho hF
  rwa [List.append_nil] at this

theorem Runs.quiet_and_then {S : Nat → Prop} {f : List Nat} {e : Endstops} {o : Outcome}
    {F : Endstops → List Sample → Outcome} (ho : Runs S [] e o)
    (hF : ∀ e' r, HomingStep S [] e e' → Runs S f e' (F e' r)) :
    Runs S f e (o.andThen F) :=
  Runs.and_then ho hF

theorem wait_for_homed_axis_step (a : Nat) (s : Sample) (c : Nat) (hc : c < 3) (h : Homed) :
    HomingStep (fun c => c < 3 ∧ axis_requested a c = true) [] h.e
      (wait_for_homed_axis a s c h).e := by
  unfold wait_for_homed_axis
  split_ifs with h1 h2 h3 h4
  · exact HomingStep.quiet_refl _ _
  · exact HomingStep.of_stepper_move ⟨hc, h1⟩ _ _ _
  · exact HomingStep.quiet_refl _ _
  · exact HomingStep.quiet_refl _ _
  · exact HomingStep.quiet_refl _ _

theorem wait_for_homed_iter_step (a : Nat) (s : Sample) (d : Nat → Nat) (e : Endstops) :
    HomingStep (fun c => c < 3 ∧ axis_requested a c = true) [] e
      (wait_for_homed_iter a s d e).e := by
  unfold wait_for_homed_iter
  have h0 : HomingStep (fun c => c < 3 ∧ axis_requested a c = true) [] e
      ({ debounce := d, running := false, e := on_idle s e } : Homed).e :=
    HomingStep.of_on_idle _ s e
  exact ((h0.then_quiet
    (wait_for_homed_axis_step a s 0 (by decide) _)).then_quiet
    (wait_for_homed_axis_step a s 1 (by decide) _)).then_quiet
    (wait_for_homed_axis_step a s 2 (by decide) _)

theorem wait_for_homed_loop_runs (a : Nat) (samples : List Sample) :
    ∀ (d : Nat → Nat) (e : Endstops),
      Runs (fun c => c < 3 ∧ axis_requested a c = true) [] e
        (wait_for_homed_loop a samples d e) := by
  induction samples with
  | nil => intro d e; exact Runs.of_blocked e
  | cons s rest ih =>
    intro d e
    simp only [wait_for_homed_loop]
    split_ifs
    · exact Runs.prepend (wait_for_homed_iter_step a s d e) (ih _ _)
    · exact Runs.of_step (wait_for_homed_iter_step a s d e) rest

theorem wait_for_homed_runs (a : Nat) (e : Endstops) (env : List Sample) :
    Runs (fun c => c < 3 ∧ axis_requested a c = true) [] e (wait_for_homed a e env) :=
  wait_for_homed_loop_runs a env _ e

theorem wait_while_moving_runs (S : Nat → Prop) (c : Nat) (env : List Sample) :
    ∀ e : Endstops, Runs S [] e (wait_while_moving c env e) := by
  induction env with
  | nil =>
    intro e
    simp only [wait_while_moving]
    split_ifs
    · exact Runs.of_blocked e
    · exact Runs.of_step (HomingStep.quiet_refl S e) []
  | cons s rest ih =>
    intro e
    simp only [wait_while_moving]
    split_ifs
    · exact Runs.prepend (HomingStep.of_on_idle S s e) (ih _)
    · exact Runs.of_step (HomingStep.quiet_refl S e) _

theorem wait_for_moves_runs (S : Nat → Prop) (a : Nat) (e : Endstops) (env : List Sample) :
    Runs S [] e (wait_for_moves a e env) := by
  have hstep : ∀ (c : Nat) (e : Endstops) (env : List Sample),
      Runs S [] e (if axis_requested a c then wait_while_moving c env e
        else Outcome.done e env) := by
    intro c e env
    split_ifs
    · exact wait_while_moving_runs S c env e
    · exact Runs.of_step (HomingStep.quiet_refl S e) env
  unfold wait_for_moves
  exact Runs.quiet_and_then (Runs.quiet_and_then (hstep 0 e env) (fun e' r _ => hstep 1 e' r))
    (fun e' r _ => hstep 2 e' r)

theorem seek_fast_moves_step (a : Nat) (e : Endstops) :
    HomingStep (fun c => c < 3 ∧ axis_requested a c = true) [MOVING_TO_ORIGIN_FAST] e
      (seek_fast_moves a e) := by
  unfold seek_fast_moves
  refine (HomingStep.of_set_status _ _ e).then_quiet (HomingStep.of_for_each_axis _ ?_ _)
  intro c x hc
  split_ifs with h
  · exact HomingStep.of_start_move ⟨hc, h⟩ _ _ _ _
  · exact HomingStep.quiet_refl _ _

theorem retract_moves_step (a : Nat) (e : Endstops) :
    HomingStep (fun c => c < 3 ∧ axis_requested a c = true) [MOVING_BACK] e
      (retract_moves a e) := by
  unfold retract_moves
  refine (HomingStep.of_set_status _ _ e).then_quiet (HomingStep.of_for_each_axis _ ?_ _)
  intro c x hc
  split_ifs with h
  · exact HomingStep.of_start_move ⟨hc, h⟩ _ _ _ _
  · exact HomingStep.quiet_refl _ _

theorem seek_slow_moves_step (a : Nat) (e : Endstops) :
    HomingStep (fun c => c < 3 ∧ axis_requested a c = true) [MOVING_TO_ORIGIN_SLOW] e
      (seek_slow_moves a e) := by
  unfold seek_slow_moves
  refine (HomingStep.of_set_status _ _ e).then_quiet (HomingStep.of_for_each_axis _ ?_ _)
  intro c x hc
  split_ifs with h
  · exact HomingStep.of_start_move ⟨hc, h⟩ _ _ _ _
  · exact HomingStep.quiet_refl _ _

theorem trim_moves_step (a : Nat) (e : Endstops) :
    HomingStep (fun c => c < 3 ∧ axis_requested a c = true) [MOVING_BACK] e
      (trim_moves a e) := by
  unfold trim_moves
  refine (HomingStep.of_set_status _ _ e).then_quiet (HomingStep.of_for_each_axis _ ?_ _)
  intro c x hc
  by_cases h : (x.trim c != 0 && axis_requested a c) = true
  · rw [if_pos h]
    have hr : axis_requested a c = true := by
      rw [Bool.and_eq_true] at h
      exact h.2
    exact HomingStep.of_start_move ⟨hc, hr⟩ _ _ _ _
  · rw [if_neg h]
    exact HomingStep.quiet_refl _ _

theorem do_homing_seek_fast_runs (a : Nat) (e : Endstops) (env : List Sample) :
    Runs (fun c => c < 3 ∧ axis_requested a c = true) [MOVING_TO_ORIGIN_FAST] e
      (do_homing_seek_fast a e env) := by
  have := Runs.prepend (seek_fast_moves_step a e) (wait_for_homed_runs a (seek_fast_moves a e) env)
  rwa [List.append_nil] at this

theorem do_homing_retract_runs (a : Nat) (e : Endstops) (env : List Sample) :
    Runs (fun c => c < 3 ∧ axis_requested a c = true) [MOVING_TO_ORIGIN_FAST, MOVING_BACK] e
      (do_homing_retract a e env) := by
  unfold do_homing_retract
  refine @Runs.and_then _ [MOVING_TO_ORIGIN_FAST] [MOVING_BACK] _ _ _
    (do_homing_seek_fast_runs a e env) ?_
  intro e2 env2 _
  have := Runs.prepend (retract_moves_step a e2) (wait_for_moves_runs _ a (retract_moves a e2) env2)
  rwa [List.append_nil] at this

theorem do_homing_seek_slow_runs (a : Nat) (e : Endstops) (env : List Sample) :
    Runs (fun c => c < 3 ∧ axis_requested a c = true)
      [MOVING_TO_ORIGIN_FAST, MOVING_BACK, MOVING_TO_ORIGIN_SLOW] e
      (do_homing_seek_slow a e env) := by
  unfold do_homing_seek_slow
  refine @Runs.and_then _ [MOVING_TO_ORIGIN_FAST, MOVING_BACK] [MOVING_TO_ORIGIN_SLOW] _ _ _
    (do_homing_retract_runs a e env) ?_
  intro e4 env4 _
  have := Runs.prepend (seek_slow_moves_step a e4)
    (wait_for_homed_runs a (seek_slow_moves a e4) env4)
  rwa [List.append_nil] at this

/-- The routine `do_homing` is its first three phases followed by
`do_homing_finish`. -/
theorem do_homing_eq (a : Nat) (e : Endstops) (env : List Sample) :
    do_homing a e env = (do_homing_seek_slow a e env).andThen (do_homing_finish a) := by
  unfold do_homing do_homing_seek_slow do_homing_retract do_homing_seek_fast
  rw [Outcome.andThen_assoc, Outcome.andThen_assoc]
  rfl

theorem do_homing_trim_runs (a : Nat) (e : Endstops) (env : List Sample) :
    Runs (fun c => c < 3 ∧ axis_requested a c = true) [MOVING_BACK] e
      (do_homing_trim a e env) := by
  have := Runs.prepend (trim_moves_step a e) (wait_for_moves_runs _ a (trim_moves a e) env)
  rwa [List.append_nil] at this

theorem do_homing_finish_runs (a : Nat) (e : Endstops) (env : List Sample) :
    Runs (fun c => c < 3 ∧ axis_requested a c = true)
      ((if e.is_delta then [MOVING_BACK] else []) ++ [NOT_HOMING]) e
      (do_homing_finish a e env) := by
  unfold do_homing_finish
  refine Runs.and_then ?_ ?_
  · split_ifs
    · exact do_homing_trim_runs a e env
    · exact Runs.of_step (HomingStep.quiet_refl _ e) env
  · intro e7 env7 _
    exact Runs.of_step (HomingStep.of_set_status _ _ e7) env7

theorem do_homing_runs (a : Nat) (e : Endstops) (env : List Sample) :
    Runs (fun c => c < 3 ∧ axis_requested a c = true) (do_homing_statuses e) e
      (do_homing a e env) := by
  rw [do_homing_eq]
  have hfull : do_homing_statuses e =
      [MOVING_TO_ORIGIN_FAST, MOVING_BACK, MOVING_TO_ORIGIN_SLOW] ++
        ((if e.is_delta then [MOVING_BACK] else []) ++ [NOT_HOMING]) := by
    unfold do_homing_statuses
    rw [List.append_assoc]
  rw [hfull]
  refine Runs.and_then (do_homing_seek_slow_runs a e env) ?_
  intro e6 env6 h6
  rw [← h6.config.is_delta]
  exact do_homing_finish_runs a e6 env6

theorem and_one_of_and_three (a : Nat) (h : a &&& 3 = 3) : a &&& 1 ≠ 0 := by
  have h1 : (a &&& 3) &&& 1 = a &&& 1 := by
    rw [Nat.and_assoc]
    rfl
  rw [h] at h1
  rw [← h1]
  decide

theorem corexy_motor_dir_lt (dirx diry : Bool) : (corexy_motor_dir dirx diry).1 < 2 := by
  cases dirx <;> cases diry <;> decide

theorem axis_requested_four (c : Nat) (hc : c < 3) (h : axis_requested 4 c = true) : c = 2 := by
  interval_cases c
  · exact absurd h (by decide)
  · exact absurd h (by decide)
  · rfl

theorem wait_for_homed_corexy_iter_step (axis : Nat) (s : Sample) (d : Nat → Nat)
    (e : Endstops) : HomingStep (fun c => c < 2) [] e (wait_for_homed_corexy_iter axis s d e).e := by
  have hx : ∀ x : Endstops, HomingStep (fun c => c < 2) [] x
      (if (x.steppers X_AXIS).moving then x.stepper_move X_AXIS false 0 else x) := by
    intro x
    split_ifs
    · exact HomingStep.of_stepper_move (by decide) _ _ _
    · exact HomingStep.quiet_refl _ _
  have hy : ∀ x : Endstops, HomingStep (fun c => c < 2) [] x
      (if (x.steppers Y_AXIS).moving then x.stepper_move Y_AXIS false 0 else x) := by
    intro x
    split_ifs
    · exact HomingStep.of_stepper_move (by decide) _ _ _
    · exact HomingStep.quiet_refl _ _
  unfold wait_for_homed_corexy_iter
  simp only []
  by_cases hp : s.pins (home_pin (on_idle s e) axis) = true
  · rw [if_pos hp]
    by_cases hd : d axis < (on_idle s e).debounce_count
    · rw [if_pos hd]
      exact HomingStep.of_on_idle _ s e
    · rw [if_neg hd]
      exact ((HomingStep.of_on_idle _ s e).then_quiet (hx _)).then_quiet (hy _)
  · rw [if_neg hp]
    exact HomingStep.of_on_idle _ s e

theorem wait_for_homed_corexy_runs (axis : Nat) (e : Endstops) (env : List Sample) :
    Runs (fun c => c < 2) [] e (wait_for_homed_corexy axis e env) := by
  have h : ∀ (samples : List Sample) (d : Nat → Nat) (e : Endstops),
      Runs (fun c => c < 2) [] e (wait_for_homed_corexy_loop axis samples d e) := by
    intro samples
    induction samples with
    | nil => intro d e; exact Runs.of_blocked e
    | cons s rest ih =>
      intro d e
      simp only [wait_for_homed_corexy_loop]
      split_ifs
      · exact Runs.prepend (wait_for_homed_corexy_iter_step axis s d e) (ih _ _)
      · exact Runs.of_step (wait_for_homed_corexy_iter_step axis s d e) rest
  exact h env _ e

theorem wait_while_xy_moving_runs (S : Nat → Prop) (env : List Sample) :
    ∀ e : Endstops, Runs S [] e (wait_while_xy_moving env e) := by
  induction env with
  | nil =>
    intro e
    simp only [wait_while_xy_moving]
    split_ifs
    · exact Runs.of_blocked e
    · exact Runs.of_step (HomingStep.quiet_refl S e) []
  | cons s rest ih =>
    intro e
    simp only [wait_while_xy_moving]
    split_ifs
    · exact Runs.prepend (HomingStep.of_on_idle S s e) (ih _)
    · exact Runs.of_step (HomingStep.quiet_refl S e) _

theorem corexy_home_runs (home_axis : Nat) (dirx diry : Bool) (fast_rate slow_rate : ℚ)
    (retract_steps : Nat) (e : Endstops) (env : List Sample) :
    Runs (fun c => c < 2) [MOVING_TO_ORIGIN_FAST, MOVING_BACK, MOVING_TO_ORIGIN_SLOW] e
      (corexy_home home_axis dirx diry fast_rate slow_rate retract_steps e env) := by
  have h2 : ∀ (r : ℚ) (dx dy : Bool) (n : Nat) (st : Nat) (x : Endstops),
      HomingStep (fun c => c < 2) [st] x
        (start_move Y_AXIS r dy n (start_move X_AXIS r dx n (x.set_status st))) := by
    intro r dx dy n st x
    exact ((HomingStep.of_set_status _ st x).then_quiet
      (HomingStep.of_start_move (by decide) _ _ _ _)).then_quiet
      (HomingStep.of_start_move (by decide) _ _ _ _)
  have hw : ∀ (st : Nat) (x y : Endstops) (o : Outcome),
      HomingStep (fun c => c < 2) [st] x y → Runs (fun c => c < 2) [] y o →
      Runs (fun c => c < 2) [st] x o := by
    intro st x y o hxy ho
    have := Runs.prepend hxy ho
    rwa [List.append_nil] at this
  unfold corexy_home
  refine @Runs.and_then _ [MOVING_TO_ORIGIN_FAST] [MOVING_BACK, MOVING_TO_ORIGIN_SLOW] _ _ _
    (hw _ _ _ _ (h2 _ _ _ _ _ e) (wait_for_homed_corexy_runs _ _ _)) ?_
  intro e2 env2 _
  refine @Runs.and_then _ [MOVING_BACK] [MOVING_TO_ORIGIN_SLOW] _ _ _
    (hw _ _ _ _ (h2 _ _ _ _ _ e2) (wait_while_xy_moving_runs _ _ _)) ?_
  intro e4 env4 _
  exact hw _ _ _ _ (h2 _ _ _ _ _ e4) (wait_for_homed_corexy_runs _ _ _)

theorem corexy_search_loop_runs (motor : Nat) (env : List Sample) :
    ∀ e : Endstops, Runs (fun c => c = motor) [] e (corexy_search_loop motor env e) := by
  induction env with
  | nil => intro e; exact Runs.of_blocked e
  | cons s rest ih =>
    intro e
    have hstop : HomingStep (fun c => c = motor) [] e
        (if ((on_idle s e).steppers motor).moving then (on_idle s e).stepper_move motor false 0
          else on_idle s e) := by
      split_ifs
      · exact (HomingStep.of_on_idle _ s e).then_quiet (@HomingStep.of_stepper_move (fun c => c = motor) motor rfl _ _ _)
      · exact HomingStep.of_on_idle _ s e
    simp only [corexy_search_loop]
    by_cases hx : s.pins (home_pin (on_idle s e) X_AXIS) = true
    · rw [if_pos hx]; exact Runs.of_step hstop rest
    · rw [if_neg hx]
      by_cases hy : s.pins (home_pin (on_idle s e) Y_AXIS) = true
      · rw [if_pos hy]; exact Runs.of_step hstop rest
      · rw [if_neg hy]; exact Runs.prepend (HomingStep.of_on_idle _ s e) (ih (on_idle s e))

theorem corexy_search_runs (e : Endstops) (env : List Sample) :
    Runs (fun c => c = (corexy_motor_dir (e.home_direction X_AXIS) (e.home_direction Y_AXIS)).1)
      [MOVING_TO_ORIGIN_FAST] e (corexy_search e env) := by
  unfold corexy_search
  simp only []
  have := Runs.prepend
    ((HomingStep.of_set_status
        (fun c => c = (corexy_motor_dir (e.home_direction X_AXIS) (e.home_direction Y_AXIS)).1)
        MOVING_TO_ORIGIN_FAST e).then_quiet
      (@HomingStep.of_start_move
        (fun c => c = (corexy_motor_dir (e.home_direction X_AXIS) (e.home_direction Y_AXIS)).1)
        (corexy_motor_dir (e.home_direction X_AXIS) (e.home_direction Y_AXIS)).1 rfl
        (e.fast_rates (corexy_motor_dir (e.home_direction X_AXIS) (e.home_direction Y_AXIS)).1
          * (14142 / 10000))
        (corexy_motor_dir (e.home_direction X_AXIS) (e.home_direction Y_AXIS)).2 10000000 _))
    (corexy_search_loop_runs _ env _)
  rwa [List.append_nil] at this

theorem do_homing_corexy_runs (a : Nat) (e : Endstops) (env : List Sample) :
    Runs (fun c => (c < 2 ∧ (a &&& 1 ≠ 0 ∨ a &&& 2 ≠ 0)) ∨ (c = 2 ∧ a &&& 4 ≠ 0))
      (do_homing_corexy_statuses a e) e (do_homing_corexy a e env) := by
  unfold do_homing_corexy do_homing_corexy_statuses
  refine Runs.and_then ?_ ?_
  · split_ifs with h
    · refine Runs.runs_mono ?_ (corexy_search_runs e env)
      intro c hc
      exact Or.inl ⟨hc ▸ corexy_motor_dir_lt _ _, Or.inl (and_one_of_and_three a h)⟩
    · exact Runs.of_step (HomingStep.quiet_refl _ e) env
  intro e1 env1 h1
  refine Runs.and_then ?_ ?_
  · split_ifs with h
    · exact Runs.runs_mono (fun c hc => Or.inl ⟨hc, Or.inl h⟩) (corexy_home_runs _ _ _ _ _ _ e1 env1)
    · exact Runs.of_step (HomingStep.quiet_refl _ e1) env1
  intro e2 env2 h2
  refine Runs.and_then ?_ ?_
  · split_ifs with h
    · exact Runs.runs_mono (fun c hc => Or.inl ⟨hc, Or.inr h⟩) (corexy_home_runs _ _ _ _ _ _ e2 env2)
    · exact Runs.of_step (HomingStep.quiet_refl _ e2) env2
  intro e3 env3 h3
  refine Runs.and_then ?_ ?_
  · have hd : do_homing_statuses e = do_homing_statuses e3 := by
      unfold do_homing_statuses
      rw [h3.config.is_delta, h2.config.is_delta, h1.config.is_delta]
    split_ifs with h
    · rw [hd]
      refine Runs.runs_mono ?_ (do_homing_runs 4 e3 env3)
      intro c hc
      exact Or.inr ⟨axis_requested_four c hc.1 hc.2, h⟩
    · exact Runs.of_step (HomingStep.quiet_refl _ e3) env3
  intro e4 env4 _
  exact Runs.of_step (HomingStep.of_set_status _ _ e4) env4

/-! ## C12: the axes of the home command on a non-delta machine -/

theorem g28_add_axis_eq (e : Endstops) (gcode : Gcode) (c n : Nat) :
    g28_add_axis e gcode c n = n + (if g28_selected e gcode c then 1 <<< c else 0) := by
  unfold g28_add_axis g28_selected
  split_ifs <;> rfl

/-- The mask of the G28 handler has bit `c` set exactly for the axes the
handler selects. -/
theorem g28_axes_to_move_eq (e : Endstops) (gcode : Gcode) :
    g28_axes_to_move e gcode =
      (if g28_selected e gcode 0 then 1 else 0) + (if g28_selected e gcode 1 then 2 else 0) +
        (if g28_selected e gcode 2 then 4 else 0) := by
  unfold g28_axes_to_move
  rw [g28_add_axis_eq, g28_add_axis_eq, g28_add_axis_eq]
  simp

theorem g28_axis_requested (e : Endstops) (gcode : Gcode) (c : Nat) (hc : c < 3) :
    axis_requested (g28_axes_to_move e gcode) c = g28_selected e gcode c := by
  rw [g28_axes_to_move_eq]
  interval_cases c <;> cases g28_selected e gcode 0 <;> cases g28_selected e gcode 1 <;>
    cases g28_selected e gcode 2 <;> decide

theorem g28_axes_to_move_lt (e : Endstops) (gcode : Gcode) : g28_axes_to_move e gcode < 8 := by
  rw [g28_axes_to_move_eq]
  split_ifs <;> decide

theorem axis_requested_of_lt (a c : Nat) (ha : a < 8) (hc : 3 ≤ c) :
    axis_requested a c = false := by
  unfold axis_requested
  have h8 : 8 ≤ 2 ^ c := by
    calc 8 = 2 ^ 3 := by norm_num
      _ ≤ 2 ^ c := Nat.pow_le_pow_right (by decide) hc
  have : a >>> c = 0 := by
    rw [Nat.shiftRight_eq_div_pow]
    exact Nat.div_eq_of_lt (lt_of_lt_of_le ha h8)
  rw [this]
  rfl

/-- C12: on a non-delta machine the axis bitmask of the home command is as
follows.  When none of the letters X, Y, Z is present, bit `c` is set iff the
pin axis `c` homes to is connected; when at least one is present, bit `c` is
set iff the letter of axis `c` is present and that pin is connected.  Bit 0
is X, bit 1 is Y, bit 2 is Z, and no bit from 3 up is set. -/
theorem g28_axes_to_move_non_delta (e : Endstops) (gcode : Gcode) (hd : e.is_delta = false) :
    ((gcode.has_letter 'X' = false ∧ gcode.has_letter 'Y' = false ∧
          gcode.has_letter 'Z' = false) →
        ∀ c, c < 3 →
          axis_requested (g28_axes_to_move e gcode) c = e.pins_connected (home_pin e c)) ∧
      ((gcode.has_letter 'X' = true ∨ gcode.has_letter 'Y' = true ∨
          gcode.has_letter 'Z' = true) →
        ∀ c, c < 3 →
          axis_requested (g28_axes_to_move e gcode) c =
            (gcode.has_letter (axis_letter c) && e.pins_connected (home_pin e c))) ∧
      (∀ c, 3 ≤ c → axis_requested (g28_axes_to_move e gcode) c = false) ∧
      (axis_letter 0 = 'X' ∧ axis_letter 1 = 'Y' ∧ axis_letter 2 = 'Z') ∧
      g28_axes_to_move e gcode =
        (if axis_requested (g28_axes_to_move e gcode) 0 then 1 else 0) +
          (if axis_requested (g28_axes_to_move e gcode) 1 then 2 else 0) +
          (if axis_requested (g28_axes_to_move e gcode) 2 then 4 else 0) := by
  refine ⟨?_, ?_, ?_, ⟨rfl, rfl, rfl⟩, ?_⟩
  · rintro ⟨hx, hy, hz⟩ c hc
    rw [g28_axis_requested e gcode c hc]
    unfold g28_selected g28_home_all
    rw [hd, hx, hy, hz]
    simp
  · intro h c hc
    rw [g28_axis_requested e gcode c hc]
    unfold g28_selected g28_home_all
    rw [hd]
    have : (gcode.has_letter 'X' || gcode.has_letter 'Y' || gcode.has_letter 'Z') = true := by
      rcases h with h | h | h <;> simp [h]
    rw [this]
    simp
  · intro c hc
    exact axis_requested_of_lt _ c (g28_axes_to_move_lt e gcode) hc
  · rw [g28_axis_requested e gcode 0 (by decide), g28_axis_requested e gcode 1 (by decide),
      g28_axis_requested e gcode 2 (by decide)]
    exact g28_axes_to_move_eq e gcode

/-- C12 (witness): `G28 X` on the Cartesian machine with every pin connected
homes X only, and a plain `G28` homes X, Y and Z. -/
theorem g28_axes_to_move_non_delta_witness :
    (cartesian 0).is_delta = false ∧
      (∀ c, c < 3 →
        axis_requested (g28_axes_to_move (cartesian 0) g28_x) c =
          (g28_x.has_letter (axis_letter c) &&
            (cartesian 0).pins_connected (home_pin (cartesian 0) c))) ∧
      g28_axes_to_move (cartesian 0) g28_x = 1 ∧
      (∀ c, c < 3 →
        axis_requested (g28_axes_to_move (cartesian 0) g28_plain) c =
          (cartesian 0).pins_connected (home_pin (cartesian 0) c)) ∧
      g28_axes_to_move (cartesian 0) g28_plain = 7 :=
  ⟨rfl, (g28_axes_to_move_non_delta (cartesian 0) g28_x rfl).2.1 (Or.inl (by decide)),
    by decide,
    (g28_axes_to_move_non_delta (cartesian 0) g28_plain rfl).1 ⟨rfl, rfl, rfl⟩, by decide⟩

/-! ## The M666 handler in exact arithmetic -/

/-- The value of `lround` is within one half of its argument. -/
theorem lround_abs_sub_le (q : ℚ) : |(lround q : ℚ) - q| ≤ 1 / 2 := by
  unfold lround
  split_ifs with h
  · have h1 := Int.floor_le (q + 1 / 2)
    have h2 := Int.lt_floor_add_one (q + 1 / 2)
    rw [abs_le]
    constructor <;> linarith
  · have h1 := Int.floor_le (-q + 1 / 2)
    have h2 := Int.lt_floor_add_one (-q + 1 / 2)
    rw [abs_le]
    push_cast
    constructor <;> linarith

theorem trim2mm_exact_apply (e : Endstops) (c : Nat) (hc : c < 3) :
    trim2mm_exact e c = (e.trim c : ℚ) / e.steps_per_mm c * (trim_dir e c : ℚ) := by
  unfold trim2mm_exact
  interval_cases c <;> simp [Function.update]

theorem on_gcode_received_M666_exact_trim (e : Endstops) (gcode : Gcode) (c : Nat) (hc : c < 3) :
    (on_gcode_received_M666_exact e gcode).trim c =
      lround (m666_mm_exact e gcode c * e.steps_per_mm c) * trim_dir e c := by
  unfold on_gcode_received_M666_exact
  interval_cases c <;> simp [Function.update]

/-! ## C16: the frame of M206 -/

/-- C16: the M206 handler sets `home_offset` of each axis whose letter is
present to the value given with it, leaves `home_offset` of each axis whose
letter is absent as it was, and changes no other field of the module: the
resulting state is the old one with only `home_offset` replaced. -/
theorem on_gcode_received_M206_frame (e : Endstops) (gcode : Gcode) :
    ((on_gcode_received_M206 e gcode).home_offset 0 =
        if gcode.has_letter 'X' then gcode.get_value 'X' else e.home_offset 0) ∧
      ((on_gcode_received_M206 e gcode).home_offset 1 =
        if gcode.has_letter 'Y' then gcode.get_value 'Y' else e.home_offset 1) ∧
      ((on_gcode_received_M206 e gcode).home_offset 2 =
        if gcode.has_letter 'Z' then gcode.get_value 'Z' else e.home_offset 2) ∧
      (∀ c, 3 ≤ c → (on_gcode_received_M206 e gcode).home_offset c = e.home_offset c) ∧
      on_gcode_received_M206 e gcode =
        { e with home_offset := (on_gcode_received_M206 e gcode).home_offset } ∧
      (on_gcode_received_M206 e gcode).trim = e.trim ∧
      (on_gcode_received_M206 e gcode).homing_position = e.homing_position ∧
      (on_gcode_received_M206 e gcode).status = e.status := by
  unfold on_gcode_received_M206
  refine ⟨?_, ?_, ?_, ?_, ?_, ?_, ?_, ?_⟩
  · split_ifs <;> simp
  · split_ifs <;> simp
  · split_ifs <;> simp
  · intro c hc
    have h0 : c ≠ 0 := by omega
    have h1 : c ≠ 1 := by omega
    have h2 : c ≠ 2 := by omega
    split_ifs <;> simp [Function.update, h0, h1, h2]
  · split_ifs <;> rfl
  · split_ifs <;> rfl
  · split_ifs <;> rfl
  · split_ifs <;> rfl

/-- C16 (witness): `M206 X5 Z-2` on the Cartesian machine sets the offsets of
X and Z and keeps the offset of Y. -/
theorem on_gcode_received_M206_frame_witness :
    (on_gcode_received_M206 (cartesian 0) m206_x_z).home_offset 0 = 5 ∧
      (on_gcode_received_M206 (cartesian 0) m206_x_z).home_offset 1 = 0 ∧
      (on_gcode_received_M206 (cartesian 0) m206_x_z).home_offset 2 = -2 := by
  have h := on_gcode_received_M206_frame (cartesian 0) m206_x_z
  refine ⟨h.1.trans ?_, h.2.1.trans ?_, h.2.2.1.trans ?_⟩ <;>
    simp [Gcode.has_letter, Gcode.get_value, m206_x_z, cartesian]

/-! ## The moves started by a phase of `do_homing` -/

theorem cond_start_move_spec (b : Bool) (c : Nat) (r : ℚ) (d : Bool) (n : Nat) (e : Endstops) :
    (if b then start_move c r d n e else e).log =
        e.log ++ (if b then [Cmd.set_speed c 0, Cmd.move c d n] else []) ∧
      (if b then start_move c r d n e else e).feed_rate =
        (if b then Function.update e.feed_rate c r else e.feed_rate) ∧
      (if b then start_move c r d n e else e).status = e.status ∧
      SameConfig e (if b then start_move c r d n e else e) := by
  cases b
  · exact ⟨by simp, rfl, rfl, SameConfig.config_refl e⟩
  · exact ⟨by simp [start_move_log], rfl, rfl,
      ⟨rfl, rfl, rfl, rfl, rfl, rfl, rfl, rfl, rfl, rfl, rfl, rfl⟩⟩

/-- A loop over the three axes that starts a move of each axis satisfying
`cond`, with a rate, direction and step count read from the configuration:
its requests, in order, and the feed rates it leaves. -/
theorem for_each_axis_start_spec (cond : Endstops → Nat → Bool) (rate : Endstops → Nat → ℚ)
    (dir : Endstops → Nat → Bool) (steps : Endstops → Nat → Nat) (x : Endstops)
    (hinv : ∀ y c, SameConfig x y →
      cond y c = cond x c ∧ rate y c = rate x c ∧ dir y c = dir x c ∧ steps y c = steps x c)
    (e0 : Endstops) (h0 : SameConfig x e0) :
    (for_each_axis (fun c e =>
          if cond e c then start_move c (rate e c) (dir e c) (steps e c) e else e) e0).log =
        e0.log ++ (if cond x 0 then [Cmd.set_speed 0 0, Cmd.move 0 (dir x 0) (steps x 0)] else [])
          ++ (if cond x 1 then [Cmd.set_speed 1 0, Cmd.move 1 (dir x 1) (steps x 1)] else [])
          ++ (if cond x 2 then [Cmd.set_speed 2 0, Cmd.move 2 (dir x 2) (steps x 2)] else []) ∧
      (∀ c, c < 3 →
        (for_each_axis (fun c e =>
            if cond e c then start_move c (rate e c) (dir e c) (steps e c) e else e) e0).feed_rate c
          = if cond x c then rate x c else e0.feed_rate c) ∧
      (for_each_axis (fun c e =>
          if cond e c then start_move c (rate e c) (dir e c) (steps e c) e else e) e0).status =
        e0.status := by
  unfold for_each_axis
  simp only []
  obtain ⟨c0, r0, d0, n0⟩ := hinv e0 0 h0
  obtain ⟨l1, f1, s1, k1⟩ := cond_start_move_spec (cond e0 0) 0 (rate e0 0) (dir e0 0)
    (steps e0 0) e0
  generalize (if cond e0 0 = true then start_move 0 (rate e0 0) (dir e0 0) (steps e0 0) e0
    else e0) = e1 at l1 f1 s1 k1 ⊢
  have h1 := h0.config_trans k1
  obtain ⟨c1, r1, d1, n1⟩ := hinv e1 1 h1
  obtain ⟨l2, f2, s2, k2⟩ := cond_start_move_spec (cond e1 1) 1 (rate e1 1) (dir e1 1)
    (steps e1 1) e1
  generalize (if cond e1 1 = true then start_move 1 (rate e1 1) (dir e1 1) (steps e1 1) e1
    else e1) = e2 at l2 f2 s2 k2 ⊢
  have h2 := h1.config_trans k2
  obtain ⟨c2, r2, d2, n2⟩ := hinv e2 2 h2
  obtain ⟨l3, f3, s3, k3⟩ := cond_start_move_spec (cond e2 2) 2 (rate e2 2) (dir e2 2)
    (steps e2 2) e2
  generalize (if cond e2 2 = true then start_move 2 (rate e2 2) (dir e2 2) (steps e2 2) e2
    else e2) = e3 at l3 f3 s3 k3 ⊢
  rw [c0, r0, d0, n0] at *
  rw [c1, r1, d1, n1] at *
  rw [c2, r2, d2, n2] at *
  refine ⟨?_, ?_, ?_⟩
  · rw [l3, l2, l1]
  · intro c hc
    rw [f3, f2, f1]
    interval_cases c <;> cases cond x 0 <;> cases cond x 1 <;> cases cond x 2 <;>
      simp [Function.update]
  · rw [s3, s2, s1]

theorem cmds_for_self (c : Nat) (l : List Cmd) (h : ∀ x ∈ l, x.stepper = some c) :
    cmds_for c l = l := by
  unfold cmds_for
  rw [List.filter_eq_self]
  intro x hx
  rw [h x hx]
  simp

theorem cmds_for_other (c c' : Nat) (hne : c' ≠ c) (l : List Cmd)
    (h : ∀ x ∈ l, x.stepper = some c') : cmds_for c l = [] := by
  unfold cmds_for
  rw [List.filter_eq_nil_iff]
  intro x hx
  rw [h x hx]
  simpa using hne

/-- The requests to stepper `c` in a log extended by one block of requests
per axis. -/
theorem cmds_for_three (c : Nat) (hc : c < 3) (l : List Cmd) (m : Nat → List Cmd)
    (hm : ∀ c', ∀ x ∈ m c', x.stepper = some c') :
    cmds_for c (l ++ m 0 ++ m 1 ++ m 2) = cmds_for c l ++ m c := by
  rw [cmds_for_append, cmds_for_append, cmds_for_append]
  interval_cases c
  · rw [cmds_for_self 0 _ (hm 0), cmds_for_other 0 1 (by decide) _ (hm 1),
      cmds_for_other 0 2 (by decide) _ (hm 2)]
    simp
  · rw [cmds_for_other 1 0 (by decide) _ (hm 0), cmds_for_self 1 _ (hm 1),
      cmds_for_other 1 2 (by decide) _ (hm 2)]
    simp
  · rw [cmds_for_other 2 0 (by decide) _ (hm 0), cmds_for_other 2 1 (by decide) _ (hm 1),
      cmds_for_self 2 _ (hm 2)]
    simp

theorem HomingStep.step_log_grows {S : Nat → Prop} {t : List Nat} {e e' : Endstops}
    (h : HomingStep S t e e') : e.log <+: e'.log := by
  obtain ⟨l, hl, _⟩ := h.log
  rw [hl]
  exact List.prefix_append _ _

theorem Runs.runs_log_grows {S : Nat → Prop} {full : List Nat} {e : Endstops} {o : Outcome}
    (h : Runs S full e o) : e.log <+: o.state.log := by
  obtain ⟨t, _, _, h3⟩ := h
  exact h3.step_log_grows

/-- The requests of the block "Move back a small distance", per stepper, the
feed rates it sets and the status it writes. -/
theorem retract_moves_spec (a : Nat) (x : Endstops) :
    (∀ c, c < 3 →
      cmds_for c (retract_moves a x).log =
        cmds_for c x.log ++
          (if axis_requested a c then
            [Cmd.set_speed c 0, Cmd.move c (!x.home_direction c) (x.retract_steps c)]
          else [])) ∧
      (∀ c, c < 3 →
        (retract_moves a x).feed_rate c =
          if axis_requested a c then x.slow_rates c else x.feed_rate c) ∧
      (retract_moves a x).status = MOVING_BACK := by
  have h := for_each_axis_start_spec (fun _ c => axis_requested a c) (fun e c => e.slow_rates c)
    (fun e c => !e.home_direction c) (fun e c => e.retract_steps c) x
    (fun y c hy => ⟨rfl, by simp only [hy.slow_rates], by simp only [hy.home_direction],
      by simp only [hy.retract_steps]⟩)
    (x.set_status MOVING_BACK) ⟨rfl, rfl, rfl, rfl, rfl, rfl, rfl, rfl, rfl, rfl, rfl, rfl⟩
  refine ⟨?_, h.2.1, h.2.2⟩
  intro c hc
  have hl : (retract_moves a x).log = _ := h.1
  rw [hl]
  have hm : ∀ c', ∀ y ∈ (if axis_requested a c' then
      [Cmd.set_speed c' 0, Cmd.move c' (!x.home_direction c') (x.retract_steps c')] else []),
      y.stepper = some c' := by
    intro c' y hy
    split_ifs at hy
    · simp only [List.mem_cons, List.mem_singleton, List.not_mem_nil, or_false] at hy
      rcases hy with rfl | rfl <;> rfl
    · simp at hy
  exact cmds_for_three c hc x.log
    (fun c => if axis_requested a c then
        [Cmd.set_speed c 0, Cmd.move c (!x.home_direction c) (x.retract_steps c)] else []) hm

/-- The requests of the block "move for soft trim", per stepper, the feed
rates it sets and the status it writes. -/
theorem trim_moves_spec (a : Nat) (x : Endstops) :
    (∀ c, c < 3 →
      cmds_for c (trim_moves a x).log =
        cmds_for c x.log ++
          (if x.trim c != 0 && axis_requested a c then
            [Cmd.set_speed c 0,
              Cmd.move c (if x.trim c < 0 then !!x.home_direction c else !x.home_direction c)
                (x.trim c).natAbs]
          else [])) ∧
      (∀ c, c < 3 →
        (trim_moves a x).feed_rate c =
          if x.trim c != 0 && axis_requested a c then x.slow_rates c else x.feed_rate c) ∧
      (trim_moves a x).status = MOVING_BACK := by
  have h := for_each_axis_start_spec (fun e c => e.trim c != 0 && axis_requested a c)
    (fun e c => e.slow_rates c)
    (fun e c => if e.trim c < 0 then !!e.home_direction c else !e.home_direction c)
    (fun e c => (e.trim c).natAbs) x
    (fun y c hy => ⟨by simp only [hy.trim], by simp only [hy.slow_rates],
      by simp only [hy.trim, hy.home_direction], by simp only [hy.trim]⟩)
    (x.set_status MOVING_BACK) ⟨rfl, rfl, rfl, rfl, rfl, rfl, rfl, rfl, rfl, rfl, rfl, rfl⟩
  refine ⟨?_, h.2.1, h.2.2⟩
  intro c hc
  have hl : (trim_moves a x).log = _ := h.1
  rw [hl]
  have hm : ∀ c', ∀ y ∈ (if x.trim c' != 0 && axis_requested a c' then
      [Cmd.set_speed c' 0,
        Cmd.move c' (if x.trim c' < 0 then !!x.home_direction c' else !x.home_direction c')
          (x.trim c').natAbs] else []),
      y.stepper = some c' := by
    intro c' y hy
    by_cases hb : (x.trim c' != 0 && axis_requested a c') = true
    · rw [if_pos hb] at hy
      simp only [List.mem_cons, List.mem_singleton, List.not_mem_nil, or_false] at hy
      rcases hy with rfl | rfl <;> rfl
    · rw [if_neg hb] at hy
      simp at hy
  exact cmds_for_three c hc x.log
    (fun c => if x.trim c != 0 && axis_requested a c then
        [Cmd.set_speed c 0,
          Cmd.move c (if x.trim c < 0 then !!x.home_direction c else !x.home_direction c)
            (x.trim c).natAbs] else []) hm

theorem do_homing_after_seek_slow_log_grows (a : Nat) (e4 : Endstops) (env4 : List Sample) :
    e4.log <+:
      ((wait_for_homed a (seek_slow_moves a e4) env4).andThen (do_homing_finish a)).state.log :=
  Outcome.andThen_log_grows _ _
    ((seek_slow_moves_step a e4).step_log_grows.trans (wait_for_homed_log_grows a _ env4))
    (fun e6 env6 => (do_homing_finish_runs a e6 env6).runs_log_grows)

/-- The routine `do_homing` once its first `wait_for_homed` has returned. -/
theorem do_homing_of_seek_fast (a : Nat) (e : Endstops) (env : List Sample)
    (h : (do_homing_seek_fast a e env).finished = true) :
    do_homing a e env =
      (wait_for_moves a (retract_moves a (do_homing_seek_fast a e env).state)
        (do_homing_seek_fast a e env).rest).andThen fun e4 env4 =>
          (wait_for_homed a (seek_slow_moves a e4) env4).andThen (do_homing_finish a) := by
  have h1 : do_homing a e env =
      (do_homing_seek_fast a e env).andThen fun e2 env2 =>
        (wait_for_moves a (retract_moves a e2) env2).andThen fun e4 env4 =>
          (wait_for_homed a (seek_slow_moves a e4) env4).andThen (do_homing_finish a) := rfl
  rw [h1]
  generalize do_homing_seek_fast a e env = o at h ⊢
  cases o with
  | done e2 r => rfl
  | blocked e2 => simp [Outcome.finished] at h

/-- The routine `do_homing` once its second `wait_for_homed` has returned. -/
theorem do_homing_of_seek_slow (a : Nat) (e : Endstops) (env : List Sample)
    (h : (do_homing_seek_slow a e env).finished = true) :
    do_homing a e env =
      do_homing_finish a (do_homing_seek_slow a e env).state (do_homing_seek_slow a e env).rest := by
  rw [do_homing_eq]
  generalize do_homing_seek_slow a e env = o at h ⊢
  cases o with
  | done e2 r => rfl
  | blocked e2 => simp [Outcome.finished] at h

/-! ## C17: the Retract phase -/

/-- C17: when the fast seek of `do_homing` has returned, the Retract block
sends to the stepper of every requested axis `c` exactly `set_speed(0)` and
then a move of `retract_steps[c]` steps with direction flag
`!home_direction[c]`, sets its feed rate to `slow_rates[c]`, sends nothing to
the stepper of an axis that is not requested, writes the status
`MOVING_BACK`, and these requests are part of the run of `do_homing`. -/
theorem do_homing_retract_commands (a : Nat) (e : Endstops) (env : List Sample)
    (h : (do_homing_seek_fast a e env).finished = true) :
    (∀ c, c < 3 → axis_requested a c = true →
        cmds_for c (retract_moves a (do_homing_seek_fast a e env).state).log =
            cmds_for c (do_homing_seek_fast a e env).state.log ++
              [Cmd.set_speed c 0, Cmd.move c (!e.home_direction c) (e.retract_steps c)] ∧
          (retract_moves a (do_homing_seek_fast a e env).state).feed_rate c = e.slow_rates c) ∧
      (∀ c, c < 3 → axis_requested a c = false →
        cmds_for c (retract_moves a (do_homing_seek_fast a e env).state).log =
          cmds_for c (do_homing_seek_fast a e env).state.log) ∧
      (retract_moves a (do_homing_seek_fast a e env).state).status = MOVING_BACK ∧
      (retract_moves a (do_homing_seek_fast a e env).state).log <+:
        (do_homing a e env).state.log := by
  have hcfg := ((do_homing_seek_fast_runs a e env).step_of_finished h).config
  have hs := retract_moves_spec a (do_homing_seek_fast a e env).state
  rw [hcfg.home_direction, hcfg.retract_steps, hcfg.slow_rates] at hs
  refine ⟨?_, ?_, hs.2.2, ?_⟩
  · intro c hc hr
    have h1 := hs.1 c hc
    have h2 := hs.2.1 c hc
    rw [if_pos hr] at h1 h2
    exact ⟨h1, h2⟩
  · intro c hc hr
    have h1 := hs.1 c hc
    rw [hr] at h1
    simpa using h1
  · rw [do_homing_of_seek_fast a e env h]
    exact Outcome.andThen_log_grows _ _ (wait_for_moves_log_grows a _ _)
      (do_homing_after_seek_slow_log_grows a)

/-- C17 (witness): the Cartesian machine (80 steps per mm, homing to min,
retract 3 mm, that is 240 steps) homing X with the switch asserted from the
first sample: the Retract block sends the X stepper a move of 240 steps with
direction flag `false`, away from min. -/
theorem do_homing_retract_commands_witness :
    (do_homing_seek_fast 1 (cartesian 0) [all_asserted]).finished = true ∧
      config_retract_steps 3 ((cartesian 0).steps_per_mm 0) = (cartesian 0).retract_steps 0 ∧
      cmds_for 0 (retract_moves 1 (do_homing_seek_fast 1 (cartesian 0) [all_asserted]).state).log =
        cmds_for 0 (do_homing_seek_fast 1 (cartesian 0) [all_asserted]).state.log ++
          [Cmd.set_speed 0 0, Cmd.move 0 false 240] ∧
      (retract_moves 1 (do_homing_seek_fast 1 (cartesian 0) [all_asserted]).state).feed_rate 0 =
        (cartesian 0).slow_rates 0 :=
  ⟨by decide,
    by
      have h : (3 : ℚ) * (cartesian 0).steps_per_mm 0 = ((240 : ℤ) : ℚ) := by
        show (3 : ℚ) * 80 = ((240 : ℤ) : ℚ)
        norm_num
      rw [config_retract_steps, h, Int.floor_intCast]
      rfl,
    ((do_homing_retract_commands 1 (cartesian 0) [all_asserted] (by decide)).1 0 (by decide)
      (by decide)).1,
    ((do_homing_retract_commands 1 (cartesian 0) [all_asserted] (by decide)).1 0 (by decide)
      (by decide)).2⟩

/-! ## C18: the trim phase -/

/-- C18: when the slow seek of `do_homing` has returned, on a delta the trim
block sends to the stepper of axis `c` exactly `set_speed(0)` and a move of
`|trim[c]|` steps if the axis is requested and `trim[c]` is not zero, and
nothing otherwise; the direction flag of the move is `!home_direction[c]` for
a positive trim and `home_direction[c]` for a negative one, the feed rate of
the axis is set to `slow_rates[c]`, and these requests are part of the run of
`do_homing`.  On a machine that is not a delta `do_homing` returns without
any further request. -/
theorem do_homing_trim_commands (a : Nat) (e : Endstops) (env : List Sample)
    (h : (do_homing_seek_slow a e env).finished = true) :
    (e.is_delta = true →
        (∀ c, c < 3 →
          cmds_for c (trim_moves a (do_homing_seek_slow a e env).state).log =
            cmds_for c (do_homing_seek_slow a e env).state.log ++
              (if axis_requested a c = true ∧ e.trim c ≠ 0 then
                [Cmd.set_speed c 0,
                  Cmd.move c (if 0 < e.trim c then !e.home_direction c else e.home_direction c)
                    (e.trim c).natAbs]
              else [])) ∧
          (∀ c, c < 3 → axis_requested a c = true → e.trim c ≠ 0 →
            (trim_moves a (do_homing_seek_slow a e env).state).feed_rate c = e.slow_rates c) ∧
          (trim_moves a (do_homing_seek_slow a e env).state).log <+:
            (do_homing a e env).state.log) ∧
      (e.is_delta = false →
        (do_homing a e env).finished = true ∧
          (do_homing a e env).state.log = (do_homing_seek_slow a e env).state.log) := by
  have hcfg := ((do_homing_seek_slow_runs a e env).step_of_finished h).config
  have hs := trim_moves_spec a (do_homing_seek_slow a e env).state
  rw [hcfg.home_direction, hcfg.trim, hcfg.slow_rates] at hs
  have hd := hcfg.is_delta
  constructor
  · intro hdelta
    refine ⟨?_, ?_, ?_⟩
    · intro c hc
      rw [hs.1 c hc]
      congr 1
      by_cases hr : axis_requested a c = true <;> by_cases ht : e.trim c = 0
      · simp [hr, ht]
      · have hlt : (e.trim c < 0) ↔ ¬ (0 < e.trim c) := by omega
        by_cases hp : 0 < e.trim c <;> simp [hr, ht, hp, hlt]
      · simp [hr, ht]
      · simp [hr, ht]
    · intro c hc hr ht
      rw [hs.2.1 c hc]
      simp [hr, ht]
    · rw [do_homing_of_seek_slow a e env h]
      unfold do_homing_finish
      rw [hd, hdelta, if_pos rfl]
      exact Outcome.andThen_log_grows _ _ (wait_for_moves_log_grows a _ _)
        (fun e7 env7 => List.prefix_refl _)
  · intro hdelta
    rw [do_homing_of_seek_slow a e env h]
    unfold do_homing_finish
    rw [hd, hdelta]
    exact ⟨rfl, rfl⟩

/-- C18 (witness): a delta homing to min with trims of 40, 0 and -24 steps,
homing all axes with the switches asserted throughout: the trim block moves X
by 40 steps with direction flag `false` (away from the switch), does not move
Y, and moves Z by 24 steps with direction flag `true` (toward the switch). -/
theorem do_homing_trim_commands_witness :
    (do_homing_seek_slow 7 delta_with_trim [all_stopped, all_stopped, all_stopped]).finished
        = true ∧
      cmds_for 0 (trim_moves 7 (do_homing_seek_slow 7 delta_with_trim
          [all_stopped, all_stopped, all_stopped]).state).log =
        cmds_for 0 (do_homing_seek_slow 7 delta_with_trim
          [all_stopped, all_stopped, all_stopped]).state.log ++
          [Cmd.set_speed 0 0, Cmd.move 0 false 40] ∧
      cmds_for 1 (trim_moves 7 (do_homing_seek_slow 7 delta_with_trim
          [all_stopped, all_stopped, all_stopped]).state).log =
        cmds_for 1 (do_homing_seek_slow 7 delta_with_trim
          [all_stopped, all_stopped, all_stopped]).state.log ++ [] ∧
      cmds_for 2 (trim_moves 7 (do_homing_seek_slow 7 delta_with_trim
          [all_stopped, all_stopped, all_stopped]).state).log =
        cmds_for 2 (do_homing_seek_slow 7 delta_with_trim
          [all_stopped, all_stopped, all_stopped]).state.log ++
          [Cmd.set_speed 2 0, Cmd.move 2 true 24] :=
  ⟨by decide,
    (((do_homing_trim_commands 7 delta_with_trim [all_stopped, all_stopped, all_stopped]
      (by decide)).1 rfl).1 0 (by decide)).trans (congrArg _ (if_pos (by decide))),
    (((do_homing_trim_commands 7 delta_with_trim [all_stopped, all_stopped, all_stopped]
      (by decide)).1 rfl).1 1 (by decide)).trans (congrArg _ (if_neg (by decide))),
    (((do_homing_trim_commands 7 delta_with_trim [all_stopped, all_stopped, all_stopped]
      (by decide)).1 rfl).1 2 (by decide)).trans (congrArg _ (if_pos (by decide)))⟩

/-! ## C20: the frame of the combined CoreXY search -/

theorem do_homing_corexy_after_search_log_grows (a : Nat) (e1 : Endstops) (env1 : List Sample) :
    e1.log <+:
      ((if a &&& 1 ≠ 0 then
          corexy_home X_AXIS (e1.home_direction X_AXIS) (e1.home_direction X_AXIS)
            (e1.fast_rates X_AXIS) (e1.slow_rates X_AXIS) (e1.retract_steps X_AXIS) e1 env1
        else Outcome.done e1 env1).andThen fun e2 env2 =>
        (if a &&& 2 ≠ 0 then
            corexy_home Y_AXIS (e2.home_direction Y_AXIS) (!e2.home_direction Y_AXIS)
              (e2.fast_rates Y_AXIS) (e2.slow_rates Y_AXIS) (e2.retract_steps Y_AXIS) e2 env2
          else Outcome.done e2 env2).andThen fun e3 env3 =>
        (if a &&& 4 ≠ 0 then do_homing 4 e3 env3 else Outcome.done e3 env3).andThen
          fun e4 env4 => Outcome.done (e4.set_status NOT_HOMING) env4).state.log := by
  refine Outcome.andThen_log_grows _ _ ?_ ?_
  · split_ifs
    · exact corexy_home_log_grows _ _ _ _ _ _ _ _
    · exact List.prefix_refl _
  · intro e2 env2
    refine Outcome.andThen_log_grows _ _ ?_ ?_
    · split_ifs
      · exact corexy_home_log_grows _ _ _ _ _ _ _ _
      · exact List.prefix_refl _
    · intro e3 env3
      refine Outcome.andThen_log_grows _ _ ?_ ?_
      · split_ifs
        · exact do_homing_log_grows _ _ _
        · exact List.prefix_refl _
      · intro e4 env4
        exact List.prefix_refl _

/-- C20: when both X and Y are requested, `do_homing_corexy` begins with the
combined search, and the combined search sends requests to one stepper only,
the motor chosen by the table on the home directions (it is the X or the Y
motor): the log of every other stepper, Z and the other of X and Y, is the
same after the search as before it.  For home directions (min, max) the
motor is Y, and neither the X nor the Z stepper receives a request. -/
theorem corexy_search_commands_one_motor (a : Nat) (e : Endstops) (env : List Sample)
    (hxy : a &&& 3 = 3) :
    (corexy_search e env).state.log <+: (do_homing_corexy a e env).state.log ∧
      ((corexy_motor_dir (e.home_direction X_AXIS) (e.home_direction Y_AXIS)).1 = X_AXIS ∨
        (corexy_motor_dir (e.home_direction X_AXIS) (e.home_direction Y_AXIS)).1 = Y_AXIS) ∧
      (∀ c, c ≠ (corexy_motor_dir (e.home_direction X_AXIS) (e.home_direction Y_AXIS)).1 →
        cmds_for c (corexy_search e env).state.log = cmds_for c e.log) ∧
      (e.home_direction X_AXIS = true → e.home_direction Y_AXIS = false →
        (corexy_motor_dir (e.home_direction X_AXIS) (e.home_direction Y_AXIS)).1 = Y_AXIS ∧
          cmds_for X_AXIS (corexy_search e env).state.log = cmds_for X_AXIS e.log ∧
          cmds_for Z_AXIS (corexy_search e env).state.log = cmds_for Z_AXIS e.log) := by
  have hframe : ∀ c, c ≠ (corexy_motor_dir (e.home_direction X_AXIS) (e.home_direction Y_AXIS)).1 →
      cmds_for c (corexy_search e env).state.log = cmds_for c e.log := by
    intro c hc
    obtain ⟨t, _, _, hstep⟩ := corexy_search_runs e env
    exact hstep.cmds_for_eq hc
  refine ⟨?_, ?_, hframe, ?_⟩
  · unfold do_homing_corexy
    rw [if_pos hxy]
    exact Outcome.andThen_log_grows _ _ (List.prefix_refl _)
      (do_homing_corexy_after_search_log_grows a)
  · cases e.home_direction X_AXIS <;> cases e.home_direction Y_AXIS <;> decide
  · intro hx hy
    have hm : (corexy_motor_dir (e.home_direction X_AXIS) (e.home_direction Y_AXIS)).1
        = Y_AXIS := by
      rw [hx, hy]
      rfl
    refine ⟨hm, hframe _ ?_, hframe _ ?_⟩
    · rw [hm]; decide
    · rw [hm]; decide

/-- C20 (witness): a CoreXY machine with home directions (min, max) homing X
and Y: the combined search sends its requests to the Y motor and none to the
X or the Z motor. -/
theorem corexy_search_commands_one_motor_witness :
    cmds_for X_AXIS (corexy_search (corexy_machine true false) [all_asserted]).state.log =
        cmds_for X_AXIS (corexy_machine true false).log ∧
      cmds_for Z_AXIS (corexy_search (corexy_machine true false) [all_asserted]).state.log =
        cmds_for Z_AXIS (corexy_machine true false).log ∧
      cmds_for Y_AXIS (corexy_search (corexy_machine true false) [all_asserted]).state.log =
        [Cmd.set_speed Y_AXIS 0, Cmd.move Y_AXIS true 10000000, Cmd.move Y_AXIS false 0] :=
  ⟨((corexy_search_commands_one_motor 3 (corexy_machine true false) [all_asserted]
      (by decide)).2.2.2 rfl rfl).2.1,
    ((corexy_search_commands_one_motor 3 (corexy_machine true false) [all_asserted]
      (by decide)).2.2.2 rfl rfl).2.2,
    by decide⟩

/-! ## The requests of the home command -/

theorem resets_for_append (c : Nat) (l₁ l₂ : List Cmd) :
    resets_for c (l₁ ++ l₂) = resets_for c l₁ ++ resets_for c l₂ := by
  unfold resets_for
  exact List.filter_append _ _

theorem axis_requested_iff (a c : Nat) : axis_requested a c = true ↔ (a >>> c) &&& 1 ≠ 0 := by
  unfold axis_requested
  exact bne_iff_ne

theorem cond_reset_spec (a c : Nat) (e : Endstops) :
    (if (a >>> c) &&& 1 ≠ 0 then
        { e with log := e.log ++
            [Cmd.reset_axis_position (e.homing_position c + e.home_offset c) c] }
      else e).log =
        e.log ++ (if axis_requested a c then
          [Cmd.reset_axis_position (e.homing_position c + e.home_offset c) c] else []) ∧
      (if (a >>> c) &&& 1 ≠ 0 then
        { e with log := e.log ++
            [Cmd.reset_axis_position (e.homing_position c + e.home_offset c) c] }
      else e).homing_position = e.homing_position ∧
      (if (a >>> c) &&& 1 ≠ 0 then
        { e with log := e.log ++
            [Cmd.reset_axis_position (e.homing_position c + e.home_offset c) c] }
      else e).home_offset = e.home_offset := by
  by_cases h : (a >>> c) &&& 1 ≠ 0
  · rw [if_pos h, if_pos ((axis_requested_iff a c).2 h)]
    exact ⟨rfl, rfl, rfl⟩
  · rw [if_neg h, if_neg (fun hr => h ((axis_requested_iff a c).1 hr))]
    exact ⟨by simp, rfl, rfl⟩

/-- The requests of the loop of the G28 handler that resets the position of
every homed axis. -/
theorem g28_reset_positions_log (a : Nat) (e2 : Endstops) :
    (g28_reset_positions a e2).log =
      e2.log ++
        (if axis_requested a 0 then
          [Cmd.reset_axis_position (e2.homing_position 0 + e2.home_offset 0) 0] else []) ++
        (if axis_requested a 1 then
          [Cmd.reset_axis_position (e2.homing_position 1 + e2.home_offset 1) 1] else []) ++
        (if axis_requested a 2 then
          [Cmd.reset_axis_position (e2.homing_position 2 + e2.home_offset 2) 2] else []) := by
  unfold g28_reset_positions for_each_axis
  simp only []
  obtain ⟨l1, p1, f1⟩ := cond_reset_spec a 0 e2
  generalize (if (a >>> 0) &&& 1 ≠ 0 then
      { e2 with log := e2.log ++
          [Cmd.reset_axis_position (e2.homing_position 0 + e2.home_offset 0) 0] }
    else e2) = e3 at l1 p1 f1 ⊢
  obtain ⟨l2, p2, f2⟩ := cond_reset_spec a 1 e3
  generalize (if (a >>> 1) &&& 1 ≠ 0 then
      { e3 with log := e3.log ++
          [Cmd.reset_axis_position (e3.homing_position 1 + e3.home_offset 1) 1] }
    else e3) = e4 at l2 p2 f2 ⊢
  obtain ⟨l3, _, _⟩ := cond_reset_spec a 2 e4
  rw [l3, l2, l1, p2, f2, p1, f1]

/-- The requests of the reset loop, per axis: a position reset of every
requested axis to `homing_position + home_offset`, and no stepper request. -/
theorem g28_reset_positions_spec (a : Nat) (e2 : Endstops) (c : Nat) :
    resets_for c (g28_reset_positions a e2).log =
        resets_for c e2.log ++
          (if c < 3 ∧ axis_requested a c = true then
            [Cmd.reset_axis_position (e2.homing_position c + e2.home_offset c) c] else []) ∧
      cmds_for c (g28_reset_positions a e2).log = cmds_for c e2.log := by
  rw [g28_reset_positions_log]
  constructor
  · rw [resets_for_append, resets_for_append, resets_for_append]
    by_cases hc : c < 3
    · interval_cases c <;> cases axis_requested a 0 <;> cases axis_requested a 1 <;>
        cases axis_requested a 2 <;> simp [resets_for, Cmd.reset_axis]
    · have h0 : c ≠ 0 := by omega
      have h1 : c ≠ 1 := by omega
      have h2 : c ≠ 2 := by omega
      have hn : ¬ (c < 3 ∧ axis_requested a c = true) := fun h => hc h.1
      rw [if_neg hn]
      cases axis_requested a 0 <;> cases axis_requested a 1 <;>
        cases axis_requested a 2 <;> simp [resets_for, Cmd.reset_axis, h0.symm, h1.symm, h2.symm]
  · rw [cmds_for_append, cmds_for_append, cmds_for_append]
    cases axis_requested a 0 <;> cases axis_requested a 1 <;>
      cases axis_requested a 2 <;> simp [cmds_for, Cmd.stepper]

/-- The G28 handler, for any homing routine that keeps the configuration and
sends stepper requests to the steppers in `S` only: the position resets per
axis, and the steppers left alone. -/
theorem g28_finish_spec (S : Nat → Prop) (full : List Nat) (a : Nat) (e : Endstops) (o : Outcome)
    (ho : Runs S full { e with log := e.log ++ [Cmd.turn_enable_pins_on] } o) (c : Nat) :
    (o.andThen fun e2 env2 => Outcome.done (g28_reset_positions a e2) env2).finished
        = o.finished ∧
      resets_for c
          (o.andThen fun e2 env2 => Outcome.done (g28_reset_positions a e2) env2).state.log =
        resets_for c e.log ++
          (if o.finished = true ∧ c < 3 ∧ axis_requested a c = true then
            [Cmd.reset_axis_position (e.homing_position c + e.home_offset c) c] else []) ∧
      (¬ S c →
        cmds_for c
            (o.andThen fun e2 env2 => Outcome.done (g28_reset_positions a e2) env2).state.log =
          cmds_for c e.log) := by
  obtain ⟨t, _, _, hstep⟩ := ho
  have hr : resets_for c o.state.log = resets_for c e.log := by
    rw [hstep.resets_for_eq c]
    show resets_for c (e.log ++ [Cmd.turn_enable_pins_on]) = _
    rw [resets_for_append]
    simp [resets_for, Cmd.reset_axis]
  have hc : ¬ S c → cmds_for c o.state.log = cmds_for c e.log := by
    intro hS
    rw [hstep.cmds_for_eq hS]
    show cmds_for c (e.log ++ [Cmd.turn_enable_pins_on]) = _
    rw [cmds_for_append]
    simp [cmds_for, Cmd.stepper]
  have hp : o.state.homing_position = e.homing_position := hstep.config.homing_position
  have hf : o.state.home_offset = e.home_offset := hstep.config.home_offset
  cases o with
  | done e2 r =>
    simp only [Outcome.andThen, Outcome.state, Outcome.finished, true_and] at hr hc hp hf ⊢
    rw [(g28_reset_positions_spec a e2 c).1, (g28_reset_positions_spec a e2 c).2, hr, hp, hf]
    exact ⟨rfl, hc⟩
  | blocked e2 =>
    simp only [Outcome.andThen, Outcome.state, Outcome.finished] at hr hc ⊢
    rw [hr]
    exact ⟨trivial, by simp, hc⟩

/-- The home command: the position resets it adds per axis, and the steppers
it leaves alone, for the direct and for the CoreXY strategy. -/
theorem on_gcode_received_G28_spec (e : Endstops) (gcode : Gcode) (env : List Sample) (c : Nat) :
    resets_for c (on_gcode_received_G28 e gcode env).state.log =
        resets_for c e.log ++
          (if (on_gcode_received_G28 e gcode env).finished = true ∧ c < 3 ∧
              axis_requested (g28_axes_to_move e gcode) c = true then
            [Cmd.reset_axis_position (e.homing_position c + e.home_offset c) c] else []) ∧
      (e.is_corexy = false → ¬ (c < 3 ∧ axis_requested (g28_axes_to_move e gcode) c = true) →
        cmds_for c (on_gcode_received_G28 e gcode env).state.log = cmds_for c e.log) ∧
      (e.is_corexy = true →
        ¬ ((c < 2 ∧ (g28_axes_to_move e gcode &&& 1 ≠ 0 ∨ g28_axes_to_move e gcode &&& 2 ≠ 0)) ∨
          (c = 2 ∧ g28_axes_to_move e gcode &&& 4 ≠ 0)) →
        cmds_for c (on_gcode_received_G28 e gcode env).state.log = cmds_for c e.log) := by
  have hdef : on_gcode_received_G28 e gcode env =
      (if e.is_corexy then
          do_homing_corexy (g28_axes_to_move e gcode)
            { e with log := e.log ++ [Cmd.turn_enable_pins_on] } env
        else do_homing (g28_axes_to_move e gcode)
            { e with log := e.log ++ [Cmd.turn_enable_pins_on] } env).andThen
        fun e2 env2 => Outcome.done (g28_reset_positions (g28_axes_to_move e gcode) e2) env2 :=
    rfl
  rw [hdef]
  by_cases hx : e.is_corexy = true
  · have h := g28_finish_spec _ _ (g28_axes_to_move e gcode) e _
      (do_homing_corexy_runs (g28_axes_to_move e gcode)
        { e with log := e.log ++ [Cmd.turn_enable_pins_on] } env) c
    rw [if_pos hx, h.1]
    exact ⟨h.2.1, fun hfalse => absurd hx (by simp [hfalse]), fun _ => h.2.2⟩
  · have h := g28_finish_spec _ _ (g28_axes_to_move e gcode) e _
      (do_homing_runs (g28_axes_to_move e gcode)
        { e with log := e.log ++ [Cmd.turn_enable_pins_on] } env) c
    rw [if_neg hx, h.1]
    exact ⟨h.2.1, fun _ => h.2.2, fun htrue => absurd htrue hx⟩

/-! ## C13: the positions reset by the home command -/

/-- C13: when the home command has completed, it has reset the position of
every axis in its bitmask, once, to exactly
`homing_position[axis] + home_offset[axis]`, and it has reset the position of
no axis outside the bitmask. -/
theorem home_command_resets_positions (e : Endstops) (gcode : Gcode) (env : List Sample)
    (h : (on_gcode_received_G28 e gcode env).finished = true) :
    (∀ c, c < 3 → axis_requested (g28_axes_to_move e gcode) c = true →
        resets_for c (on_gcode_received_G28 e gcode env).state.log =
          resets_for c e.log ++
            [Cmd.reset_axis_position (e.homing_position c + e.home_offset c) c]) ∧
      (∀ c, axis_requested (g28_axes_to_move e gcode) c = false →
        resets_for c (on_gcode_received_G28 e gcode env).state.log = resets_for c e.log) := by
  constructor
  · intro c hc hr
    rw [(on_gcode_received_G28_spec e gcode env c).1, if_pos ⟨h, hc, hr⟩]
  · intro c hr
    rw [(on_gcode_received_G28_spec e gcode env c).1, if_neg (by simp [hr]), List.append_nil]

/-- C13 (witness): `G28 X0` on the Cartesian machine, run to completion with
the switches asserted: the position of X is reset to
`homing_position[0] + home_offset[0]`, the position of Y is not reset. -/
theorem home_command_resets_positions_witness :
    (on_gcode_received_G28 (cartesian 0) g28_x [all_stopped, all_stopped, all_stopped]).finished
        = true ∧
      resets_for 0
          (on_gcode_received_G28 (cartesian 0) g28_x
            [all_stopped, all_stopped, all_stopped]).state.log =
        resets_for 0 (cartesian 0).log ++
          [Cmd.reset_axis_position
            ((cartesian 0).homing_position 0 + (cartesian 0).home_offset 0) 0] ∧
      resets_for 1
          (on_gcode_received_G28 (cartesian 0) g28_x
            [all_stopped, all_stopped, all_stopped]).state.log =
        resets_for 1 (cartesian 0).log :=
  ⟨by decide,
    (home_command_resets_positions (cartesian 0) g28_x [all_stopped, all_stopped, all_stopped]
      (by decide)).1 0 (by decide) (by decide),
    (home_command_resets_positions (cartesian 0) g28_x [all_stopped, all_stopped, all_stopped]
      (by decide)).2 1 (by decide)⟩

/-! ## The mask tests of an axis that is not requested -/

theorem and_four_of_not_requested :
    ∀ a, a < 8 → axis_requested a 2 = false → a &&& 4 = 0 := by
  decide

/-! ## C19: the statuses written by a homing cycle -/

theorem do_homing_statuses_getLast (e : Endstops) :
    (do_homing_statuses e).getLast? = some NOT_HOMING := by
  unfold do_homing_statuses
  cases e.is_delta <;> rfl

theorem do_homing_corexy_statuses_getLast (a : Nat) (e : Endstops) :
    (do_homing_corexy_statuses a e).getLast? = some NOT_HOMING := by
  unfold do_homing_corexy_statuses
  simp [List.getLast?_append]

/-- C19 (amended): `do_homing` writes to `status`, in order,
`MOVING_TO_ORIGIN_FAST`, `MOVING_BACK`, `MOVING_TO_ORIGIN_SLOW`, then on a
delta only `MOVING_BACK` once more (the trim phase has no status of its own),
then `NOT_HOMING`: at any point of the run the values written so far are a
prefix of this list, and when `do_homing` returns they are the whole list.
Whenever `do_homing` or `do_homing_corexy` returns, the status is
`NOT_HOMING`. -/
theorem do_homing_status_writes (a : Nat) (e : Endstops) (env : List Sample) :
    do_homing_statuses e =
        (if e.is_delta then
          [MOVING_TO_ORIGIN_FAST, MOVING_BACK, MOVING_TO_ORIGIN_SLOW, MOVING_BACK, NOT_HOMING]
        else [MOVING_TO_ORIGIN_FAST, MOVING_BACK, MOVING_TO_ORIGIN_SLOW, NOT_HOMING]) ∧
      (∃ t, t <+: do_homing_statuses e ∧
        (do_homing a e env).state.status_log = e.status_log ++ t) ∧
      ((do_homing a e env).finished = true →
        (do_homing a e env).state.status_log = e.status_log ++ do_homing_statuses e ∧
          (do_homing a e env).state.status = NOT_HOMING) ∧
      ((do_homing_corexy a e env).finished = true →
        (do_homing_corexy a e env).state.status_log =
            e.status_log ++ do_homing_corexy_statuses a e ∧
          (do_homing_corexy a e env).state.status = NOT_HOMING) := by
  refine ⟨?_, ?_, ?_, ?_⟩
  · unfold do_homing_statuses
    cases e.is_delta <;> rfl
  · obtain ⟨t, h1, _, hstep⟩ := do_homing_runs a e env
    exact ⟨t, h1, hstep.status_log⟩
  · intro hf
    have hstep := (do_homing_runs a e env).step_of_finished hf
    refine ⟨hstep.status_log, ?_⟩
    rw [hstep.status, do_homing_statuses_getLast]
    rfl
  · intro hf
    have hstep := (do_homing_corexy_runs a e env).step_of_finished hf
    refine ⟨hstep.status_log, ?_⟩
    rw [hstep.status, do_homing_corexy_statuses_getLast]
    rfl

/-- C19 (witness): the Cartesian machine homing X, run to completion, writes
the four statuses in order and ends with the status `NOT_HOMING`. -/
theorem do_homing_status_writes_witness :
    (do_homing 1 (cartesian 0) [all_stopped, all_stopped, all_stopped]).finished = true ∧
      (do_homing 1 (cartesian 0) [all_stopped, all_stopped, all_stopped]).state.status_log =
        (cartesian 0).status_log ++ do_homing_statuses (cartesian 0) ∧
      (do_homing 1 (cartesian 0) [all_stopped, all_stopped, all_stopped]).state.status
        = NOT_HOMING :=
  ⟨by decide,
    (do_homing_status_writes 1 (cartesian 0) [all_stopped, all_stopped, all_stopped]).2.2.1
      (by decide)⟩

/-- C19 (counterexample): a delta homing all axes, run to completion through
the trim phase: the status written for the trim phase is `MOVING_BACK`, the
value already written for the retract phase, not a value of its own. -/
theorem do_homing_trim_status_is_moving_back :
    delta_with_trim.is_delta = true ∧
      (do_homing 7 delta_with_trim
        [all_stopped, all_stopped, all_stopped, all_stopped]).finished = true ∧
      (do_homing 7 delta_with_trim
        [all_stopped, all_stopped, all_stopped, all_stopped]).state.status_log =
        [MOVING_TO_ORIGIN_FAST, MOVING_BACK, MOVING_TO_ORIGIN_SLOW, MOVING_BACK, NOT_HOMING] ∧
      (do_homing_trim 7 delta_with_trim []).state.status = MOVING_BACK := by
  decide

/-! ## C23: CoreXY homing of Z alone -/

theorem do_homing_status_of_finished (a : Nat) (e : Endstops) (env : List Sample)
    (hf : (do_homing a e env).finished = true) : (do_homing a e env).state.status = NOT_HOMING := by
  have hstep := (do_homing_runs a e env).step_of_finished hf
  rw [hstep.status, do_homing_statuses_getLast]
  rfl

/-- With the mask `0x04`, `do_homing_corexy` is a call of `do_homing` with the
same mask followed by the assignment `status = NOT_HOMING`. -/
theorem do_homing_corexy_four (e : Endstops) (env : List Sample) :
    do_homing_corexy 4 e env =
      (do_homing 4 e env).andThen fun e4 env4 =>
        Outcome.done (e4.set_status NOT_HOMING) env4 := by
  unfold do_homing_corexy
  rfl

/-- C23: with only Z requested (mask `0x04`), `do_homing_corexy` runs
`do_homing` with the same mask and then assigns `status = NOT_HOMING` once
more.  For every configuration and sample sequence the two routines return
or block alike, leave the same samples, the same log of stepper requests, the
same feed rates, the same stepper states and the same status; and the X and
Y motors receive no request. -/
theorem do_homing_corexy_z_only (e : Endstops) (env : List Sample) :
    do_homing_corexy 4 e env =
        ((do_homing 4 e env).andThen fun e4 env4 =>
          Outcome.done (e4.set_status NOT_HOMING) env4) ∧
      (do_homing_corexy 4 e env).finished = (do_homing 4 e env).finished ∧
      (do_homing_corexy 4 e env).rest = (do_homing 4 e env).rest ∧
      (do_homing_corexy 4 e env).state.log = (do_homing 4 e env).state.log ∧
      (do_homing_corexy 4 e env).state.feed_rate = (do_homing 4 e env).state.feed_rate ∧
      (do_homing_corexy 4 e env).state.steppers = (do_homing 4 e env).state.steppers ∧
      (do_homing_corexy 4 e env).state.status = (do_homing 4 e env).state.status ∧
      cmds_for X_AXIS (do_homing_corexy 4 e env).state.log = cmds_for X_AXIS e.log ∧
      cmds_for Y_AXIS (do_homing_corexy 4 e env).state.log = cmds_for Y_AXIS e.log := by
  have heq := do_homing_corexy_four e env
  have hst := do_homing_status_of_finished 4 e env
  have hlog : (do_homing_corexy 4 e env).state.log = (do_homing 4 e env).state.log := by
    rw [heq]
    cases do_homing 4 e env <;> rfl
  have hframe : ∀ c, c < 2 → cmds_for c (do_homing 4 e env).state.log = cmds_for c e.log := by
    intro c hc
    obtain ⟨t, _, _, hstep⟩ := do_homing_runs 4 e env
    refine hstep.cmds_for_eq ?_
    intro h
    have := axis_requested_four c h.1 h.2
    omega
  refine ⟨heq, ?_, ?_, hlog, ?_, ?_, ?_, ?_, ?_⟩
  · rw [heq]; cases do_homing 4 e env <;> rfl
  · rw [heq]; cases do_homing 4 e env <;> rfl
  · rw [heq]; cases do_homing 4 e env <;> rfl
  · rw [heq]; cases do_homing 4 e env <;> rfl
  · rw [heq]
    generalize do_homing 4 e env = o at hst
    cases o with
    | done e4 r => exact (hst rfl).symm
    | blocked e4 => rfl
  · rw [hlog]; exact hframe 0 (by decide)
  · rw [hlog]; exact hframe 1 (by decide)

/-- C23 (witness): a CoreXY machine homing Z alone, run to completion: the log
is the one of `do_homing` with mask 4, the three moves of the Z stepper. -/
theorem do_homing_corexy_z_only_witness :
    (do_homing_corexy 4 (corexy_machine true true)
        [all_stopped, all_stopped, all_stopped]).state.log =
        (do_homing 4 (corexy_machine true true) [all_stopped, all_stopped, all_stopped]).state.log ∧
      (do_homing_corexy 4 (corexy_machine true true)
        [all_stopped, all_stopped, all_stopped]).state.log =
        [Cmd.set_speed 2 0, Cmd.move 2 true 10000000, Cmd.set_speed 2 0, Cmd.move 2 false 240,
          Cmd.set_speed 2 0, Cmd.move 2 true 10000000] ∧
      (do_homing_corexy 4 (corexy_machine true true)
        [all_stopped, all_stopped, all_stopped]).finished = true :=
  ⟨(do_homing_corexy_z_only (corexy_machine true true)
      [all_stopped, all_stopped, all_stopped]).2.2.2.1,
    by decide, by decide⟩

/-! ## C25: M666 without a letter for an axis -/

theorem lround_intCast (z : Int) : lround (z : ℚ) = z := by
  unfold lround
  split_ifs with h
  · rw [Int.floor_eq_iff]
    constructor <;> linarith
  · have h1 : ⌊-(z : ℚ) + 1 / 2⌋ = -z := by
      rw [Int.floor_eq_iff]
      push_cast
      constructor <;> linarith
    rw [h1, neg_neg]

theorem trim_dir_mul_self (e : Endstops) (c : Nat) : trim_dir e c * trim_dir e c = 1 := by
  unfold trim_dir
  split_ifs <;> rfl

theorem m666_mm_exact_absent (e : Endstops) (gcode : Gcode) (c : Nat) (hc : c < 3)
    (hv : gcode.letters (axis_letter c) = none) : m666_mm_exact e gcode c = trim2mm_exact e c := by
  unfold m666_mm_exact
  interval_cases c
  · have hx : gcode.letters 'X' = none := hv
    simp only [Gcode.has_letter, hx, Option.isSome_none, Bool.false_eq_true, if_false]
    split_ifs <;> simp [Function.update]
  · have hy : gcode.letters 'Y' = none := hv
    simp only [Gcode.has_letter, hy, Option.isSome_none, Bool.false_eq_true, if_false]
    split_ifs <;> simp [Function.update]
  · have hz : gcode.letters 'Z' = none := hv
    simp only [Gcode.has_letter, hz, Option.isSome_none, Bool.false_eq_true, if_false]
    split_ifs <;> simp [Function.update]

/-- Converting a stored trim to mm with `trim2mm_exact` and back, by multiplying by
the steps per mm, rounding and adjusting the sign, restores the trim. -/
theorem trim2mm_exact_round_trip (e : Endstops) (c : Nat) (hc : c < 3) (hs : 0 < e.steps_per_mm c) :
    lround (trim2mm_exact e c * e.steps_per_mm c) * trim_dir e c = e.trim c := by
  have hne : e.steps_per_mm c ≠ 0 := ne_of_gt hs
  have h : trim2mm_exact e c * e.steps_per_mm c = ((e.trim c * trim_dir e c : ℤ) : ℚ) := by
    rw [trim2mm_exact_apply e c hc]
    push_cast
    field_simp
  rw [h, lround_intCast, mul_assoc, trim_dir_mul_self, mul_one]

/-- C25: for an axis `c` with `steps_per_mm[c] > 0`, whichever way it homes,
an M666 command that carries no letter for that axis leaves `trim[c]` as it
was: the value `mm[c]` read by `trim2mm_exact`, multiplied by the steps per mm,
rounded and multiplied by the direction sign, is the stored integer again.
Values are exact rationals. -/
theorem m666_absent_letter_keeps_trim (e : Endstops) (gcode : Gcode) (c : Nat) (hc : c < 3)
    (hs : 0 < e.steps_per_mm c) (hv : gcode.letters (axis_letter c) = none) :
    (on_gcode_received_M666_exact e gcode).trim c = e.trim c ∧
      m666_mm_exact e gcode c = trim2mm_exact e c ∧
      trim2mm_exact e c = (e.trim c : ℚ) / e.steps_per_mm c * (trim_dir e c : ℚ) ∧
      lround (trim2mm_exact e c * e.steps_per_mm c) * trim_dir e c = e.trim c := by
  refine ⟨?_, m666_mm_exact_absent e gcode c hc hv, trim2mm_exact_apply e c hc,
    trim2mm_exact_round_trip e c hc hs⟩
  rw [on_gcode_received_M666_exact_trim e gcode c hc, m666_mm_exact_absent e gcode c hc hv]
  exact trim2mm_exact_round_trip e c hc hs

/-- C25 (witness): `M666 X0.03` on a delta with trims 40, 0 and -24 steps,
homing to min and homing to max: the trim of Z, for which the command has no
letter, stays -24. -/
theorem m666_absent_letter_keeps_trim_witness :
    (on_gcode_received_M666_exact delta_with_trim (m666_x (3 / 100))).trim 2 = delta_with_trim.trim 2 ∧
      (on_gcode_received_M666_exact { delta_with_trim with home_direction := fun _ => false }
          (m666_x (3 / 100))).trim 2 = delta_with_trim.trim 2 :=
  ⟨(m666_absent_letter_keeps_trim delta_with_trim (m666_x (3 / 100)) 2 (by decide)
      (by show (0 : ℚ) < 80; norm_num) rfl).1,
    (m666_absent_letter_keeps_trim { delta_with_trim with home_direction := fun _ => false }
      (m666_x (3 / 100)) 2 (by decide) (by show (0 : ℚ) < 80; norm_num) rfl).1⟩

/-! ## C26: the commanded rate and the target -/

theorem ramped_rate_le (c t inc : Nat) : ramped_rate c t inc ≤ t := by
  unfold ramped_rate
  simp only []
  split_ifs <;> omega

theorem tick_rate_le (K : Kernel) (e : Endstops) (c : Nat) :
    tick_rate K e c ≤ max (target_rate e c) K.minimum_steps_per_second := by
  unfold tick_rate
  rw [cmax_eq_max]
  have := ramped_rate_le ((e.steppers c).steps_per_second % 4294967296) (target_rate e c)
    (rate_increase K e c)
  omega

theorem target_rate_eq_floor (e : Endstops) (c : Nat) (h0 : 0 ≤ ⌊e.feed_rate c⌋)
    (h1 : ⌊e.feed_rate c⌋ < 4294967296) : (target_rate e c : ℤ) = ⌊e.feed_rate c⌋ := by
  unfold target_rate to_uint32
  rw [Int.emod_eq_of_lt h0 h1, Int.toNat_of_nonneg h0]

/-- C26: while the status is not `NOT_HOMING`, the rate `acceleration_tick`
commands for a moving stepper `c` is at most
`max(target, minimum_steps_per_second)`, where `target` is the local
`target_rate`, which is `floor(feed_rate[c])` for a feed rate in the range of
`uint32_t`; it is the minimum whenever the target is below the minimum, and
it exceeds the target only in that case. -/
theorem acceleration_tick_rate_le_target (K : Kernel) (e : Endstops) (c : Nat) (hc : c < 3)
    (hs : e.status ≠ NOT_HOMING) (hm : (e.steppers c).moving = true) :
    cmds_for c (acceleration_tick K e).log =
        cmds_for c e.log ++ [Cmd.set_speed c (tick_rate K e c)] ∧
      tick_rate K e c ≤ max (target_rate e c) K.minimum_steps_per_second ∧
      (target_rate e c < K.minimum_steps_per_second →
        tick_rate K e c = K.minimum_steps_per_second) ∧
      (target_rate e c < tick_rate K e c →
        target_rate e c < K.minimum_steps_per_second ∧
          tick_rate K e c = K.minimum_steps_per_second) ∧
      (0 ≤ ⌊e.feed_rate c⌋ → ⌊e.feed_rate c⌋ < 4294967296 →
        (target_rate e c : ℤ) = ⌊e.feed_rate c⌋) := by
  have hle := tick_rate_le K e c
  have hge := minimum_le_tick_rate K e c
  refine ⟨?_, hle, ?_, ?_, target_rate_eq_floor e c⟩
  · rw [acceleration_tick_cmds_for K e hs hc]
    unfold tick_cmds
    rw [if_pos hm]
  · intro h
    omega
  · intro h
    omega

/-- C26 (witness): the Cartesian machine (feed rate 1600 steps/s, all steppers
moving, status `MOVING_TO_ORIGIN_FAST`) with a minimum rate of 25 steps/s:
the rate commanded for X is at most `max 1600 25`. -/
theorem acceleration_tick_rate_le_target_witness :
    (cartesian 0).status ≠ NOT_HOMING ∧ ((cartesian 0).steppers 0).moving = true ∧
      tick_rate slow_ramp (cartesian 0) 0 ≤
        max (target_rate (cartesian 0) 0) slow_ramp.minimum_steps_per_second ∧
      target_rate (cartesian 0) 0 = 1600 :=
  ⟨by decide, rfl,
    (acceleration_tick_rate_le_target slow_ramp (cartesian 0) 0 (by decide) (by decide) rfl).2.1,
    target_rate_cartesian 0 0⟩

/-! ## C21: the end of the combined CoreXY search -/

theorem idle_polled_spec (pre : List Sample) :
    ∀ e : Endstops, (idle_polled pre e).log = e.log ∧
      (∀ c, home_pin (idle_polled pre e) c = home_pin e c) ∧ SameConfig e (idle_polled pre e) := by
  induction pre with
  | nil => intro e; exact ⟨rfl, fun _ => rfl, SameConfig.config_refl e⟩
  | cons s pre ih =>
    intro e
    obtain ⟨h1, h2, h3⟩ := ih (on_idle s e)
    exact ⟨h1, h2, (HomingStep.of_on_idle (fun _ => True) s e).config.config_trans h3⟩

/-- While neither the pin of X nor the pin of Y reads asserted, the loop of
the combined search only makes idle calls. -/
theorem corexy_search_loop_skip (motor : Nat) (pre : List Sample) :
    ∀ (e : Endstops) (rest : List Sample),
      (∀ x ∈ pre, x.pins (home_pin e X_AXIS) = false ∧ x.pins (home_pin e Y_AXIS) = false) →
        corexy_search_loop motor (pre ++ rest) e =
          corexy_search_loop motor rest (idle_polled pre e) := by
  induction pre with
  | nil => intro e rest _; rfl
  | cons s pre ih =>
    intro e rest h
    obtain ⟨hx, hy⟩ := h s (List.mem_cons_self _ _)
    have hx' : ¬ s.pins (home_pin (on_idle s e) X_AXIS) = true := by
      rw [home_pin_on_idle, hx]; simp
    have hy' : ¬ s.pins (home_pin (on_idle s e) Y_AXIS) = true := by
      rw [home_pin_on_idle, hy]; simp
    simp only [List.cons_append, corexy_search_loop]
    rw [if_neg hx', if_neg hy']
    exact ih (on_idle s e) rest (fun x hxm => h x (List.mem_cons_of_mem _ hxm))

/-- At a sample in which the pin of X or of Y reads asserted, the loop of the
combined search stops the driven motor if it is moving, and ends. -/
theorem corexy_search_loop_hit (motor : Nat) (s : Sample) (rest : List Sample) (e : Endstops)
    (hs : s.pins (home_pin e X_AXIS) = true ∨ s.pins (home_pin e Y_AXIS) = true) :
    corexy_search_loop motor (s :: rest) e =
      Outcome.done
        (if s.moving motor then (on_idle s e).stepper_move motor false 0 else on_idle s e) rest := by
  simp only [corexy_search_loop]
  by_cases hx : s.pins (home_pin (on_idle s e) X_AXIS) = true
  · rw [if_pos hx]; rfl
  · rw [if_neg hx]
    have hy : s.pins (home_pin (on_idle s e) Y_AXIS) = true := by
      rcases hs with h | h
      · exact absurd h hx
      · exact h
    rw [if_pos hy]; rfl

/-- The combined search on samples of which the first to read the pin of X or
of Y asserted is `s`. -/
theorem corexy_search_loop_ends (motor : Nat) (pre : List Sample) (s : Sample)
    (rest : List Sample) (e : Endstops)
    (hpre : ∀ x ∈ pre, x.pins (home_pin e X_AXIS) = false ∧ x.pins (home_pin e Y_AXIS) = false)
    (hs : s.pins (home_pin e X_AXIS) = true ∨ s.pins (home_pin e Y_AXIS) = true) :
    (corexy_search_loop motor (pre ++ s :: rest) e).finished = true ∧
      (corexy_search_loop motor (pre ++ s :: rest) e).rest = rest ∧
      (corexy_search_loop motor (pre ++ s :: rest) e).state.log =
        e.log ++ (if s.moving motor then [Cmd.move motor false 0] else []) ∧
      ((corexy_search_loop motor (pre ++ s :: rest) e).state.steppers motor).moving = false ∧
      (∀ p, p <+: pre →
        (corexy_search_loop motor p e).finished = false ∧
          (corexy_search_loop motor p e).state.log = e.log) := by
  obtain ⟨hl, hp, _⟩ := idle_polled_spec pre e
  have hs' : s.pins (home_pin (idle_polled pre e) X_AXIS) = true ∨
      s.pins (home_pin (idle_polled pre e) Y_AXIS) = true := by
    rw [hp, hp]; exact hs
  rw [corexy_search_loop_skip motor pre e (s :: rest) hpre,
    corexy_search_loop_hit motor s rest _ hs']
  refine ⟨rfl, rfl, ?_, ?_, ?_⟩
  · cases hm : s.moving motor
    · simp [Outcome.state, on_idle_log, hl]
    · simp [Outcome.state, Endstops.stepper_move, on_idle_log, hl]
  · cases hm : s.moving motor
    · simp [Outcome.state, on_idle_moving, hm]
    · simp [Outcome.state, Endstops.stepper_move, StepperMotor.move]
  · intro p hpp
    have hmem : ∀ x ∈ p, x.pins (home_pin e X_AXIS) = false ∧
        x.pins (home_pin e Y_AXIS) = false := fun x hx => hpre x (hpp.subset hx)
    have h := corexy_search_loop_skip motor p e [] hmem
    rw [List.append_nil] at h
    rw [h]
    exact ⟨rfl, (idle_polled_spec p e).1⟩

/-- C21: in the combined search of `do_homing_corexy` (both X and Y
requested), if `s` is the first sample in which the relevant endstop pin of X
or of Y reads asserted, the search ends at the iteration that polls `s`: it
returns there, leaving the samples after `s`; in that iteration the driven
motor is sent the stop request exactly if it is moving, and it is not moving
afterwards; and at no earlier iteration has the search ended or sent a stop,
nor has `do_homing_corexy` returned. -/
theorem corexy_search_ends_at_first_asserted (e : Endstops) (pre : List Sample) (s : Sample)
    (rest : List Sample)
    (hpre : ∀ x ∈ pre, x.pins (home_pin e X_AXIS) = false ∧ x.pins (home_pin e Y_AXIS) = false)
    (hs : s.pins (home_pin e X_AXIS) = true ∨ s.pins (home_pin e Y_AXIS) = true) :
    (corexy_search e (pre ++ s :: rest)).finished = true ∧
      (corexy_search e (pre ++ s :: rest)).rest = rest ∧
      (corexy_search e (pre ++ s :: rest)).state.log =
        e.log ++
          [Cmd.set_speed (corexy_motor_dir (e.home_direction X_AXIS) (e.home_direction Y_AXIS)).1 0,
            Cmd.move (corexy_motor_dir (e.home_direction X_AXIS) (e.home_direction Y_AXIS)).1
              (corexy_motor_dir (e.home_direction X_AXIS) (e.home_direction Y_AXIS)).2 10000000] ++
          (if s.moving (corexy_motor_dir (e.home_direction X_AXIS) (e.home_direction Y_AXIS)).1
            then [Cmd.move (corexy_motor_dir (e.home_direction X_AXIS)
              (e.home_direction Y_AXIS)).1 false 0]
            else []) ∧
      ((corexy_search e (pre ++ s :: rest)).state.steppers
        (corexy_motor_dir (e.home_direction X_AXIS) (e.home_direction Y_AXIS)).1).moving = false ∧
      (∀ p, p <+: pre →
        (corexy_search e p).finished = false ∧
          (corexy_search e p).state.log =
            e.log ++
              [Cmd.set_speed
                  (corexy_motor_dir (e.home_direction X_AXIS) (e.home_direction Y_AXIS)).1 0,
                Cmd.move (corexy_motor_dir (e.home_direction X_AXIS) (e.home_direction Y_AXIS)).1
                  (corexy_motor_dir (e.home_direction X_AXIS) (e.home_direction Y_AXIS)).2
                  10000000]) ∧
      (∀ a, a &&& 3 = 3 → ∀ p, p <+: pre → (do_homing_corexy a e p).finished = false) := by
  have h := corexy_search_loop_ends
    (corexy_motor_dir (e.home_direction X_AXIS) (e.home_direction Y_AXIS)).1 pre s rest
    (start_move (corexy_motor_dir (e.home_direction X_AXIS) (e.home_direction Y_AXIS)).1
      (e.fast_rates (corexy_motor_dir (e.home_direction X_AXIS) (e.home_direction Y_AXIS)).1
        * (14142 / 10000))
      (corexy_motor_dir (e.home_direction X_AXIS) (e.home_direction Y_AXIS)).2 10000000
      (e.set_status MOVING_TO_ORIGIN_FAST)) hpre hs
  rw [start_move_log] at h
  refine ⟨h.1, h.2.1, h.2.2.1, h.2.2.2.1, h.2.2.2.2, ?_⟩
  intro a ha p hp
  have hb : (corexy_search e p).finished = false := (h.2.2.2.2 p hp).1
  unfold do_homing_corexy
  rw [if_pos ha]
  generalize corexy_search e p = o at hb
  cases o with
  | done e1 r => simp [Outcome.finished] at hb
  | blocked e1 => rfl

/-- C21 (witness): a CoreXY machine with home directions (min, max), so that
Y is the driven motor: two samples with no pin asserted, then one with every
pin asserted and the motors moving.  The search returns at the third sample,
having sent the Y motor its start and then its stop; after the first two
samples it has not returned. -/
theorem corexy_search_ends_at_first_asserted_witness :
    (corexy_search (corexy_machine true false)
        ([none_asserted, none_asserted] ++ all_asserted :: [all_asserted])).finished = true ∧
      (corexy_search (corexy_machine true false)
        ([none_asserted, none_asserted] ++ all_asserted :: [all_asserted])).rest
        = [all_asserted] ∧
      (corexy_search (corexy_machine true false)
        ([none_asserted, none_asserted] ++ all_asserted :: [all_asserted])).state.log =
        [Cmd.set_speed 1 0, Cmd.move 1 true 10000000, Cmd.move 1 false 0] ∧
      (corexy_search (corexy_machine true false) [none_asserted, none_asserted]).finished
        = false :=
  ⟨(corexy_search_ends_at_first_asserted (corexy_machine true false)
      [none_asserted, none_asserted] all_asserted [all_asserted] (by decide) (Or.inl rfl)).1,
    (corexy_search_ends_at_first_asserted (corexy_machine true false)
      [none_asserted, none_asserted] all_asserted [all_asserted] (by decide) (Or.inl rfl)).2.1,
    by decide,
    ((corexy_search_ends_at_first_asserted (corexy_machine true false)
      [none_asserted, none_asserted] all_asserted [all_asserted] (by decide)
      (Or.inl rfl)).2.2.2.2.1 [none_asserted, none_asserted] (List.prefix_refl _)).1⟩

/-! ## C24: the iteration at which `wait_for_homed` returns -/

theorem axis_waiting_congr (a : Nat) (s : Sample) (d : Nat → Nat) {e e' : Endstops}
    (h1 : e'.home_direction = e.home_direction) (h2 : e'.debounce_count = e.debounce_count)
    (c : Nat) : axis_waiting a s d e' c = axis_waiting a s d e c := by
  unfold axis_waiting
  rw [home_pin_congr h1 c, h2]

/-- The counter of a requested axis is the current run of consecutive asserted
readings of its pin, capped at the threshold. -/
theorem wait_for_homed_polled_eq_run (a : Nat) {c : Nat} (hc : c < 3)
    (hr : axis_requested a c = true) (pre : List Sample) :
    ∀ (d : Nat → Nat) (e : Endstops) (n : Nat), d c = min n e.debounce_count →
      (wait_for_homed_polled a d e pre).1 c =
        min (pre.foldl (fun n s => if s.pins (home_pin e c) then n + 1 else 0) n)
          e.debounce_count := by
  induction pre with
  | nil => intro d e n h; exact h
  | cons s pre ih =>
    intro d e n h
    rw [wait_for_homed_polled_cons, List.foldl_cons]
    obtain ⟨hd, _, _, k1, k2⟩ := wait_for_homed_iter_spec a s d e
    have hp : home_pin (wait_for_homed_iter a s d e).e c = home_pin e c := home_pin_congr k1 c
    have := ih (wait_for_homed_iter a s d e).debounce (wait_for_homed_iter a s d e).e
      (if s.pins (home_pin e c) then n + 1 else 0)
      (by
        rw [hd c hc, hr, k2]
        simp only [if_true]
        split_ifs <;> omega)
    rw [hp, k2] at this
    exact this

theorem wait_for_homed_polled_counter (a : Nat) (e : Endstops) {c : Nat} (hc : c < 3)
    (hr : axis_requested a c = true) (pre : List Sample) :
    (wait_for_homed_polled a (fun _ => 0) e pre).1 c =
      min (asserted_run (home_pin e c) pre) e.debounce_count :=
  wait_for_homed_polled_eq_run a hc hr pre (fun _ => 0) e 0 (by simp)

/-- While at every iteration some axis keeps the loop running, `wait_for_homed`
does not return. -/
theorem wait_for_homed_loop_waiting (a : Nat) (d : Nat → Nat) (e : Endstops)
    (pre : List Sample) :
    (∀ p x q, pre = p ++ x :: q →
        ∃ c, c < 3 ∧ axis_waiting a x (wait_for_homed_polled a d e p).1 e c = true) →
      (wait_for_homed_loop a pre d e).finished = false := by
  induction pre using List.reverseRecOn with
  | nil => intro _; rfl
  | append_singleton pre x ih =>
    intro h
    have hpre : (wait_for_homed_loop a pre d e).finished = false := by
      apply ih
      intro p y q hp
      exact h p y (q ++ [x]) (by rw [hp]; simp)
    obtain ⟨c, hc, hw⟩ := h pre x [] rfl
    obtain ⟨k1, k2⟩ := wait_for_homed_polled_config a pre d e
    rw [← axis_waiting_congr a x _ k1 k2 c] at hw
    rw [(wait_for_homed_loop_snoc a pre d e x hpre).1,
      wait_for_homed_iter_running_of_waiting a x _ _ hc hw]
    rfl

/-- At the first iteration at which no axis keeps the loop running,
`wait_for_homed` returns, leaving the samples after it. -/
theorem wait_for_homed_loop_returns (a : Nat) (d : Nat → Nat) (e : Endstops)
    (pre : List Sample) (s : Sample) (rest : List Sample)
    (hpre : (wait_for_homed_loop a pre d e).finished = false)
    (hs : ∀ c, c < 3 → axis_waiting a s (wait_for_homed_polled a d e pre).1 e c = false) :
    (wait_for_homed_loop a (pre ++ s :: rest) d e).finished = true ∧
      (wait_for_homed_loop a (pre ++ s :: rest) d e).rest = rest := by
  obtain ⟨k1, k2⟩ := wait_for_homed_polled_config a pre d e
  have hrun : (wait_for_homed_iter a s (wait_for_homed_polled a d e pre).1
      (wait_for_homed_polled a d e pre).2).running = false := by
    rw [(wait_for_homed_iter_spec a s _ _).2.2.1, axis_waiting_congr a s _ k1 k2,
      axis_waiting_congr a s _ k1 k2, axis_waiting_congr a s _ k1 k2, hs 0 (by decide),
      hs 1 (by decide), hs 2 (by decide)]
    rfl
  rw [wait_for_homed_loop_append a pre d e (s :: rest) hpre]
  simp only [wait_for_homed_loop, hrun]
  exact ⟨rfl, rfl⟩

/-- C24: `wait_for_homed` returns at exactly the first iteration at which
every requested axis has its relevant pin asserted and its debounce counter
already at the threshold.  If `s` is the first such sample (at every earlier
sample `x` some requested axis has its pin de-asserted or its counter below
the threshold), the routine returns at `s`, leaving the samples after `s`,
and has not returned at any earlier iteration.  The counter of a requested
axis is the current run of consecutive asserted readings of its pin, capped
at the threshold: a de-asserted reading resets it to 0 even after it had
reached the threshold, so that at the returning iteration the last
`debounce_count` readings of every requested axis were asserted. -/
theorem wait_for_homed_returns_at_first_ready (a : Nat) (e : Endstops) (pre : List Sample)
    (s : Sample) (rest : List Sample)
    (hpre : ∀ p x q, pre = p ++ x :: q →
      ∃ c, c < 3 ∧ axis_requested a c = true ∧
        (x.pins (home_pin e c) = false ∨
          (wait_for_homed_polled a (fun _ => 0) e p).1 c < e.debounce_count))
    (hs : ∀ c, c < 3 → axis_requested a c = true →
      s.pins (home_pin e c) = true ∧
        e.debounce_count ≤ (wait_for_homed_polled a (fun _ => 0) e pre).1 c) :
    (wait_for_homed a e (pre ++ s :: rest)).finished = true ∧
      (wait_for_homed a e (pre ++ s :: rest)).rest = rest ∧
      (∀ p, p <+: pre → (wait_for_homed a e p).finished = false) ∧
      (∀ c, c < 3 → axis_requested a c = true → ∀ p : List Sample,
        (wait_for_homed_polled a (fun _ => 0) e p).1 c =
          min (asserted_run (home_pin e c) p) e.debounce_count) ∧
      (∀ c, c < 3 → axis_requested a c = true → ∀ (p : List Sample) (x : Sample),
        x.pins (home_pin e c) = false →
          (wait_for_homed_polled a (fun _ => 0) e (p ++ [x])).1 c = 0) ∧
      (∀ c, c < 3 → axis_requested a c = true →
        e.debounce_count ≤ asserted_run (home_pin e c) pre) := by
  have hwait : ∀ p, p <+: pre → (wait_for_homed a e p).finished = false := by
    intro p hp
    obtain ⟨t, ht⟩ := hp
    apply wait_for_homed_loop_waiting
    intro p1 x q hsplit
    obtain ⟨c, hc, hr, hw⟩ := hpre p1 x (q ++ t) (by rw [← ht, hsplit]; simp)
    refine ⟨c, hc, ?_⟩
    unfold axis_waiting
    rcases hw with hw | hw
    · simp [hr, hw]
    · simp [hr, hw]
  have hready : ∀ c, c < 3 →
      axis_waiting a s (wait_for_homed_polled a (fun _ => 0) e pre).1 e c = false := by
    intro c hc
    unfold axis_waiting
    cases hr : axis_requested a c
    · rfl
    · obtain ⟨h1, h2⟩ := hs c hc hr
      simp [h1, Nat.not_lt.2 h2]
  have hret := wait_for_homed_loop_returns a (fun _ => 0) e pre s rest
    (hwait pre (List.prefix_refl _)) hready
  refine ⟨hret.1, hret.2, hwait, ?_, ?_, ?_⟩
  · intro c hc hr p
    exact wait_for_homed_polled_counter a e hc hr p
  · intro c hc hr p x hx
    rw [wait_for_homed_polled_counter a e hc hr, asserted_run_snoc, hx]
    simp
  · intro c hc hr
    have h := (hs c hc hr).2
    rw [wait_for_homed_polled_counter a e hc hr] at h
    omega

/-- C24 (witness): threshold 1, X and Y requested.  Both pins read asserted,
then de-asserted, then asserted twice: the counters reach the threshold at
the first sample, are reset at the second, count again at the third, and the
routine returns at the fourth sample and not before. -/
theorem wait_for_homed_returns_at_first_ready_witness :
    (wait_for_homed 3 (cartesian 1)
        ([all_asserted, none_asserted, all_asserted] ++ all_asserted :: [none_asserted])).finished
        = true ∧
      (wait_for_homed 3 (cartesian 1)
        ([all_asserted, none_asserted, all_asserted] ++ all_asserted :: [none_asserted])).rest
        = [none_asserted] ∧
      (wait_for_homed 3 (cartesian 1) [all_asserted, none_asserted, all_asserted]).finished
        = false ∧
      (wait_for_homed_polled 3 (fun _ => 0) (cartesian 1) [all_asserted]).1 0 = 1 ∧
      (wait_for_homed_polled 3 (fun _ => 0) (cartesian 1) [all_asserted, none_asserted]).1 0
        = 0 := by
  have h := wait_for_homed_returns_at_first_ready 3 (cartesian 1)
    [all_asserted, none_asserted, all_asserted] all_asserted [none_asserted]
    (by
      intro p x q hsplit
      rcases p with _ | ⟨a1, _ | ⟨a2, _ | ⟨a3, p⟩⟩⟩ <;>
        simp only [List.nil_append, List.cons_append, List.cons.injEq] at hsplit
      · obtain ⟨rfl, rfl⟩ := hsplit
        exact ⟨0, by decide, by decide, Or.inr (by decide)⟩
      · obtain ⟨rfl, rfl, rfl⟩ := hsplit
        exact ⟨0, by decide, by decide, Or.inl (by decide)⟩
      · obtain ⟨rfl, rfl, rfl, rfl⟩ := hsplit
        exact ⟨0, by decide, by decide, Or.inr (by decide)⟩
      · exact absurd hsplit.2.2.2 (by simp))
    (by decide)
  exact ⟨h.1, h.2.1, h.2.2.1 _ (List.prefix_refl _), by decide, by decide⟩

/-! ## C22: the passes of the CoreXY strategy -/

/-- The requests of the block that starts the two motors, the feed rates
and the status it writes. -/
theorem corexy_moves_spec (dirx diry : Bool) (rate : ℚ) (steps st : Nat) (e : Endstops) :
    (corexy_moves dirx diry rate steps st e).log =
        e.log ++ [Cmd.set_speed X_AXIS 0, Cmd.move X_AXIS dirx steps,
          Cmd.set_speed Y_AXIS 0, Cmd.move Y_AXIS diry steps] ∧
      (corexy_moves dirx diry rate steps st e).feed_rate X_AXIS = rate ∧
      (corexy_moves dirx diry rate steps st e).feed_rate Y_AXIS = rate ∧
      (corexy_moves dirx diry rate steps st e).status = st := by
  refine ⟨?_, ?_, ?_, rfl⟩
  · unfold corexy_moves
    rw [start_move_log, start_move_log]
    simp [Endstops.set_status]
  · simp [corexy_moves, start_move, Endstops.stepper_move, Endstops.stepper_set_speed,
      Function.update, X_AXIS, Y_AXIS]
  · simp [corexy_moves, start_move, Endstops.stepper_move, Endstops.stepper_set_speed,
      Function.update, Y_AXIS]

theorem corexy_moves_log_grows (dirx diry : Bool) (rate : ℚ) (steps st : Nat) (e : Endstops) :
    e.log <+: (corexy_moves dirx diry rate steps st e).log := by
  rw [(corexy_moves_spec dirx diry rate steps st e).1]
  exact List.prefix_append _ _

theorem wait_for_homed_corexy_log_grows (axis : Nat) (e : Endstops) (env : List Sample) :
    e.log <+: (wait_for_homed_corexy axis e env).state.log :=
  wait_for_homed_corexy_loop_log_grows axis env _ e

/-- The routine `corexy_home` once its first `wait_for_homed_corexy` has
returned. -/
theorem corexy_home_of_seek_fast (home_axis : Nat) (dirx diry : Bool) (fast_rate slow_rate : ℚ)
    (retract_steps : Nat) (e : Endstops) (env : List Sample)
    (h : (corexy_home_seek_fast home_axis dirx diry fast_rate e env).finished = true) :
    corexy_home home_axis dirx diry fast_rate slow_rate retract_steps e env =
      (wait_while_xy_moving (corexy_home_seek_fast home_axis dirx diry fast_rate e env).rest
        (corexy_moves (!dirx) (!diry) slow_rate retract_steps MOVING_BACK
          (corexy_home_seek_fast home_axis dirx diry fast_rate e env).state)).andThen
        fun e4 env4 =>
          wait_for_homed_corexy home_axis
            (corexy_moves dirx diry slow_rate 10000000 MOVING_TO_ORIGIN_SLOW e4) env4 := by
  have h1 : corexy_home home_axis dirx diry fast_rate slow_rate retract_steps e env =
      (corexy_home_seek_fast home_axis dirx diry fast_rate e env).andThen fun e2 env2 =>
        (wait_while_xy_moving env2
          (corexy_moves (!dirx) (!diry) slow_rate retract_steps MOVING_BACK e2)).andThen
          fun e4 env4 =>
            wait_for_homed_corexy home_axis
              (corexy_moves dirx diry slow_rate 10000000 MOVING_TO_ORIGIN_SLOW e4) env4 := rfl
  rw [h1]
  generalize corexy_home_seek_fast home_axis dirx diry fast_rate e env = o at h ⊢
  cases o with
  | done e2 r => rfl
  | blocked e2 => simp [Outcome.finished] at h

/-- The routine `corexy_home` once the wait for its retract moves has
ended. -/
theorem corexy_home_of_retract (home_axis : Nat) (dirx diry : Bool) (fast_rate slow_rate : ℚ)
    (retract_steps : Nat) (e : Endstops) (env : List Sample)
    (h : (corexy_home_retract home_axis dirx diry fast_rate slow_rate retract_steps e
      env).finished = true) :
    corexy_home home_axis dirx diry fast_rate slow_rate retract_steps e env =
      wait_for_homed_corexy home_axis
        (corexy_moves dirx diry slow_rate 10000000 MOVING_TO_ORIGIN_SLOW
          (corexy_home_retract home_axis dirx diry fast_rate slow_rate retract_steps e
            env).state)
        (corexy_home_retract home_axis dirx diry fast_rate slow_rate retract_steps e env).rest := by
  have h1 : corexy_home home_axis dirx diry fast_rate slow_rate retract_steps e env =
      (corexy_home_retract home_axis dirx diry fast_rate slow_rate retract_steps e
        env).andThen fun e4 env4 =>
          wait_for_homed_corexy home_axis
            (corexy_moves dirx diry slow_rate 10000000 MOVING_TO_ORIGIN_SLOW e4) env4 := by
    unfold corexy_home corexy_home_retract corexy_home_seek_fast
    rw [Outcome.andThen_assoc]
  rw [h1]
  generalize corexy_home_retract home_axis dirx diry fast_rate slow_rate retract_steps e env
    = o at h ⊢
  cases o with
  | done e2 r => rfl
  | blocked e2 => simp [Outcome.finished] at h

/-- The three blocks of `corexy_home` that start the motors: their requests,
the feed rates they set, and that they are part of the run. -/
theorem corexy_home_phases (home_axis : Nat) (dirx diry : Bool) (fast_rate slow_rate : ℚ)
    (retract_steps : Nat) (x : Endstops) (env : List Sample) :
    ((corexy_moves dirx diry fast_rate 10000000 MOVING_TO_ORIGIN_FAST x).log =
          x.log ++ [Cmd.set_speed X_AXIS 0, Cmd.move X_AXIS dirx 10000000,
            Cmd.set_speed Y_AXIS 0, Cmd.move Y_AXIS diry 10000000] ∧
        (corexy_moves dirx diry fast_rate 10000000 MOVING_TO_ORIGIN_FAST x).feed_rate X_AXIS
          = fast_rate ∧
        (corexy_moves dirx diry fast_rate 10000000 MOVING_TO_ORIGIN_FAST x).feed_rate Y_AXIS
          = fast_rate ∧
        (corexy_moves dirx diry fast_rate 10000000 MOVING_TO_ORIGIN_FAST x).log <+:
          (corexy_home home_axis dirx diry fast_rate slow_rate retract_steps x env).state.log) ∧
      ((corexy_home_seek_fast home_axis dirx diry fast_rate x env).finished = true →
        (corexy_moves (!dirx) (!diry) slow_rate retract_steps MOVING_BACK
            (corexy_home_seek_fast home_axis dirx diry fast_rate x env).state).log =
          (corexy_home_seek_fast home_axis dirx diry fast_rate x env).state.log ++
            [Cmd.set_speed X_AXIS 0, Cmd.move X_AXIS (!dirx) retract_steps,
              Cmd.set_speed Y_AXIS 0, Cmd.move Y_AXIS (!diry) retract_steps] ∧
        (corexy_moves (!dirx) (!diry) slow_rate retract_steps MOVING_BACK
            (corexy_home_seek_fast home_axis dirx diry fast_rate x env).state).feed_rate X_AXIS
          = slow_rate ∧
        (corexy_moves (!dirx) (!diry) slow_rate retract_steps MOVING_BACK
            (corexy_home_seek_fast home_axis dirx diry fast_rate x env).state).feed_rate Y_AXIS
          = slow_rate ∧
        (corexy_moves (!dirx) (!diry) slow_rate retract_steps MOVING_BACK
            (corexy_home_seek_fast home_axis dirx diry fast_rate x env).state).log <+:
          (corexy_home home_axis dirx diry fast_rate slow_rate retract_steps x env).state.log) ∧
      ((corexy_home_retract home_axis dirx diry fast_rate slow_rate retract_steps x
          env).finished = true →
        (corexy_moves dirx diry slow_rate 10000000 MOVING_TO_ORIGIN_SLOW
            (corexy_home_retract home_axis dirx diry fast_rate slow_rate retract_steps x
              env).state).log =
          (corexy_home_retract home_axis dirx diry fast_rate slow_rate retract_steps x
              env).state.log ++
            [Cmd.set_speed X_AXIS 0, Cmd.move X_AXIS dirx 10000000,
              Cmd.set_speed Y_AXIS 0, Cmd.move Y_AXIS diry 10000000] ∧
        (corexy_moves dirx diry slow_rate 10000000 MOVING_TO_ORIGIN_SLOW
            (corexy_home_retract home_axis dirx diry fast_rate slow_rate retract_steps x
              env).state).feed_rate X_AXIS = slow_rate ∧
        (corexy_moves dirx diry slow_rate 10000000 MOVING_TO_ORIGIN_SLOW
            (corexy_home_retract home_axis dirx diry fast_rate slow_rate retract_steps x
              env).state).feed_rate Y_AXIS = slow_rate ∧
        (corexy_moves dirx diry slow_rate 10000000 MOVING_TO_ORIGIN_SLOW
            (corexy_home_retract home_axis dirx diry fast_rate slow_rate retract_steps x
              env).state).log <+:
          (corexy_home home_axis dirx diry fast_rate slow_rate retract_steps x env).state.log) := by
  refine ⟨?_, ?_, ?_⟩
  · obtain ⟨h1, h2, h3, _⟩ := corexy_moves_spec dirx diry fast_rate 10000000
      MOVING_TO_ORIGIN_FAST x
    refine ⟨h1, h2, h3, ?_⟩
    unfold corexy_home
    refine Outcome.andThen_log_grows _ _ (wait_for_homed_corexy_log_grows _ _ _) ?_
    intro e2 env2
    refine Outcome.andThen_log_grows _ _
      ((corexy_moves_log_grows _ _ _ _ _ e2).trans (wait_while_xy_moving_log_grows _ _)) ?_
    intro e4 env4
    exact (corexy_moves_log_grows _ _ _ _ _ e4).trans (wait_for_homed_corexy_log_grows _ _ _)
  · intro hf
    obtain ⟨h1, h2, h3, _⟩ := corexy_moves_spec (!dirx) (!diry) slow_rate retract_steps
      MOVING_BACK (corexy_home_seek_fast home_axis dirx diry fast_rate x env).state
    refine ⟨h1, h2, h3, ?_⟩
    rw [corexy_home_of_seek_fast home_axis dirx diry fast_rate slow_rate retract_steps x env hf]
    refine Outcome.andThen_log_grows _ _ (wait_while_xy_moving_log_grows _ _) ?_
    intro e4 env4
    exact (corexy_moves_log_grows _ _ _ _ _ e4).trans (wait_for_homed_corexy_log_grows _ _ _)
  · intro hf
    obtain ⟨h1, h2, h3, _⟩ := corexy_moves_spec dirx diry slow_rate 10000000
      MOVING_TO_ORIGIN_SLOW
      (corexy_home_retract home_axis dirx diry fast_rate slow_rate retract_steps x env).state
    refine ⟨h1, h2, h3, ?_⟩
    rw [corexy_home_of_retract home_axis dirx diry fast_rate slow_rate retract_steps x env hf]
    exact wait_for_homed_corexy_log_grows _ _ _

theorem Runs.config_of {S : Nat → Prop} {full : List Nat} {e : Endstops} {o : Outcome}
    (h : Runs S full e o) : SameConfig e o.state := by
  obtain ⟨t, _, _, h3⟩ := h
  exact h3.config

theorem do_homing_corexy_search_runs (a : Nat) (e : Endstops) (env : List Sample) :
    Runs (fun _ => True) (if a &&& 3 = 3 then [MOVING_TO_ORIGIN_FAST] else []) e
      (do_homing_corexy_search a e env) := by
  unfold do_homing_corexy_search
  split_ifs
  · exact Runs.runs_mono (fun _ _ => trivial) (corexy_search_runs e env)
  · exact Runs.of_step (HomingStep.quiet_refl _ e) env

theorem do_homing_corexy_x_runs (a : Nat) (e : Endstops) (env : List Sample) :
    Runs (fun _ => True)
      ((if a &&& 3 = 3 then [MOVING_TO_ORIGIN_FAST] else []) ++
        (if a &&& 1 ≠ 0 then [MOVING_TO_ORIGIN_FAST, MOVING_BACK, MOVING_TO_ORIGIN_SLOW] else []))
      e (do_homing_corexy_x a e env) := by
  unfold do_homing_corexy_x
  refine Runs.and_then (do_homing_corexy_search_runs a e env) ?_
  intro e1 env1 _
  split_ifs
  · exact Runs.runs_mono (fun _ _ => trivial) (corexy_home_runs _ _ _ _ _ _ e1 env1)
  · exact Runs.of_step (HomingStep.quiet_refl _ e1) env1

theorem do_homing_corexy_after_y_log_grows (a : Nat) (e3 : Endstops) (env3 : List Sample) :
    e3.log <+:
      ((if a &&& 4 ≠ 0 then do_homing 4 e3 env3 else Outcome.done e3 env3).andThen
        fun e4 env4 => Outcome.done (e4.set_status NOT_HOMING) env4).state.log := by
  refine Outcome.andThen_log_grows _ _ ?_ ?_
  · split_ifs
    · exact do_homing_log_grows _ _ _
    · exact List.prefix_refl _
  · intro e4 env4
    exact List.prefix_refl _

theorem do_homing_corexy_after_x_log_grows (a : Nat) (e2 : Endstops) (env2 : List Sample) :
    e2.log <+:
      ((if a &&& 2 ≠ 0 then
          corexy_home Y_AXIS (e2.home_direction Y_AXIS) (!e2.home_direction Y_AXIS)
            (e2.fast_rates Y_AXIS) (e2.slow_rates Y_AXIS) (e2.retract_steps Y_AXIS) e2 env2
        else Outcome.done e2 env2).andThen fun e3 env3 =>
        (if a &&& 4 ≠ 0 then do_homing 4 e3 env3 else Outcome.done e3 env3).andThen
          fun e4 env4 => Outcome.done (e4.set_status NOT_HOMING) env4).state.log := by
  refine Outcome.andThen_log_grows _ _ ?_ (do_homing_corexy_after_y_log_grows a)
  split_ifs
  · exact corexy_home_log_grows _ _ _ _ _ _ _ _
  · exact List.prefix_refl _

/-- The routine `do_homing_corexy` once its combined search has ended, when X
is requested: the pass that homes X, then the rest. -/
theorem do_homing_corexy_of_search (a : Nat) (e : Endstops) (env : List Sample)
    (ha : a &&& 1 ≠ 0) (h : (do_homing_corexy_search a e env).finished = true) :
    do_homing_corexy a e env =
      (corexy_home X_AXIS (e.home_direction X_AXIS) (e.home_direction X_AXIS)
        (e.fast_rates X_AXIS) (e.slow_rates X_AXIS) (e.retract_steps X_AXIS)
        (do_homing_corexy_search a e env).state (do_homing_corexy_search a e env).rest).andThen
        fun e2 env2 =>
        (if a &&& 2 ≠ 0 then
            corexy_home Y_AXIS (e2.home_direction Y_AXIS) (!e2.home_direction Y_AXIS)
              (e2.fast_rates Y_AXIS) (e2.slow_rates Y_AXIS) (e2.retract_steps Y_AXIS) e2 env2
          else Outcome.done e2 env2).andThen fun e3 env3 =>
        (if a &&& 4 ≠ 0 then do_homing 4 e3 env3 else Outcome.done e3 env3).andThen
          fun e4 env4 => Outcome.done (e4.set_status NOT_HOMING) env4 := by
  have hcfg := (do_homing_corexy_search_runs a e env).config_of
  rw [← hcfg.home_direction, ← hcfg.fast_rates, ← hcfg.slow_rates, ← hcfg.retract_steps]
  have h1 : do_homing_corexy a e env =
      (do_homing_corexy_search a e env).andThen fun e1 env1 =>
        (if a &&& 1 ≠ 0 then
            corexy_home X_AXIS (e1.home_direction X_AXIS) (e1.home_direction X_AXIS)
              (e1.fast_rates X_AXIS) (e1.slow_rates X_AXIS) (e1.retract_steps X_AXIS) e1 env1
          else Outcome.done e1 env1).andThen fun e2 env2 =>
        (if a &&& 2 ≠ 0 then
            corexy_home Y_AXIS (e2.home_direction Y_AXIS) (!e2.home_direction Y_AXIS)
              (e2.fast_rates Y_AXIS) (e2.slow_rates Y_AXIS) (e2.retract_steps Y_AXIS) e2 env2
          else Outcome.done e2 env2).andThen fun e3 env3 =>
        (if a &&& 4 ≠ 0 then do_homing 4 e3 env3 else Outcome.done e3 env3).andThen
          fun e4 env4 => Outcome.done (e4.set_status NOT_HOMING) env4 := rfl
  rw [h1]
  generalize do_homing_corexy_search a e env = o at h ⊢
  cases o with
  | done e1 r =>
    simp only [Outcome.andThen, Outcome.state, Outcome.rest]
    rw [if_pos ha]
  | blocked e1 => simp [Outcome.finished] at h

/-- The routine `do_homing_corexy` once the block "Home X" has ended, when Y
is requested: the pass that homes Y, then the rest. -/
theorem do_homing_corexy_of_x (a : Nat) (e : Endstops) (env : List Sample)
    (ha : a &&& 2 ≠ 0) (h : (do_homing_corexy_x a e env).finished = true) :
    do_homing_corexy a e env =
      (corexy_home Y_AXIS (e.home_direction Y_AXIS) (!e.home_direction Y_AXIS)
        (e.fast_rates Y_AXIS) (e.slow_rates Y_AXIS) (e.retract_steps Y_AXIS)
        (do_homing_corexy_x a e env).state (do_homing_corexy_x a e env).rest).andThen
        fun e3 env3 =>
        (if a &&& 4 ≠ 0 then do_homing 4 e3 env3 else Outcome.done e3 env3).andThen
          fun e4 env4 => Outcome.done (e4.set_status NOT_HOMING) env4 := by
  have hcfg := (do_homing_corexy_x_runs a e env).config_of
  rw [← hcfg.home_direction, ← hcfg.fast_rates, ← hcfg.slow_rates, ← hcfg.retract_steps]
  have h1 : do_homing_corexy a e env =
      (do_homing_corexy_x a e env).andThen fun e2 env2 =>
        (if a &&& 2 ≠ 0 then
            corexy_home Y_AXIS (e2.home_direction Y_AXIS) (!e2.home_direction Y_AXIS)
              (e2.fast_rates Y_AXIS) (e2.slow_rates Y_AXIS) (e2.retract_steps Y_AXIS) e2 env2
          else Outcome.done e2 env2).andThen fun e3 env3 =>
        (if a &&& 4 ≠ 0 then do_homing 4 e3 env3 else Outcome.done e3 env3).andThen
          fun e4 env4 => Outcome.done (e4.set_status NOT_HOMING) env4 := by
    unfold do_homing_corexy do_homing_corexy_x do_homing_corexy_search
    rw [Outcome.andThen_assoc]
  rw [h1]
  generalize do_homing_corexy_x a e env = o at h ⊢
  cases o with
  | done e1 r =>
    simp only [Outcome.andThen, Outcome.state, Outcome.rest]
    rw [if_pos ha]
  | blocked e1 => simp [Outcome.finished] at h

/-- C22: the passes of `do_homing_corexy` for a single logical axis.  When X
is requested, the run continues after the combined search with
`corexy_home` for X with both motor directions equal to the home direction of
X; when Y is requested, it continues after the block "Home X" with
`corexy_home` for Y with the X motor in the home direction of Y and the Y
motor in its negation; the rates and the retract distance are those of the
logical axis.  And `corexy_home`, whatever its arguments, sends both motors
`set_speed(0)` and a move of 10000000 steps in the given directions at the
fast rate, then, when the endstop wait has returned, a move of
`retract_steps` steps in the negated directions at the slow rate, then, when
the retract moves have ended, a move of 10000000 steps in the given
directions at the slow rate. -/
theorem corexy_home_pass_commands (a : Nat) (e : Endstops) (env : List Sample) :
    (a &&& 1 ≠ 0 → (do_homing_corexy_search a e env).finished = true →
        (corexy_home X_AXIS (e.home_direction X_AXIS) (e.home_direction X_AXIS)
            (e.fast_rates X_AXIS) (e.slow_rates X_AXIS) (e.retract_steps X_AXIS)
            (do_homing_corexy_search a e env).state
            (do_homing_corexy_search a e env).rest).state.log <+:
          (do_homing_corexy a e env).state.log) ∧
      (a &&& 2 ≠ 0 → (do_homing_corexy_x a e env).finished = true →
        (corexy_home Y_AXIS (e.home_direction Y_AXIS) (!e.home_direction Y_AXIS)
            (e.fast_rates Y_AXIS) (e.slow_rates Y_AXIS) (e.retract_steps Y_AXIS)
            (do_homing_corexy_x a e env).state (do_homing_corexy_x a e env).rest).state.log <+:
          (do_homing_corexy a e env).state.log) ∧
      (∀ (home_axis : Nat) (dirx diry : Bool) (fast_rate slow_rate : ℚ) (retract_steps : Nat)
        (x : Endstops) (env' : List Sample),
        ((corexy_moves dirx diry fast_rate 10000000 MOVING_TO_ORIGIN_FAST x).log =
              x.log ++ [Cmd.set_speed X_AXIS 0, Cmd.move X_AXIS dirx 10000000,
                Cmd.set_speed Y_AXIS 0, Cmd.move Y_AXIS diry 10000000] ∧
            (corexy_moves dirx diry fast_rate 10000000 MOVING_TO_ORIGIN_FAST x).feed_rate X_AXIS
              = fast_rate ∧
            (corexy_moves dirx diry fast_rate 10000000 MOVING_TO_ORIGIN_FAST x).feed_rate Y_AXIS
              = fast_rate ∧
            (corexy_moves dirx diry fast_rate 10000000 MOVING_TO_ORIGIN_FAST x).log <+:
              (corexy_home home_axis dirx diry fast_rate slow_rate retract_steps x
                env').state.log) ∧
          ((corexy_home_seek_fast home_axis dirx diry fast_rate x env').finished = true →
            (corexy_moves (!dirx) (!diry) slow_rate retract_steps MOVING_BACK
                (corexy_home_seek_fast home_axis dirx diry fast_rate x env').state).log =
              (corexy_home_seek_fast home_axis dirx diry fast_rate x env').state.log ++
                [Cmd.set_speed X_AXIS 0, Cmd.move X_AXIS (!dirx) retract_steps,
                  Cmd.set_speed Y_AXIS 0, Cmd.move Y_AXIS (!diry) retract_steps] ∧
            (corexy_moves (!dirx) (!diry) slow_rate retract_steps MOVING_BACK
                (corexy_home_seek_fast home_axis dirx diry fast_rate x
                  env').state).feed_rate X_AXIS = slow_rate ∧
            (corexy_moves (!dirx) (!diry) slow_rate retract_steps MOVING_BACK
                (corexy_home_seek_fast home_axis dirx diry fast_rate x
                  env').state).feed_rate Y_AXIS = slow_rate ∧
            (corexy_moves (!dirx) (!diry) slow_rate retract_steps MOVING_BACK
                (corexy_home_seek_fast home_axis dirx diry fast_rate x env').state).log <+:
              (corexy_home home_axis dirx diry fast_rate slow_rate retract_steps x
                env').state.log) ∧
          ((corexy_home_retract home_axis dirx diry fast_rate slow_rate retract_steps x
              env').finished = true →
            (corexy_moves dirx diry slow_rate 10000000 MOVING_TO_ORIGIN_SLOW
                (corexy_home_retract home_axis dirx diry fast_rate slow_rate retract_steps x
                  env').state).log =
              (corexy_home_retract home_axis dirx diry fast_rate slow_rate retract_steps x
                  env').state.log ++
                [Cmd.set_speed X_AXIS 0, Cmd.move X_AXIS dirx 10000000,
                  Cmd.set_speed Y_AXIS 0, Cmd.move Y_AXIS diry 10000000] ∧
            (corexy_moves dirx diry slow_rate 10000000 MOVING_TO_ORIGIN_SLOW
                (corexy_home_retract home_axis dirx diry fast_rate slow_rate retract_steps x
                  env').state).feed_rate X_AXIS = slow_rate ∧
            (corexy_moves dirx diry slow_rate 10000000 MOVING_TO_ORIGIN_SLOW
                (corexy_home_retract home_axis dirx diry fast_rate slow_rate retract_steps x
                  env').state).feed_rate Y_AXIS = slow_rate ∧
            (corexy_moves dirx diry slow_rate 10000000 MOVING_TO_ORIGIN_SLOW
                (corexy_home_retract home_axis dirx diry fast_rate slow_rate retract_steps x
                  env').state).log <+:
              (corexy_home home_axis dirx diry fast_rate slow_rate retract_steps x
                env').state.log)) := by
  refine ⟨?_, ?_, ?_⟩
  · intro ha hf
    rw [do_homing_corexy_of_search a e env ha hf]
    exact Outcome.andThen_log_grows _ _ (List.prefix_refl _)
      (do_homing_corexy_after_x_log_grows a)
  · intro ha hf
    rw [do_homing_corexy_of_x a e env ha hf]
    exact Outcome.andThen_log_grows _ _ (List.prefix_refl _)
      (do_homing_corexy_after_y_log_grows a)
  · intro home_axis dirx diry fast_rate slow_rate retract_steps x env'
    exact corexy_home_phases home_axis dirx diry fast_rate slow_rate retract_steps x env'

/-- C22 (witness): a CoreXY machine with home directions (min, max), run to
completion.  Homing X alone sends both motors forward, back by 240 steps and
forward again; homing Y alone sends the X motor backward and the Y motor
forward, then each the other way by 240 steps, then as at first. -/
theorem corexy_home_pass_commands_witness :
    (do_homing_corexy_search 1 (corexy_machine true false)
        [all_stopped, all_stopped, all_stopped]).finished = true ∧
      (corexy_home X_AXIS ((corexy_machine true false).home_direction X_AXIS)
          ((corexy_machine true false).home_direction X_AXIS)
          ((corexy_machine true false).fast_rates X_AXIS)
          ((corexy_machine true false).slow_rates X_AXIS)
          ((corexy_machine true false).retract_steps X_AXIS)
          (do_homing_corexy_search 1 (corexy_machine true false)
            [all_stopped, all_stopped, all_stopped]).state
          (do_homing_corexy_search 1 (corexy_machine true false)
            [all_stopped, all_stopped, all_stopped]).rest).state.log <+:
        (do_homing_corexy 1 (corexy_machine true false)
          [all_stopped, all_stopped, all_stopped]).state.log ∧
      (do_homing_corexy 1 (corexy_machine true false)
          [all_stopped, all_stopped, all_stopped]).state.log =
        [Cmd.set_speed 0 0, Cmd.move 0 true 10000000, Cmd.set_speed 1 0, Cmd.move 1 true 10000000,
          Cmd.set_speed 0 0, Cmd.move 0 false 240, Cmd.set_speed 1 0, Cmd.move 1 false 240,
          Cmd.set_speed 0 0, Cmd.move 0 true 10000000, Cmd.set_speed 1 0,
          Cmd.move 1 true 10000000] ∧
      (do_homing_corexy 2 (corexy_machine true false)
          [all_stopped, all_stopped, all_stopped]).state.log =
        [Cmd.set_speed 0 0, Cmd.move 0 false 10000000, Cmd.set_speed 1 0,
          Cmd.move 1 true 10000000,
          Cmd.set_speed 0 0, Cmd.move 0 true 240, Cmd.set_speed 1 0, Cmd.move 1 false 240,
          Cmd.set_speed 0 0, Cmd.move 0 false 10000000, Cmd.set_speed 1 0,
          Cmd.move 1 true 10000000] :=
  ⟨by decide,
    (corexy_home_pass_commands 1 (corexy_machine true false)
      [all_stopped, all_stopped, all_stopped]).1 (by decide) (by decide),
    by decide, by decide⟩

/-! ## The pass of one of X and Y on CoreXY drives both motors -/

theorem and_two_of_and_three (a : Nat) (h : a &&& 3 = 3) : a &&& 2 ≠ 0 := by
  have h1 : (a &&& 3) &&& 2 = a &&& 2 := by
    rw [Nat.and_assoc]
    rfl
  rw [h] at h1
  rw [← h1]
  decide

/-- With X requested and Y not, `do_homing_corexy` begins with the pass that
homes X: it starts both motors in the home direction of X. -/
theorem do_homing_corexy_x_only_starts (a : Nat) (e : Endstops) (env : List Sample)
    (h1 : a &&& 1 ≠ 0) (h2 : a &&& 2 = 0) :
    (e.log ++ [Cmd.set_speed X_AXIS 0, Cmd.move X_AXIS (e.home_direction X_AXIS) 10000000,
        Cmd.set_speed Y_AXIS 0, Cmd.move Y_AXIS (e.home_direction X_AXIS) 10000000]) <+:
      (do_homing_corexy a e env).state.log := by
  have h3 : ¬ a &&& 3 = 3 := fun h => and_two_of_and_three a h h2
  have hs : do_homing_corexy_search a e env = Outcome.done e env := by
    unfold do_homing_corexy_search
    rw [if_neg h3]
  have hf : (do_homing_corexy_search a e env).finished = true := by rw [hs]; rfl
  rw [do_homing_corexy_of_search a e env h1 hf, hs]
  have hp := (corexy_home_phases X_AXIS (e.home_direction X_AXIS) (e.home_direction X_AXIS)
    (e.fast_rates X_AXIS) (e.slow_rates X_AXIS) (e.retract_steps X_AXIS) e env).1
  rw [hp.1] at hp
  exact Outcome.andThen_log_grows _ _ hp.2.2.2 (do_homing_corexy_after_x_log_grows a)

/-- With Y requested and X not, `do_homing_corexy` begins with the pass that
homes Y: it starts the X motor in the home direction of Y and the Y motor in
the opposite direction. -/
theorem do_homing_corexy_y_only_starts (a : Nat) (e : Endstops) (env : List Sample)
    (h1 : a &&& 1 = 0) (h2 : a &&& 2 ≠ 0) :
    (e.log ++ [Cmd.set_speed X_AXIS 0, Cmd.move X_AXIS (e.home_direction Y_AXIS) 10000000,
        Cmd.set_speed Y_AXIS 0, Cmd.move Y_AXIS (!e.home_direction Y_AXIS) 10000000]) <+:
      (do_homing_corexy a e env).state.log := by
  have h3 : ¬ a &&& 3 = 3 := fun h => and_one_of_and_three a h h1
  have hs : do_homing_corexy_x a e env = Outcome.done e env := by
    unfold do_homing_corexy_x do_homing_corexy_search
    rw [if_neg h3]
    simp only [Outcome.andThen]
    rw [if_neg (not_not.2 h1)]
  have hf : (do_homing_corexy_x a e env).finished = true := by rw [hs]; rfl
  rw [do_homing_corexy_of_x a e env h2 hf, hs]
  have hp := (corexy_home_phases Y_AXIS (e.home_direction Y_AXIS) (!e.home_direction Y_AXIS)
    (e.fast_rates Y_AXIS) (e.slow_rates Y_AXIS) (e.retract_steps Y_AXIS) e env).1
  rw [hp.1] at hp
  exact Outcome.andThen_log_grows _ _ hp.2.2.2 (do_homing_corexy_after_y_log_grows a)

/-! ## C15: the steppers a homing cycle leaves alone -/

/-- C15 (amended): with the direct strategy, the stepper of an axis outside
the requested set receives no request during `do_homing`.  With the CoreXY
strategy the Z stepper receives none unless Z is requested, and the X and Y
steppers receive none unless X or Y is requested; but when exactly one of X
and Y is requested, `do_homing_corexy` begins by sending both the X and the Y
stepper `set_speed(0)` and a move of 10000000 steps (both in the home
direction of X when X is the requested one; the X motor in the home direction
of Y and the Y motor in the opposite direction when Y is), so the stepper of
the axis outside the set is driven.  The speed governor `acceleration_tick`,
while the status is not `NOT_HOMING`, sends a speed request to each of the
three steppers that is moving and nothing to one that is not moving, whatever
the requested set. -/
theorem homing_steppers_frame (a : Nat) (e : Endstops) (env : List Sample) :
    (∀ c, ¬ (c < 3 ∧ axis_requested a c = true) →
        cmds_for c (do_homing a e env).state.log = cmds_for c e.log) ∧
      (∀ c, ¬ ((c < 2 ∧ (a &&& 1 ≠ 0 ∨ a &&& 2 ≠ 0)) ∨ (c = 2 ∧ a &&& 4 ≠ 0)) →
        cmds_for c (do_homing_corexy a e env).state.log = cmds_for c e.log) ∧
      (a &&& 1 ≠ 0 → a &&& 2 = 0 →
        (e.log ++ [Cmd.set_speed X_AXIS 0, Cmd.move X_AXIS (e.home_direction X_AXIS) 10000000,
            Cmd.set_speed Y_AXIS 0, Cmd.move Y_AXIS (e.home_direction X_AXIS) 10000000]) <+:
          (do_homing_corexy a e env).state.log) ∧
      (a &&& 1 = 0 → a &&& 2 ≠ 0 →
        (e.log ++ [Cmd.set_speed X_AXIS 0, Cmd.move X_AXIS (e.home_direction Y_AXIS) 10000000,
            Cmd.set_speed Y_AXIS 0, Cmd.move Y_AXIS (!e.home_direction Y_AXIS) 10000000]) <+:
          (do_homing_corexy a e env).state.log) ∧
      (∀ (K : Kernel) (x : Endstops) (c : Nat), c < 3 → x.status ≠ NOT_HOMING →
        cmds_for c (acceleration_tick K x).log =
          cmds_for c x.log ++
            (if (x.steppers c).moving then [Cmd.set_speed c (tick_rate K x c)] else [])) := by
  refine ⟨?_, ?_, do_homing_corexy_x_only_starts a e env,
    do_homing_corexy_y_only_starts a e env, ?_⟩
  · intro c hc
    obtain ⟨t, _, _, hstep⟩ := do_homing_runs a e env
    exact hstep.cmds_for_eq hc
  · intro c hc
    obtain ⟨t, _, _, hstep⟩ := do_homing_corexy_runs a e env
    exact hstep.cmds_for_eq hc
  · intro K x c hc hs
    exact acceleration_tick_cmds_for K x hs hc

/-- C15 (witness): homing X alone on the Cartesian machine sends nothing to
the Y stepper; homing Z alone on a CoreXY machine sends nothing to the X
stepper; homing X alone on a CoreXY machine, whatever the samples, starts
both the X and the Y motor. -/
theorem homing_steppers_frame_witness :
    cmds_for 1 (do_homing 1 (cartesian 0) [all_stopped, all_stopped, all_stopped]).state.log =
        cmds_for 1 (cartesian 0).log ∧
      cmds_for 0 (do_homing_corexy 4 (corexy_machine true true)
          [all_stopped, all_stopped, all_stopped]).state.log =
        cmds_for 0 (corexy_machine true true).log ∧
      ((corexy_machine true true).log ++
          [Cmd.set_speed X_AXIS 0,
            Cmd.move X_AXIS ((corexy_machine true true).home_direction X_AXIS) 10000000,
            Cmd.set_speed Y_AXIS 0,
            Cmd.move Y_AXIS ((corexy_machine true true).home_direction X_AXIS) 10000000]) <+:
        (do_homing_corexy 1 (corexy_machine true true) []).state.log :=
  ⟨(homing_steppers_frame 1 (cartesian 0) [all_stopped, all_stopped, all_stopped]).1 1
      (by decide),
    (homing_steppers_frame 4 (corexy_machine true true)
      [all_stopped, all_stopped, all_stopped]).2.1 0 (by decide),
    (homing_steppers_frame 1 (corexy_machine true true) []).2.2.1 (by decide) (by decide)⟩

/-- C15 (counterexample): a CoreXY machine homing X alone (mask 1), run to
completion: Y is outside the requested set, yet the Y stepper receives a
speed request and a move in each of the three phases. -/
theorem do_homing_corexy_drives_unrequested_stepper :
    (corexy_machine true true).is_corexy = true ∧ axis_requested 1 1 = false ∧
      (do_homing_corexy 1 (corexy_machine true true)
        [all_stopped, all_stopped, all_stopped]).finished = true ∧
      cmds_for 1 (do_homing_corexy 1 (corexy_machine true true)
        [all_stopped, all_stopped, all_stopped]).state.log =
        [Cmd.set_speed 1 0, Cmd.move 1 true 10000000, Cmd.set_speed 1 0, Cmd.move 1 false 240,
          Cmd.set_speed 1 0, Cmd.move 1 true 10000000] := by
  decide

/-! ## C11: an axis whose endstop pin is not connected -/

theorem and_bits_of_requested :
    ∀ a, a < 8 →
      (axis_requested a 0 = true → a &&& 1 ≠ 0) ∧ (axis_requested a 1 = true → a &&& 2 ≠ 0) ∧
      (axis_requested a 0 = false → a &&& 1 = 0) ∧ (axis_requested a 1 = false → a &&& 2 = 0) := by
  decide

/-- On a CoreXY machine the log of the home command extends the log of
`do_homing_corexy`, run on the state in which the motors have been enabled. -/
theorem on_gcode_received_G28_corexy_log_grows (e : Endstops) (gcode : Gcode)
    (env : List Sample) (hx : e.is_corexy = true) :
    (do_homing_corexy (g28_axes_to_move e gcode)
        { e with log := e.log ++ [Cmd.turn_enable_pins_on] } env).state.log <+:
      (on_gcode_received_G28 e gcode env).state.log := by
  have hdef : on_gcode_received_G28 e gcode env =
      (if e.is_corexy then
          do_homing_corexy (g28_axes_to_move e gcode)
            { e with log := e.log ++ [Cmd.turn_enable_pins_on] } env
        else do_homing (g28_axes_to_move e gcode)
            { e with log := e.log ++ [Cmd.turn_enable_pins_on] } env).andThen
        fun e2 env2 => Outcome.done (g28_reset_positions (g28_axes_to_move e gcode) e2) env2 :=
    rfl
  rw [hdef, if_pos hx]
  refine Outcome.andThen_log_grows _ _ (List.prefix_refl _) ?_
  intro e2 env2
  show e2.log <+: (g28_reset_positions (g28_axes_to_move e gcode) e2).log
  rw [g28_reset_positions_log, List.append_assoc, List.append_assoc]
  exact List.prefix_append _ _

/-- C11 (amended): an axis `c` whose relevant endstop pin (`home_pin`, the min
pin when homing to min and the max pin when homing to max) is not connected
is absent from the bitmask of the home command, whatever the command and the
configuration, and its position is not reset.  With the direct strategy its
stepper receives no request.  With the CoreXY strategy the Z stepper receives
none when `c` is Z, and the stepper of `c` receives none when `c` is X or Y
and the other of X and Y is not in the bitmask either; but when the other of
X and Y is in the bitmask, the home command begins, after enabling the
motors, with the pass of that other axis, which sends both the X and the Y
stepper `set_speed(0)` and a move of 10000000 steps: the stepper of the
unconnected axis is driven. -/
theorem home_command_unconnected_axis (e : Endstops) (gcode : Gcode) (env : List Sample)
    (c : Nat) (hc : c < 3) (hp : e.pins_connected (home_pin e c) = false) :
    axis_requested (g28_axes_to_move e gcode) c = false ∧
      resets_for c (on_gcode_received_G28 e gcode env).state.log = resets_for c e.log ∧
      (e.is_corexy = false →
        cmds_for c (on_gcode_received_G28 e gcode env).state.log = cmds_for c e.log) ∧
      (c = Z_AXIS →
        cmds_for c (on_gcode_received_G28 e gcode env).state.log = cmds_for c e.log) ∧
      (e.is_corexy = true → c = Y_AXIS →
        axis_requested (g28_axes_to_move e gcode) X_AXIS = false →
        cmds_for c (on_gcode_received_G28 e gcode env).state.log = cmds_for c e.log) ∧
      (e.is_corexy = true → c = X_AXIS →
        axis_requested (g28_axes_to_move e gcode) Y_AXIS = false →
        cmds_for c (on_gcode_received_G28 e gcode env).state.log = cmds_for c e.log) ∧
      (e.is_corexy = true → c = Y_AXIS →
        axis_requested (g28_axes_to_move e gcode) X_AXIS = true →
        (e.log ++ [Cmd.turn_enable_pins_on, Cmd.set_speed X_AXIS 0,
            Cmd.move X_AXIS (e.home_direction X_AXIS) 10000000, Cmd.set_speed Y_AXIS 0,
            Cmd.move Y_AXIS (e.home_direction X_AXIS) 10000000]) <+:
          (on_gcode_received_G28 e gcode env).state.log) ∧
      (e.is_corexy = true → c = X_AXIS →
        axis_requested (g28_axes_to_move e gcode) Y_AXIS = true →
        (e.log ++ [Cmd.turn_enable_pins_on, Cmd.set_speed X_AXIS 0,
            Cmd.move X_AXIS (e.home_direction Y_AXIS) 10000000, Cmd.set_speed Y_AXIS 0,
            Cmd.move Y_AXIS (!e.home_direction Y_AXIS) 10000000]) <+:
          (on_gcode_received_G28 e gcode env).state.log) := by
  have hr : axis_requested (g28_axes_to_move e gcode) c = false := by
    rw [g28_axis_requested e gcode c hc]
    unfold g28_selected
    rw [hp]
    simp
  have hs := on_gcode_received_G28_spec e gcode env c
  have hlt := g28_axes_to_move_lt e gcode
  obtain ⟨b0, b1, n0, n1⟩ := and_bits_of_requested _ hlt
  refine ⟨hr, ?_, ?_, ?_, ?_, ?_, ?_, ?_⟩
  · rw [hs.1, if_neg (by simp [hr]), List.append_nil]
  · intro hx
    exact hs.2.1 hx (by simp [hr])
  · intro h2
    by_cases hx : e.is_corexy = true
    · refine hs.2.2 hx ?_
      subst h2
      have h4 := and_four_of_not_requested _ hlt hr
      simp [h4, Z_AXIS]
    · exact hs.2.1 (by simpa using hx) (by simp [hr])
  · intro hx h1 h0
    subst h1
    refine hs.2.2 hx ?_
    simp [n0 h0, n1 hr, Y_AXIS]
  · intro hx h0 h1
    subst h0
    refine hs.2.2 hx ?_
    simp [n0 hr, n1 h1, X_AXIS]
  · intro hx h1 h0
    subst h1
    have h := do_homing_corexy_x_only_starts (g28_axes_to_move e gcode)
      { e with log := e.log ++ [Cmd.turn_enable_pins_on] } env (b0 h0) (n1 hr)
    have hl : ({ e with log := e.log ++ [Cmd.turn_enable_pins_on] } : Endstops).log ++
        [Cmd.set_speed X_AXIS 0, Cmd.move X_AXIS (e.home_direction X_AXIS) 10000000,
          Cmd.set_speed Y_AXIS 0, Cmd.move Y_AXIS (e.home_direction X_AXIS) 10000000] =
        e.log ++ [Cmd.turn_enable_pins_on, Cmd.set_speed X_AXIS 0,
          Cmd.move X_AXIS (e.home_direction X_AXIS) 10000000, Cmd.set_speed Y_AXIS 0,
          Cmd.move Y_AXIS (e.home_direction X_AXIS) 10000000] := by
      simp
    rw [← hl]
    exact h.trans (on_gcode_received_G28_corexy_log_grows e gcode env hx)
  · intro hx h0 h1
    subst h0
    have h := do_homing_corexy_y_only_starts (g28_axes_to_move e gcode)
      { e with log := e.log ++ [Cmd.turn_enable_pins_on] } env (n0 hr) (b1 h1)
    have hl : ({ e with log := e.log ++ [Cmd.turn_enable_pins_on] } : Endstops).log ++
        [Cmd.set_speed X_AXIS 0, Cmd.move X_AXIS (e.home_direction Y_AXIS) 10000000,
          Cmd.set_speed Y_AXIS 0, Cmd.move Y_AXIS (!e.home_direction Y_AXIS) 10000000] =
        e.log ++ [Cmd.turn_enable_pins_on, Cmd.set_speed X_AXIS 0,
          Cmd.move X_AXIS (e.home_direction Y_AXIS) 10000000, Cmd.set_speed Y_AXIS 0,
          Cmd.move Y_AXIS (!e.home_direction Y_AXIS) 10000000] := by
      simp
    rw [← hl]
    exact h.trans (on_gcode_received_G28_corexy_log_grows e gcode env hx)

/-- C11 (witness): a delta whose X min pin is not connected: X is not in the
bitmask of `G28`, its position is not reset and its stepper receives no
request; and a CoreXY machine whose Y min pin is not connected: Y is not in
the bitmask, its position is not reset, and the home command starts both
motors for the pass of X. -/
theorem home_command_unconnected_axis_witness :
    delta_without_x_pin.pins_connected (home_pin delta_without_x_pin 0) = false ∧
      axis_requested (g28_axes_to_move delta_without_x_pin g28_plain) 0 = false ∧
      resets_for 0 (on_gcode_received_G28 delta_without_x_pin g28_plain
          [all_stopped, all_stopped, all_stopped]).state.log =
        resets_for 0 delta_without_x_pin.log ∧
      cmds_for 0 (on_gcode_received_G28 delta_without_x_pin g28_plain
          [all_stopped, all_stopped, all_stopped]).state.log =
        cmds_for 0 delta_without_x_pin.log ∧
      corexy_without_y_pin.pins_connected (home_pin corexy_without_y_pin 1) = false ∧
      axis_requested (g28_axes_to_move corexy_without_y_pin g28_plain) 1 = false ∧
      resets_for 1 (on_gcode_received_G28 corexy_without_y_pin g28_plain
          [all_stopped, all_stopped, all_stopped]).state.log =
        resets_for 1 corexy_without_y_pin.log ∧
      (corexy_without_y_pin.log ++ [Cmd.turn_enable_pins_on, Cmd.set_speed X_AXIS 0,
          Cmd.move X_AXIS (corexy_without_y_pin.home_direction X_AXIS) 10000000,
          Cmd.set_speed Y_AXIS 0,
          Cmd.move Y_AXIS (corexy_without_y_pin.home_direction X_AXIS) 10000000]) <+:
        (on_gcode_received_G28 corexy_without_y_pin g28_plain
          [all_stopped, all_stopped, all_stopped]).state.log :=
  ⟨by decide,
    (home_command_unconnected_axis delta_without_x_pin g28_plain
      [all_stopped, all_stopped, all_stopped] 0 (by decide) (by decide)).1,
    (home_command_unconnected_axis delta_without_x_pin g28_plain
      [all_stopped, all_stopped, all_stopped] 0 (by decide) (by decide)).2.1,
    (home_command_unconnected_axis delta_without_x_pin g28_plain
      [all_stopped, all_stopped, all_stopped] 0 (by decide) (by decide)).2.2.1 rfl,
    by decide,
    (home_command_unconnected_axis corexy_without_y_pin g28_plain
      [all_stopped, all_stopped, all_stopped] 1 (by decide) (by decide)).1,
    (home_command_unconnected_axis corexy_without_y_pin g28_plain
      [all_stopped, all_stopped, all_stopped] 1 (by decide) (by decide)).2.1,
    (home_command_unconnected_axis corexy_without_y_pin g28_plain
      [all_stopped, all_stopped, all_stopped] 1 (by decide) (by decide)).2.2.2.2.2.2.1
      rfl rfl (by decide)⟩

/-- C11 (counterexample): a CoreXY machine whose Y min pin is not connected.
Y is not in the bitmask of a plain `G28` (the mask is 5, X and Z), yet the
home command, run to completion, sends the Y stepper the three moves of the
pass that homes X. -/
theorem home_command_unconnected_axis_moved :
    corexy_without_y_pin.is_corexy = true ∧
      corexy_without_y_pin.pins_connected (home_pin corexy_without_y_pin 1) = false ∧
      g28_axes_to_move corexy_without_y_pin g28_plain = 5 ∧
      axis_requested (g28_axes_to_move corexy_without_y_pin g28_plain) 1 = false ∧
      (on_gcode_received_G28 corexy_without_y_pin g28_plain
        [all_stopped, all_stopped, all_stopped, all_stopped, all_stopped, all_stopped]).finished
        = true ∧
      cmds_for 1 (on_gcode_received_G28 corexy_without_y_pin g28_plain
        [all_stopped, all_stopped, all_stopped, all_stopped, all_stopped, all_stopped]).state.log
        = [Cmd.set_speed 1 0, Cmd.move 1 true 10000000, Cmd.set_speed 1 0, Cmd.move 1 false 240,
            Cmd.set_speed 1 0, Cmd.move 1 true 10000000] := by
  decide

/-! ## Rounding to `float` -/

theorem round_half_even_abs_sub_le (q : ℚ) : |(round_half_even q : ℚ) - q| ≤ 1 / 2 := by
  have h1 := Int.floor_le q
  have h2 := Int.lt_floor_add_one q
  unfold round_half_even
  split_ifs with a b c
  · rw [abs_le]
    constructor <;> linarith
  · rw [abs_le]
    push_cast
    constructor <;> linarith
  · rw [abs_le]
    constructor <;> linarith
  · rw [abs_le]
    push_cast
    constructor <;> linarith

theorem round_half_even_intCast (z : Int) : round_half_even (z : ℚ) = z := by
  unfold round_half_even
  rw [Int.floor_intCast, sub_self, if_pos (by norm_num)]

theorem float32_quantum_pos (k : Int) : (0 : ℚ) < 2 ^ k :=
  zpow_pos (by norm_num) k

/-- The rounding error of `float32` is at most half the quantum of the
binade. -/
theorem float32_abs_sub_le (x : ℚ) :
    |float32 x - x| ≤ 2 ^ (float32_exponent x - 23) / 2 := by
  have hu := float32_quantum_pos (float32_exponent x - 23)
  have h := round_half_even_abs_sub_le (x / 2 ^ (float32_exponent x - 23))
  have heq : float32 x - x =
      ((round_half_even (x / 2 ^ (float32_exponent x - 23)) : ℚ)
        - x / 2 ^ (float32_exponent x - 23)) * 2 ^ (float32_exponent x - 23) := by
    unfold float32
    field_simp
  rw [heq, abs_mul, abs_of_pos hu]
  calc |(round_half_even (x / 2 ^ (float32_exponent x - 23)) : ℚ)
          - x / 2 ^ (float32_exponent x - 23)| * 2 ^ (float32_exponent x - 23)
      ≤ 1 / 2 * 2 ^ (float32_exponent x - 23) := mul_le_mul_of_nonneg_right h (le_of_lt hu)
    _ = 2 ^ (float32_exponent x - 23) / 2 := by ring

theorem float32_exponent_ge (x : ℚ) : -126 ≤ float32_exponent x := by
  unfold float32_exponent
  split_ifs
  · exact le_refl _
  · exact le_max_right _ _

/-- A value below `2 ^ (n + 1)` in magnitude is rounded with exponent at most
`n`. -/
theorem float32_exponent_le (x : ℚ) (n : Int) (hn : -126 ≤ n) (hx : |x| < 2 ^ (n + 1)) :
    float32_exponent x ≤ n := by
  unfold float32_exponent
  split_ifs with h0
  · exact hn
  · have hpos : 0 < |x| := abs_pos.2 h0
    have hlog : Int.log 2 |x| < n + 1 := by
      rw [← Int.lt_zpow_iff_log_lt (by norm_num) hpos]
      exact_mod_cast hx
    exact max_le (by omega) hn

/-- The quantum of the rounding is at most `2 ^ -23` times the magnitude, or
`2 ^ -149` in the subnormal range. -/
theorem zpow_float32_exponent_le (x : ℚ) :
    (2 : ℚ) ^ float32_exponent x ≤ max |x| (2 ^ (-126 : Int)) := by
  unfold float32_exponent
  split_ifs with h0
  · exact le_max_right _ _
  · have hpos : 0 < |x| := abs_pos.2 h0
    have hlog : ((2 : ℕ) : ℚ) ^ Int.log 2 |x| ≤ |x| := Int.zpow_log_le_self (by norm_num) hpos
    have hlog' : (2 : ℚ) ^ Int.log 2 |x| ≤ |x| := by exact_mod_cast hlog
    rcases le_total (Int.log 2 |x|) (-126) with h | h
    · rw [max_eq_right h]
      exact le_max_right _ _
    · rw [max_eq_left h]
      exact le_trans hlog' (le_max_left _ _)

/-- The exponent of a value in the binade of `2 ^ k`. -/
theorem float32_exponent_of_binade (x : ℚ) (k : Int) (hk : -126 ≤ k) (h1 : 2 ^ k ≤ |x|)
    (h2 : |x| < 2 ^ (k + 1)) : float32_exponent x = k := by
  have hpos : 0 < |x| := lt_of_lt_of_le (float32_quantum_pos k) h1
  have h0 : x ≠ 0 := abs_pos.1 hpos
  unfold float32_exponent
  rw [if_neg h0]
  have hlt : Int.log 2 |x| < k + 1 := by
    rw [← Int.lt_zpow_iff_log_lt (by norm_num) hpos]
    exact_mod_cast h2
  have hle : k ≤ Int.log 2 |x| := by
    rw [← Int.zpow_le_iff_le_log (by norm_num) hpos]
    exact_mod_cast h1
  have : Int.log 2 |x| = k := by omega
  rw [this]
  exact max_eq_left hk

/-- An integer below `2 ^ 24` in magnitude is a `float`. -/
theorem float32_intCast (n : Int) (hn : |(n : ℚ)| < 2 ^ (24 : Int)) : float32 (n : ℚ) = n := by
  have hk := float32_exponent_le (n : ℚ) 23 (by norm_num) hn
  obtain ⟨m, hm⟩ : ∃ m : ℕ, float32_exponent (n : ℚ) - 23 = -(m : Int) :=
    ⟨(23 - float32_exponent (n : ℚ)).toNat, by omega⟩
  unfold float32
  rw [hm, zpow_neg, zpow_natCast]
  have hq : (n : ℚ) / ((2 : ℚ) ^ m)⁻¹ = ((n * 2 ^ m : Int) : ℚ) := by
    push_cast
    field_simp
  rw [hq, round_half_even_intCast]
  push_cast
  field_simp

/-- A product below `2 ^ 22` in magnitude is rounded to `float` with an error
of at most one eighth. -/
theorem float32_abs_sub_le_eighth (p : ℚ) (hp : |p| < 2 ^ (22 : Int)) :
    |float32 p - p| ≤ 1 / 8 := by
  have hk := float32_exponent_le p 21 (by norm_num) hp
  have h := float32_abs_sub_le p
  have hq : (2 : ℚ) ^ (float32_exponent p - 23) ≤ 2 ^ (-2 : Int) :=
    zpow_le_zpow_right₀ (by norm_num) (by omega)
  have h2 : (2 : ℚ) ^ (-2 : Int) = 1 / 4 := by norm_num
  rw [h2] at hq
  linarith

/-- The quotient of an integer of magnitude at most `2 ^ 22` by a positive
`s` below `2 ^ 128` is rounded to `float` with an error of at most a quarter
of `1 / s`. -/
theorem float32_div_abs_sub_le (t : Int) (s : ℚ) (hs : 0 < s) (hs2 : s < 2 ^ (128 : Int))
    (ht : |(t : ℚ)| ≤ 2 ^ (22 : Int)) :
    |float32 ((t : ℚ) / s) - (t : ℚ) / s| ≤ 1 / 4 / s := by
  have h := float32_abs_sub_le ((t : ℚ) / s)
  have hz := zpow_float32_exponent_le ((t : ℚ) / s)
  have hsplit : (2 : ℚ) ^ (float32_exponent ((t : ℚ) / s) - 23) =
      2 ^ float32_exponent ((t : ℚ) / s) / 2 ^ (23 : Int) := zpow_sub₀ (by norm_num) _ _
  have hmax : max |(t : ℚ) / s| (2 ^ (-126 : Int)) ≤ 2 ^ (22 : Int) / s := by
    apply max_le
    · rw [abs_div, abs_of_pos hs]
      exact div_le_div_of_nonneg_right ht (le_of_lt hs)
    · rw [le_div_iff₀ hs]
      have h3 : (2 : ℚ) ^ (-126 : Int) * s ≤ 2 ^ (-126 : Int) * 2 ^ (128 : Int) :=
        mul_le_mul_of_nonneg_left (le_of_lt hs2) (le_of_lt (float32_quantum_pos _))
      have h4 : (2 : ℚ) ^ (-126 : Int) * 2 ^ (128 : Int) = 4 := by
        rw [← zpow_add₀ (by norm_num)]
        norm_num
      have h5 : (4 : ℚ) ≤ 2 ^ (22 : Int) := by norm_num
      linarith
  have hb : (2 : ℚ) ^ float32_exponent ((t : ℚ) / s) ≤ 2 ^ (22 : Int) / s := le_trans hz hmax
  rw [hsplit] at h
  have h23 : (0 : ℚ) < 2 ^ (23 : Int) := float32_quantum_pos 23
  have hc : (2 : ℚ) ^ float32_exponent ((t : ℚ) / s) / 2 ^ (23 : Int) / 2 ≤
      2 ^ (22 : Int) / s / 2 ^ (23 : Int) / 2 := by
    apply div_le_div_of_nonneg_right _ (by norm_num)
    exact div_le_div_of_nonneg_right hb (le_of_lt h23)
  have he : (2 : ℚ) ^ (22 : Int) / s / 2 ^ (23 : Int) / 2 = 1 / 4 / s := by
    have hne : s ≠ 0 := ne_of_gt hs
    field_simp
    ring
  rw [he] at hc
  exact le_trans h hc

/-- An integer within `5 / 8` of a value below `2 ^ 22` in magnitude is at
most `2 ^ 22` in magnitude. -/
theorem abs_intCast_le_of_near (t : Int) (p : ℚ) (hp : |p| < 2 ^ (22 : Int))
    (h : |(t : ℚ) - p| ≤ 5 / 8) : |(t : ℚ)| ≤ 2 ^ (22 : Int) := by
  have h22 : (2 : ℚ) ^ (22 : Int) = ((4194304 : Int) : ℚ) := by norm_num
  rw [h22] at hp ⊢
  rw [abs_lt] at hp
  rw [abs_le] at h ⊢
  have h1 : ((t : ℚ)) < ((4194304 : Int) : ℚ) + 1 := by linarith
  have h2 : -((4194304 : Int) : ℚ) - 1 < (t : ℚ) := by linarith
  have h1' : t < 4194304 + 1 := by exact_mod_cast h1
  have h2' : -4194304 - 1 < t := by exact_mod_cast h2
  constructor
  · have : -4194304 ≤ t := by omega
    exact_mod_cast this
  · have : t ≤ 4194304 := by omega
    exact_mod_cast this

theorem round_half_even_of_near (q : ℚ) (n : Int) (h : |q - n| < 1 / 2) :
    round_half_even q = n := by
  rw [abs_lt] at h
  unfold round_half_even
  rcases le_or_lt (n : ℚ) q with hq | hq
  · have hf : ⌊q⌋ = n := by
      rw [Int.floor_eq_iff]
      constructor <;> linarith
    rw [hf, if_pos (by linarith)]
  · have hf : ⌊q⌋ = n - 1 := by
      rw [Int.floor_eq_iff]
      push_cast
      constructor <;> linarith
    rw [hf]
    push_cast
    rw [if_neg (by linarith), if_pos (by linarith)]
    ring

theorem round_half_even_tie (n : Int) (h : n % 2 = 0) :
    round_half_even ((n : ℚ) + 1 / 2) = n := by
  have hf : ⌊(n : ℚ) + 1 / 2⌋ = n := by
    rw [Int.floor_eq_iff]
    constructor <;> linarith
  unfold round_half_even
  rw [hf, if_neg (by norm_num), if_neg (by norm_num), if_pos h]

/-- The `float` nearest to a value in the binade of `2 ^ k`. -/
theorem float32_eq_of_binade (x : ℚ) (k n : Int) (hk : -126 ≤ k) (h1 : 2 ^ k ≤ |x|)
    (h2 : |x| < 2 ^ (k + 1)) (hr : round_half_even (x / 2 ^ (k - 23)) = n) :
    float32 x = n * 2 ^ (k - 23) := by
  unfold float32
  rw [float32_exponent_of_binade x k hk h1 h2, hr]

theorem lround_of_near (q : ℚ) (n : Int) (h : |q - n| < 1 / 2) : lround q = n := by
  rw [abs_lt] at h
  unfold lround
  split_ifs with h0
  · rw [Int.floor_eq_iff]
    constructor <;> linarith
  · have hf : ⌊-q + 1 / 2⌋ = -n := by
      rw [Int.floor_eq_iff]
      push_cast
      constructor <;> linarith
    rw [hf, neg_neg]

/-- The value of `lround` halfway between two negative integers is the one
away from zero. -/
theorem lround_neg_tie (n : Int) (h : n ≤ 0) : lround ((n : ℚ) - 1 / 2) = n - 1 := by
  have hq : (n : ℚ) ≤ 0 := by exact_mod_cast h
  unfold lround
  rw [if_neg (by linarith)]
  have hf : ⌊-((n : ℚ) - 1 / 2) + 1 / 2⌋ = -n + 1 := by
    rw [Int.floor_eq_iff]
    push_cast
    constructor <;> linarith
  rw [hf]
  ring

/-! ## The `float` arithmetic of M666 at concrete values -/

theorem float32_trim_value : float32 (-5227571 / 262144) = -5227571 / 262144 := by
  have hr : round_half_even ((-5227571 / 262144 : ℚ) / 2 ^ ((4 : Int) - 23)) = -10455142 := by
    have hq : (-5227571 / 262144 : ℚ) / 2 ^ ((4 : Int) - 23) = ((-10455142 : Int) : ℚ) := by
      norm_num
    rw [hq, round_half_even_intCast]
  rw [float32_eq_of_binade _ 4 (-10455142) (by norm_num) (by norm_num [abs_of_neg])
    (by norm_num [abs_of_neg]) hr]
  norm_num

theorem float32_trim_product : float32 (-5227571 / 262144 * 2560) = -102101 / 2 := by
  have hr : round_half_even ((-5227571 / 262144 * 2560 : ℚ) / 2 ^ ((15 : Int) - 23)) =
      -13068928 := by
    have hq : (-5227571 / 262144 * 2560 : ℚ) / 2 ^ ((15 : Int) - 23) =
        ((-13068928 : Int) : ℚ) + 1 / 2 := by
      norm_num
    rw [hq, round_half_even_tie _ (by decide)]
  rw [float32_eq_of_binade _ 15 (-13068928) (by norm_num) (by norm_num [abs_of_neg])
    (by norm_num [abs_of_neg]) hr]
  norm_num

theorem lround_trim_product : lround (-102101 / 2) = -51051 := by
  have h := lround_neg_tie (-51050) (by decide)
  have hq : (((-51050 : Int) : ℚ) - 1 / 2) = -102101 / 2 := by norm_num
  rw [hq] at h
  exact h

theorem lround_trim_exact_product : lround (-5227571 / 262144 * 2560) = -51050 :=
  lround_of_near _ _ (by norm_num [abs_lt])

theorem float32_trim_quotient :
    float32 (float32 ((-51051 : Int) : ℚ) / 2560) = -10455245 / 524288 := by
  rw [float32_intCast _ (by norm_num [abs_of_neg])]
  have hr : round_half_even ((((-51051 : Int) : ℚ) / 2560) / 2 ^ ((4 : Int) - 23)) =
      -10455245 :=
    round_half_even_of_near _ _ (by norm_num [abs_lt])
  rw [float32_eq_of_binade _ 4 (-10455245) (by norm_num) (by norm_num [abs_of_neg])
    (by norm_num [abs_of_neg]) hr]
  norm_num

theorem float32_large_product : float32 (16000001 / 16 * 80) = 80000008 := by
  have hr : round_half_even ((16000001 / 16 * 80 : ℚ) / 2 ^ ((26 : Int) - 23)) = 10000001 :=
    round_half_even_of_near _ _ (by norm_num [abs_lt])
  rw [float32_eq_of_binade _ 26 10000001 (by norm_num) (by norm_num [abs_of_pos])
    (by norm_num [abs_of_pos]) hr]
  norm_num

theorem float32_large_quotient :
    float32 (float32 ((80000008 : Int) : ℚ) / 80) = 8000001 / 8 := by
  have hr1 : round_half_even ((((80000008 : Int) : ℚ)) / 2 ^ ((26 : Int) - 23)) = 10000001 := by
    have hq : (((80000008 : Int) : ℚ)) / 2 ^ ((26 : Int) - 23) = ((10000001 : Int) : ℚ) := by
      norm_num
    rw [hq, round_half_even_intCast]
  rw [float32_eq_of_binade _ 26 10000001 (by norm_num) (by norm_num [abs_of_pos])
    (by norm_num [abs_of_pos]) hr1]
  have hr2 : round_half_even (((((10000001 : Int) : ℚ)) * 2 ^ ((26 : Int) - 23) / 80) /
      2 ^ ((19 : Int) - 23)) = 16000002 :=
    round_half_even_of_near _ _ (by norm_num [abs_lt])
  rw [float32_eq_of_binade _ 19 16000002 (by norm_num) (by norm_num [abs_of_pos])
    (by norm_num [abs_of_pos]) hr2]
  norm_num

theorem float32_small_product : float32 (1 / 32 * 80) = 5 / 2 := by
  have hr : round_half_even ((1 / 32 * 80 : ℚ) / 2 ^ ((1 : Int) - 23)) = 10485760 := by
    have hq : (1 / 32 * 80 : ℚ) / 2 ^ ((1 : Int) - 23) = ((10485760 : Int) : ℚ) := by
      norm_num
    rw [hq, round_half_even_intCast]
  rw [float32_eq_of_binade _ 1 10485760 (by norm_num) (by norm_num [abs_of_pos])
    (by norm_num [abs_of_pos]) hr]
  norm_num

theorem lround_small_product : lround (5 / 2) = 3 := by
  unfold lround
  rw [if_pos (by norm_num), Int.floor_eq_iff]
  constructor <;> norm_num

/-! ## The M666 handler and `trim2mm` in `float` arithmetic -/

theorem trim2mm_apply (e : Endstops) (c : Nat) (hc : c < 3) :
    trim2mm e c =
      float32 (float32 (e.trim c : ℚ) / e.steps_per_mm c) * (trim_dir e c : ℚ) := by
  unfold trim2mm
  interval_cases c <;> simp [Function.update]

theorem on_gcode_received_M666_trim (e : Endstops) (gcode : Gcode) (c : Nat) (hc : c < 3) :
    (on_gcode_received_M666 e gcode).trim c =
      lround (float32 (m666_mm e gcode c * e.steps_per_mm c)) * trim_dir e c := by
  unfold on_gcode_received_M666
  interval_cases c <;> simp [Function.update]

theorem m666_mm_apply (e : Endstops) (gcode : Gcode) (c : Nat) (hc : c < 3) (v : ℚ)
    (hv : gcode.letters (axis_letter c) = some v) : m666_mm e gcode c = v := by
  unfold m666_mm
  interval_cases c
  · have hx : gcode.letters 'X' = some v := hv
    simp only [Gcode.has_letter, Gcode.get_value, hx, Option.isSome_some, Option.getD_some,
      if_true]
    split_ifs <;> simp [Function.update]
  · have hy : gcode.letters 'Y' = some v := hv
    simp only [Gcode.has_letter, Gcode.get_value, hy, Option.isSome_some, Option.getD_some,
      if_true]
    split_ifs <;> simp [Function.update]
  · have hz : gcode.letters 'Z' = some v := hv
    simp only [Gcode.has_letter, Gcode.get_value, hz, Option.isSome_some, Option.getD_some,
      if_true]
    simp [Function.update]

theorem trim_dir_of_home_to_min (e : Endstops) (c : Nat) (hdir : e.home_direction c = true) :
    trim_dir e c = 1 := by
  unfold trim_dir
  rw [hdir]
  rfl

/-- The trim stored by M666 for an axis homing to min whose letter carries
`v`. -/
theorem m666_trim_of_letter (e : Endstops) (gcode : Gcode) (c : Nat) (hc : c < 3)
    (hdir : e.home_direction c = true) (v : ℚ) (hv : gcode.letters (axis_letter c) = some v) :
    (on_gcode_received_M666 e gcode).trim c = lround (float32 (v * e.steps_per_mm c)) := by
  rw [on_gcode_received_M666_trim e gcode c hc, m666_mm_apply e gcode c hc v hv,
    trim_dir_of_home_to_min e c hdir, mul_one]

/-- The value `trim2mm` reads back after M666 for an axis homing to min. -/
theorem m666_read_back (e : Endstops) (gcode : Gcode) (c : Nat) (hc : c < 3)
    (hdir : e.home_direction c = true) :
    trim2mm (on_gcode_received_M666 e gcode) c =
      float32 (float32 ((on_gcode_received_M666 e gcode).trim c : ℚ) / e.steps_per_mm c) := by
  have hd : trim_dir (on_gcode_received_M666 e gcode) c = 1 :=
    trim_dir_of_home_to_min _ c hdir
  have hsame : (on_gcode_received_M666 e gcode).steps_per_mm c = e.steps_per_mm c := rfl
  rw [trim2mm_apply _ c hc, hd, hsame]
  push_cast
  rw [mul_one]

/-! ## C14: the round trip of a trim through M666 and `trim2mm` -/

/-- C14 (amended): for an axis `c` homing to min with
`0 < s = steps_per_mm[c] < 2 ^ 128`, and a value `v` given with its letter
such that `|v * s| < 2 ^ 22`: the M666 handler stores the trim
`lround (float32 (v * s))`, the product being rounded to `float` before
`lround`; the stored trim is within `5 / 8` of `v * s`, differs from
`lround (v * s)` by at most one, and is at most `2 ^ 22` in magnitude;
`trim2mm` then reads it back as the `float` quotient `float32 (trim / s)`,
which differs from `v` by at most `1 / s` (one step). -/
theorem m666_trim2mm_round_trip (e : Endstops) (gcode : Gcode) (c : Nat) (hc : c < 3)
    (hdir : e.home_direction c = true) (hs : 0 < e.steps_per_mm c)
    (hs2 : e.steps_per_mm c < 2 ^ 128) (v : ℚ)
    (hv : gcode.letters (axis_letter c) = some v)
    (hr : |v * e.steps_per_mm c| < 2 ^ 22) :
    (on_gcode_received_M666 e gcode).trim c = lround (float32 (v * e.steps_per_mm c)) ∧
      |((on_gcode_received_M666 e gcode).trim c : ℚ) - v * e.steps_per_mm c| ≤ 5 / 8 ∧
      |(on_gcode_received_M666 e gcode).trim c - lround (v * e.steps_per_mm c)| ≤ 1 ∧
      |((on_gcode_received_M666 e gcode).trim c : ℚ)| ≤ 2 ^ 22 ∧
      trim2mm (on_gcode_received_M666 e gcode) c =
        float32 (((on_gcode_received_M666 e gcode).trim c : ℚ) / e.steps_per_mm c) ∧
      |trim2mm (on_gcode_received_M666 e gcode) c - v| ≤ 1 / e.steps_per_mm c := by
  have hr' : |v * e.steps_per_mm c| < 2 ^ (22 : Int) := by
    have h22 : (2 : ℚ) ^ (22 : Int) = 2 ^ 22 := by norm_num
    rw [h22]
    exact hr
  have hs2' : e.steps_per_mm c < 2 ^ (128 : Int) := by
    have h128 : (2 : ℚ) ^ (128 : Int) = 2 ^ 128 := by norm_num
    rw [h128]
    exact hs2
  have ht := m666_trim_of_letter e gcode c hc hdir v hv
  generalize (on_gcode_received_M666 e gcode).trim c = t at ht
  have hread := m666_read_back e gcode c hc hdir
  rw [m666_trim_of_letter e gcode c hc hdir v hv, ← ht] at hread
  -- the error of the stored trim
  have h1 := float32_abs_sub_le_eighth (v * e.steps_per_mm c) hr'
  have h2 := lround_abs_sub_le (float32 (v * e.steps_per_mm c))
  rw [← ht] at h2
  have hnear : |(t : ℚ) - v * e.steps_per_mm c| ≤ 5 / 8 := by
    rw [abs_le] at h1 h2 ⊢
    constructor <;> linarith
  have hmag' := abs_intCast_le_of_near t (v * e.steps_per_mm c) hr' hnear
  have hmag : |(t : ℚ)| ≤ 2 ^ 22 := by
    have h22 : (2 : ℚ) ^ (22 : Int) = 2 ^ 22 := by norm_num
    rw [← h22]
    exact hmag'
  -- the stored trim is a `float`
  have hfl : float32 (t : ℚ) = t :=
    float32_intCast t (lt_of_le_of_lt hmag' (by norm_num))
  rw [hfl] at hread
  -- the distance to the exact rounding
  have h3 := lround_abs_sub_le (v * e.steps_per_mm c)
  have hone : |t - lround (v * e.steps_per_mm c)| ≤ 1 := by
    have hq : |((t - lround (v * e.steps_per_mm c) : Int) : ℚ)| < 2 := by
      push_cast
      rw [abs_le] at hnear h3
      rw [abs_lt]
      constructor <;> linarith
    have hz : |t - lround (v * e.steps_per_mm c)| < 2 := by
      exact_mod_cast hq
    omega
  refine ⟨ht, hnear, hone, hmag, hread, ?_⟩
  rw [hread]
  have h4 := float32_div_abs_sub_le t (e.steps_per_mm c) hs hs2' hmag'
  have hne : e.steps_per_mm c ≠ 0 := ne_of_gt hs
  have h5 : |(t : ℚ) / e.steps_per_mm c - v| ≤ 5 / 8 / e.steps_per_mm c := by
    have heq : (t : ℚ) / e.steps_per_mm c - v =
        ((t : ℚ) - v * e.steps_per_mm c) / e.steps_per_mm c := by
      field_simp
      ring
    rw [heq, abs_div, abs_of_pos hs]
    exact div_le_div_of_nonneg_right hnear (le_of_lt hs)
  have h6 : (1 : ℚ) / 4 / e.steps_per_mm c + 5 / 8 / e.steps_per_mm c ≤
      1 / e.steps_per_mm c := by
    rw [← add_div]
    exact div_le_div_of_nonneg_right (by norm_num) (le_of_lt hs)
  have h7 := abs_sub_le (float32 ((t : ℚ) / e.steps_per_mm c)) ((t : ℚ) / e.steps_per_mm c) v
  linarith

/-- C14 (witness): `M666 X0.03125` on the Cartesian machine (80 steps per mm,
X homing to min): the product 2.5 is a `float`, 3 steps are stored, and the
value read back is within `1 / 80` mm of 0.03125. -/
theorem m666_trim2mm_round_trip_witness :
    (cartesian 0).home_direction 0 = true ∧ (cartesian 0).steps_per_mm 0 = 80 ∧
      (m666_x (1 / 32)).letters (axis_letter 0) = some (1 / 32) ∧
      (on_gcode_received_M666 (cartesian 0) (m666_x (1 / 32))).trim 0 = 3 ∧
      |trim2mm (on_gcode_received_M666 (cartesian 0) (m666_x (1 / 32))) 0 - 1 / 32| ≤
        1 / (cartesian 0).steps_per_mm 0 := by
  have h80 : (cartesian 0).steps_per_mm 0 = 80 := rfl
  have h := m666_trim2mm_round_trip (cartesian 0) (m666_x (1 / 32)) 0 (by decide) rfl
    (by rw [h80]; norm_num) (by rw [h80]; norm_num) (1 / 32) rfl
    (by rw [h80]; norm_num [abs_of_pos])
  refine ⟨rfl, rfl, rfl, ?_, h.2.2.2.2.2⟩
  rw [h.1, h80, float32_small_product, lround_small_product]

/-- C14 (counterexample): `M666 X-19.9416` on a machine with 2560 steps per
mm, X homing to min.  The value received is the `float`
`-5227571 / 262144`; its exact product with 2560 is `-26137855 / 512`, just
above -51050.5, which `lround` would take to -51050; the `float` product is
-51050.5 and the trim stored is -51051.  The value read back is the `float`
`-10455245 / 524288`, which is neither `-51050 / 2560` nor
`-51051 / 2560`. -/
theorem m666_stored_trim_not_round :
    fine_pitch.home_direction 0 = true ∧ fine_pitch.steps_per_mm 0 = 2560 ∧
      float32 (-5227571 / 262144) = -5227571 / 262144 ∧
      (on_gcode_received_M666 fine_pitch (m666_x (-5227571 / 262144))).trim 0 = -51051 ∧
      lround (-5227571 / 262144 * fine_pitch.steps_per_mm 0) = -51050 ∧
      trim2mm (on_gcode_received_M666 fine_pitch (m666_x (-5227571 / 262144))) 0 =
        -10455245 / 524288 ∧
      trim2mm (on_gcode_received_M666 fine_pitch (m666_x (-5227571 / 262144))) 0 ≠
        (lround (-5227571 / 262144 * fine_pitch.steps_per_mm 0) : ℚ) /
          fine_pitch.steps_per_mm 0 := by
  have hs : fine_pitch.steps_per_mm 0 = 2560 := rfl
  have ht : (on_gcode_received_M666 fine_pitch (m666_x (-5227571 / 262144))).trim 0 =
      -51051 := by
    rw [m666_trim_of_letter fine_pitch (m666_x (-5227571 / 262144)) 0 (by decide) rfl
      (-5227571 / 262144) rfl, hs, float32_trim_product, lround_trim_product]
  have hm : trim2mm (on_gcode_received_M666 fine_pitch (m666_x (-5227571 / 262144))) 0 =
      -10455245 / 524288 := by
    rw [m666_read_back fine_pitch (m666_x (-5227571 / 262144)) 0 (by decide) rfl, ht, hs]
    exact float32_trim_quotient
  refine ⟨rfl, rfl, float32_trim_value, ht, ?_, hm, ?_⟩
  · rw [hs]
    exact lround_trim_exact_product
  · rw [hm, hs, lround_trim_exact_product]
    norm_num

/-- Beyond the range of C14: `M666 X1000000.0625` on the Cartesian machine
(80 steps per mm, X homing to min).  The value is a `float`; the `float`
product is 80000008, which is the trim stored, and the value read back is
1000000.125, which is five steps (`1 / 16` mm) from the value given. -/
theorem m666_large_value_read_back :
    (on_gcode_received_M666 (cartesian 0) (m666_x (16000001 / 16))).trim 0 = 80000008 ∧
      trim2mm (on_gcode_received_M666 (cartesian 0) (m666_x (16000001 / 16))) 0 =
        8000001 / 8 ∧
      1 / (cartesian 0).steps_per_mm 0 <
        |trim2mm (on_gcode_received_M666 (cartesian 0) (m666_x (16000001 / 16))) 0
          - 16000001 / 16| := by
  have hs : (cartesian 0).steps_per_mm 0 = 80 := rfl
  have ht : (on_gcode_received_M666 (cartesian 0) (m666_x (16000001 / 16))).trim 0 =
      80000008 := by
    rw [m666_trim_of_letter (cartesian 0) (m666_x (16000001 / 16)) 0 (by decide) rfl
      (16000001 / 16) rfl, hs, float32_large_product]
    exact lround_intCast 80000008
  have hm : trim2mm (on_gcode_received_M666 (cartesian 0) (m666_x (16000001 / 16))) 0 =
      8000001 / 8 := by
    rw [m666_read_back (cartesian 0) (m666_x (16000001 / 16)) 0 (by decide) rfl, ht, hs]
    exact float32_large_quotient
  refine ⟨ht, hm, ?_⟩
  rw [hm, hs]
  norm_num [abs_of_pos]

/-! ## M666 without a letter for an axis, in `float` arithmetic -/

theorem m666_mm_absent (e : Endstops) (gcode : Gcode) (c : Nat) (hc : c < 3)
    (hv : gcode.letters (axis_letter c) = none) : m666_mm e gcode c = trim2mm e c := by
  unfold m666_mm
  interval_cases c
  · have hx : gcode.letters 'X' = none := hv
    simp only [Gcode.has_letter, hx, Option.isSome_none, Bool.false_eq_true, if_false]
    split_ifs <;> simp [Function.update]
  · have hy : gcode.letters 'Y' = none := hv
    simp only [Gcode.has_letter, hy, Option.isSome_none, Bool.false_eq_true, if_false]
    split_ifs <;> simp [Function.update]
  · have hz : gcode.letters 'Z' = none := hv
    simp only [Gcode.has_letter, hz, Option.isSome_none, Bool.false_eq_true, if_false]
    split_ifs <;> simp [Function.update]

theorem trim_dir_abs (e : Endstops) (c : Nat) : |(trim_dir e c : ℚ)| = 1 := by
  unfold trim_dir
  split_ifs <;> simp

/-- In `float` arithmetic too, for an axis `c` with
`0 < steps_per_mm[c] < 2 ^ 128` and a stored trim below `2 ^ 22` in
magnitude, whichever way the axis homes, an M666 command that carries no
letter for that axis leaves `trim[c]` as it was: the rounding errors of the
quotient and of the product add up to at most `3 / 8` of a step. -/
theorem m666_absent_letter_keeps_trim_float32 (e : Endstops) (gcode : Gcode) (c : Nat)
    (hc : c < 3) (hs : 0 < e.steps_per_mm c) (hs2 : e.steps_per_mm c < 2 ^ 128)
    (ht : |e.trim c| < 2 ^ 22) (hv : gcode.letters (axis_letter c) = none) :
    (on_gcode_received_M666 e gcode).trim c = e.trim c := by
  have hs2' : e.steps_per_mm c < 2 ^ (128 : Int) := by
    have h128 : (2 : ℚ) ^ (128 : Int) = 2 ^ 128 := by norm_num
    rw [h128]
    exact hs2
  have hne : e.steps_per_mm c ≠ 0 := ne_of_gt hs
  have ht1 : |e.trim c| ≤ 4194303 := by
    have : (2 : Int) ^ 22 = 4194304 := by norm_num
    omega
  have ht2 : |(e.trim c : ℚ)| ≤ 4194303 := by exact_mod_cast ht1
  have ht3 : |(e.trim c : ℚ)| ≤ 2 ^ (22 : Int) := le_trans ht2 (by norm_num)
  have hfl : float32 (e.trim c : ℚ) = e.trim c :=
    float32_intCast _ (lt_of_le_of_lt ht2 (by norm_num))
  rw [on_gcode_received_M666_trim e gcode c hc, m666_mm_absent e gcode c hc hv,
    trim2mm_apply e c hc, hfl]
  have hq := float32_div_abs_sub_le (e.trim c) (e.steps_per_mm c) hs hs2' ht3
  generalize float32 ((e.trim c : ℚ) / e.steps_per_mm c) = q at hq
  -- the exact product is within a quarter of the trim
  have hqs : |q * e.steps_per_mm c - e.trim c| ≤ 1 / 4 := by
    have heq : q * e.steps_per_mm c - e.trim c =
        (q - (e.trim c : ℚ) / e.steps_per_mm c) * e.steps_per_mm c := by
      field_simp
    rw [heq, abs_mul, abs_of_pos hs]
    calc |q - (e.trim c : ℚ) / e.steps_per_mm c| * e.steps_per_mm c
        ≤ 1 / 4 / e.steps_per_mm c * e.steps_per_mm c :=
          mul_le_mul_of_nonneg_right hq (le_of_lt hs)
      _ = 1 / 4 := by
        field_simp
        ring
  have hd := trim_dir_abs e c
  have hprod : |q * (trim_dir e c : ℚ) * e.steps_per_mm c
      - ((e.trim c * trim_dir e c : Int) : ℚ)| ≤ 1 / 4 := by
    have heq : q * (trim_dir e c : ℚ) * e.steps_per_mm c
        - ((e.trim c * trim_dir e c : Int) : ℚ) =
        (q * e.steps_per_mm c - e.trim c) * (trim_dir e c : ℚ) := by
      push_cast
      ring
    rw [heq, abs_mul, hd, mul_one]
    exact hqs
  have hmag : |q * (trim_dir e c : ℚ) * e.steps_per_mm c| < 2 ^ (22 : Int) := by
    have h1 : |((e.trim c * trim_dir e c : Int) : ℚ)| ≤ 4194303 := by
      push_cast
      rw [abs_mul, hd, mul_one]
      exact ht2
    have h2 := abs_sub_abs_le_abs_sub (q * (trim_dir e c : ℚ) * e.steps_per_mm c)
      ((e.trim c * trim_dir e c : Int) : ℚ)
    have h3 : (2 : ℚ) ^ (22 : Int) = 4194304 := by norm_num
    rw [h3]
    linarith
  have hf := float32_abs_sub_le_eighth _ hmag
  have hnear : |float32 (q * (trim_dir e c : ℚ) * e.steps_per_mm c)
      - ((e.trim c * trim_dir e c : Int) : ℚ)| < 1 / 2 := by
    rw [abs_le] at hf hprod
    rw [abs_lt]
    constructor <;> linarith
  rw [lround_of_near _ _ hnear, mul_assoc, trim_dir_mul_self, mul_one]

end Smoothie
